import Mathlib

/-!
# go-warehouse: a verification development

Shallow embedding of the parts of the `go-warehouse` service that carry design
content: the reflective partial-update merge (`utils/reflect.go`), the password and
token helpers (`utils/bcrypt.go`), the entity services (`services/*.go`) and the
authorization middleware (`middleware/authorize-jwt.go`).

Conventions of the embedding

* Go `string` and `[]byte` are `String`; Go `int` is `Int`, Go `uint` is `Nat`;
  a `float64` is carried by its IEEE-754 bit pattern.
* Go `error` is `Option Error` (`none` is `nil`).
* A Go panic is the `none` of an `Option` result.
* Repositories are interfaces in the source; here they are records of functions over an
  explicit store state `σ`.
* Third-party libraries (bcrypt, jwt-go, the clock) are records of functions or explicit
  arguments; nothing is assumed about them except where a theorem says so.
-/

set_option autoImplicit false

namespace GoWarehouse

/-! ## Go values seen through `reflect` -/

/-- Comparable Go values: the operand kinds on which Go's `==` is defined and does not
panic. A `float64` is its IEEE-754 bit pattern, a pointer is its address (`0` is `nil`),
a struct is the list of its fields in declaration order. These, with slices, are the
kinds of every field of every struct the repository hands to `CopyNonEmptyFields`
(strings, integers, `float64`, `time.Time`, `gorm.Model`, slices); all fields are
exported. Kinds on which the comparison of line 24 itself panics (maps, functions) are
not part of the embedding. -/
inductive Value where
  | str (s : String)
  | int (i : Int)
  | uint (n : Nat)
  | float (bits : Nat)
  | bool (b : Bool)
  | ptr (addr : Nat)
  | struct (fields : List Value)

/-- A struct field as `reflect.Value.Field(i)` presents it: either a comparable value or a
slice (`Kind() == reflect.Slice`), the latter `nil` (`none`) or a list of elements. -/
inductive FieldValue where
  | val (v : Value)
  | slice (elems : Option (List Value))

/-- The bit pattern `bits` (taken modulo `2^64`) is a NaN: exponent all ones, mantissa
non-zero. -/
def isNaN (bits : Nat) : Bool :=
  ((bits % 2 ^ 64) / 2 ^ 52) % 2 ^ 11 == 2047 && (bits % 2 ^ 64) % 2 ^ 52 != 0

/-- Go's `==` on two `float64`: NaN equals nothing, `+0` equals `-0`, otherwise the bit
patterns agree. -/
def floatEq (a b : Nat) : Bool :=
  !isNaN a && !isNaN b &&
    (a % 2 ^ 64 == b % 2 ^ 64 || (a % 2 ^ 63 == 0 && b % 2 ^ 63 == 0))

mutual
/-- The zero value of the type of `v`, as `reflect.Zero(v.Type())` builds it. -/
def Value.Zero : Value → Value
  | .str _ => .str ""
  | .int _ => .int 0
  | .uint _ => .uint 0
  | .float _ => .float 0
  | .bool _ => .bool false
  | .ptr _ => .ptr 0
  | .struct fs => .struct (Value.ZeroList fs)
/-- Field-wise `Value.Zero`. -/
def Value.ZeroList : List Value → List Value
  | [] => []
  | v :: vs => v.Zero :: Value.ZeroList vs
end

mutual
/-- Go's `==` on two interface values holding comparable values: equal dynamic types and
equal contents, structs field by field. -/
def Value.eq : Value → Value → Bool
  | .str a, .str b => a == b
  | .int a, .int b => a == b
  | .uint a, .uint b => a == b
  | .float a, .float b => floatEq a b
  | .bool a, .bool b => a == b
  | .ptr a, .ptr b => a == b
  | .struct xs, .struct ys => Value.eqList xs ys
  | _, _ => false
/-- Field-wise `Value.eq`. -/
def Value.eqList : List Value → List Value → Bool
  | [], [] => true
  | a :: xs, b :: ys => Value.eq a b && Value.eqList xs ys
  | _, _ => false
end

mutual
/-- Two values have the same type, as far as a value shows its type: the same kind, and
for structs the same field types in the same order. -/
def Value.sameType : Value → Value → Bool
  | .str _, .str _ => true
  | .int _, .int _ => true
  | .uint _, .uint _ => true
  | .float _, .float _ => true
  | .bool _, .bool _ => true
  | .ptr _, .ptr _ => true
  | .struct xs, .struct ys => Value.sameTypeList xs ys
  | _, _ => false
/-- Field-wise `Value.sameType`. -/
def Value.sameTypeList : List Value → List Value → Bool
  | [], [] => true
  | a :: xs, b :: ys => Value.sameType a b && Value.sameTypeList xs ys
  | _, _ => false
end

/-- Assignability of one field value to another field (`reflect.Value.Set` panics
without it). -/
def FieldValue.sameType : FieldValue → FieldValue → Bool
  | .val a, .val b => Value.sameType a b
  | .slice _, .slice _ => true
  | _, _ => false

/-- The `Len()` of a slice; a `nil` slice has length 0. -/
def sliceLen : Option (List Value) → Nat
  | none => 0
  | some xs => xs.length

/-- The part of `reflect.Value` that `CopyNonEmptyFields` uses on the struct behind a
pointer: `NumField()`, `Field(i)` and `Field(i).Set(v)`. `none` is a panic (index out of
range, value not assignable). -/
class GoStruct (α : Type) where
  NumField : α → Nat
  Field : α → Nat → Option FieldValue
  Set : α → Nat → FieldValue → Option α

/-- One iteration of the loop of `CopyNonEmptyFields` (reflect.go lines 12-27). -/
def copyField {α : Type} [GoStruct α] (dest src : α) (i : Nat) : Option α :=
  match GoStruct.Field dest i, GoStruct.Field src i with
  | some _, some srcField =>
    match srcField with
    | .slice elems =>
      if sliceLen elems > 0 then GoStruct.Set dest i srcField else some dest
    | .val v =>
      if !(Value.eq v (Value.Zero v)) then GoStruct.Set dest i srcField else some dest
  | _, _ => none

/-- The loop `for i := 0; i < destValue.NumField(); i++` with `n` iterations left, at
index `i`; setting a field does not change the number of fields. -/
def copyLoop {α : Type} [GoStruct α] (src : α) : Nat → Nat → α → Option α
  | 0, _, dest => some dest
  | n + 1, i, dest => (copyField dest src i).bind (copyLoop src n (i + 1))

/-- `utils.CopyNonEmptyFields(dest, src)`: the new contents of `*dest`. `*src` is only
read, so it has no place in the result. -/
def CopyNonEmptyFields {α : Type} [GoStruct α] (dest src : α) : Option α :=
  copyLoop src (GoStruct.NumField dest) 0 dest

/-- A struct of any type, given by the list of its top-level fields. -/
instance : GoStruct (List FieldValue) where
  NumField xs := xs.length
  Field xs i := xs[i]?
  Set xs i v :=
    match xs[i]? with
    | some old => if FieldValue.sameType old v then some (xs.set i v) else none
    | none => none

/-! ### The words of the specification -/

/-- The `float64` with this bit pattern is a zero, `+0` or `-0`: all bits below the sign
bit are clear. -/
def isZeroFloat (bits : Nat) : Bool := bits % 2 ^ 63 == 0

mutual
/-- The value is the zero value of its type in the sense of the specification: the empty
string, a number equal to zero, `false`, the `nil` pointer, a struct of such fields. -/
def Value.IsZeroValue : Value → Bool
  | .str s => s == ""
  | .int i => i == 0
  | .uint n => n == 0
  | .float bits => isZeroFloat bits
  | .bool b => b == false
  | .ptr a => a == 0
  | .struct fs => Value.IsZeroList fs
/-- Every value of the list is a zero value. -/
def Value.IsZeroList : List Value → Bool
  | [] => true
  | v :: vs => v.IsZeroValue && Value.IsZeroList vs
end

/-- The field is "non-empty" in the sense of the specification: a non-zero value, or a
slice of length greater than 0. -/
def FieldValue.NonEmpty : FieldValue → Bool
  | .val v => !v.IsZeroValue
  | .slice elems => decide (0 < sliceLen elems)

/-- Two structs have the same struct type: the same number of fields, of the same types
position by position. -/
def SameStructType : List FieldValue → List FieldValue → Bool
  | [], [] => true
  | a :: xs, b :: ys => FieldValue.sameType a b && SameStructType xs ys
  | _, _ => false

/-! ## Models (`models/*.go`) -/

/-- A `time.Time` as Go's `==` sees it: the wall word, the extended word and the location
pointer (`0` is `nil`). The zero `time.Time` has all three zero. -/
structure Time where
  wall : Nat
  ext : Int
  loc : Nat
  deriving DecidableEq

/-- The `gorm.DeletedAt` of `gorm.Model` (a `sql.NullTime`). -/
structure DeletedAt where
  Time : Time
  Valid : Bool
  deriving DecidableEq

/-- The `gorm.Model` every entity except `Role` embeds: `ID uint`, `CreatedAt`,
`UpdatedAt time.Time`, `DeletedAt gorm.DeletedAt`, in this order. -/
structure Model where
  ID : Nat
  CreatedAt : Time
  UpdatedAt : Time
  DeletedAt : DeletedAt
  deriving DecidableEq

/-- `models.User`. -/
structure User where
  Model : Model
  FirstName : String
  LastName : String
  Username : String
  Password : String
  RoleID : Int
  deriving DecidableEq

/-- `models.UserDTO`. -/
structure UserDTO where
  ID : Nat
  FirstName : String
  LastName : String
  Username : String
  RoleID : Int
  deriving DecidableEq

/-- `models.Login`. -/
structure Login where
  Username : String
  Password : String
  deriving DecidableEq

/-- `models.Role`; `Users` is a slice (`none` is the `nil` slice). -/
structure Role where
  ID : Nat
  Name : String
  Users : Option (List User)
  deriving DecidableEq

/-- `models.RoleDTO`. -/
structure RoleDTO where
  ID : Nat
  Name : String
  deriving DecidableEq

/-- `models.Item`; `Price` is the bit pattern of a `float64`. -/
structure Item where
  Model : Model
  Name : String
  Description : String
  Code : String
  TotalQuantity : Int
  AvailableQuantity : Int
  Price : Nat
  Category : String
  deriving DecidableEq

/-- `models.ItemDTO`. -/
structure ItemDTO where
  ID : Nat
  Name : String
  Description : String
  Code : String
  Price : Nat
  Category : String
  deriving DecidableEq

/-- `models.Truck`. -/
structure Truck where
  Model : Model
  ChassisNumber : String
  LicensePlate : String
  deriving DecidableEq

/-- `models.TruckDTO`. -/
structure TruckDTO where
  ID : Nat
  ChassisNumber : String
  LicensePlate : String
  deriving DecidableEq

/-- `models.OrderItem`. -/
structure OrderItem where
  Model : Model
  ItemId : Int
  OrderId : Int
  Quantity : Int
  deriving DecidableEq

/-- `models.Order`; `OrderItems` is a slice (`none` is the `nil` slice). -/
structure Order where
  Model : Model
  Code : String
  SubmittedDate : Time
  DeadlineDate : Time
  UserID : Int
  OrderItems : Option (List OrderItem)
  deriving DecidableEq

/-- `models.Pagination`. -/
structure Pagination where
  Page : Int
  Limit : Int
  deriving DecidableEq

/-! ### Zero values (`models.User{}` and the like) -/

/-- The zero `time.Time`. -/
def Time.zero : Time := ⟨0, 0, 0⟩
/-- The zero `gorm.DeletedAt`. -/
def DeletedAt.zero : DeletedAt := ⟨Time.zero, false⟩
/-- The zero `gorm.Model`. -/
def Model.zero : Model := ⟨0, Time.zero, Time.zero, DeletedAt.zero⟩
/-- The value of `models.User{}`. -/
def User.zero : User := ⟨Model.zero, "", "", "", "", 0⟩
/-- The value of `models.UserDTO{}`. -/
def UserDTO.zero : UserDTO := ⟨0, "", "", "", 0⟩
/-- The value of `models.Role{}`. -/
def Role.zero : Role := ⟨0, "", none⟩
/-- The value of `models.RoleDTO{}`. -/
def RoleDTO.zero : RoleDTO := ⟨0, ""⟩
/-- The value of `models.Item{}`. -/
def Item.zero : Item := ⟨Model.zero, "", "", "", 0, 0, 0, ""⟩
/-- The value of `models.ItemDTO{}`. -/
def ItemDTO.zero : ItemDTO := ⟨0, "", "", "", 0, ""⟩
/-- The value of `models.Truck{}`. -/
def Truck.zero : Truck := ⟨Model.zero, "", ""⟩
/-- The value of `models.TruckDTO{}`. -/
def TruckDTO.zero : TruckDTO := ⟨0, "", ""⟩
/-- The value of `models.Order{}`. -/
def Order.zero : Order := ⟨Model.zero, "", Time.zero, Time.zero, 0, none⟩

/-! ### The models as `reflect` sees them -/

/-- A `time.Time` as a struct value. -/
def Time.toValue (t : Time) : Value := .struct [.uint t.wall, .int t.ext, .ptr t.loc]

/-- Reads a `time.Time` back from a struct value of that type. -/
def Time.ofValue : Value → Option Time
  | .struct [.uint w, .int e, .ptr l] => some ⟨w, e, l⟩
  | _ => none

/-- A `gorm.DeletedAt` as a struct value. -/
def DeletedAt.toValue (d : DeletedAt) : Value := .struct [d.Time.toValue, .bool d.Valid]

/-- Reads a `gorm.DeletedAt` back from a struct value of that type. -/
def DeletedAt.ofValue : Value → Option DeletedAt
  | .struct [t, .bool v] => (Time.ofValue t).map fun t => ⟨t, v⟩
  | _ => none

/-- A `gorm.Model` as a struct value. -/
def Model.toValue (m : Model) : Value :=
  .struct [.uint m.ID, m.CreatedAt.toValue, m.UpdatedAt.toValue, m.DeletedAt.toValue]

/-- Reads a `gorm.Model` back from a struct value of that type. -/
def Model.ofValue : Value → Option Model
  | .struct [.uint id, c, u, d] =>
    match Time.ofValue c, Time.ofValue u, DeletedAt.ofValue d with
    | some c, some u, some d => some ⟨id, c, u, d⟩
    | _, _, _ => none
  | _ => none

/-- A `models.User` as a struct value (the element of `Role.Users`). -/
def User.toValue (u : User) : Value :=
  .struct [u.Model.toValue, .str u.FirstName, .str u.LastName, .str u.Username,
    .str u.Password, .int u.RoleID]

/-- Reads a `models.User` back from a struct value of that type. -/
def User.ofValue : Value → Option User
  | .struct [m, .str f, .str l, .str n, .str p, .int r] =>
    (Model.ofValue m).map fun m => ⟨m, f, l, n, p, r⟩
  | _ => none

/-- A `models.OrderItem` as a struct value (the element of `Order.OrderItems`). -/
def OrderItem.toValue (o : OrderItem) : Value :=
  .struct [o.Model.toValue, .int o.ItemId, .int o.OrderId, .int o.Quantity]

/-- Reads a `models.OrderItem` back from a struct value of that type. -/
def OrderItem.ofValue : Value → Option OrderItem
  | .struct [m, .int i, .int o, .int q] => (Model.ofValue m).map fun m => ⟨m, i, o, q⟩
  | _ => none

/-- Reads the elements of a slice of `T` back from their struct values. -/
def elemsOfValues {T : Type} (ofValue : Value → Option T) : List Value → Option (List T)
  | [] => some []
  | v :: vs =>
    match ofValue v, elemsOfValues ofValue vs with
    | some t, some ts => some (t :: ts)
    | _, _ => none

/-- Reads a slice of `T` back from a slice of struct values. -/
def sliceOfValues {T : Type} (ofValue : Value → Option T) :
    Option (List Value) → Option (Option (List T))
  | none => some none
  | some vs => (elemsOfValues ofValue vs).map some

instance : GoStruct User where
  NumField _ := 6
  Field u i :=
    match i with
    | 0 => some (.val u.Model.toValue)
    | 1 => some (.val (.str u.FirstName))
    | 2 => some (.val (.str u.LastName))
    | 3 => some (.val (.str u.Username))
    | 4 => some (.val (.str u.Password))
    | 5 => some (.val (.int u.RoleID))
    | _ => none
  Set u i v :=
    match i, v with
    | 0, .val m => (Model.ofValue m).map fun m => { u with Model := m }
    | 1, .val (.str s) => some { u with FirstName := s }
    | 2, .val (.str s) => some { u with LastName := s }
    | 3, .val (.str s) => some { u with Username := s }
    | 4, .val (.str s) => some { u with Password := s }
    | 5, .val (.int n) => some { u with RoleID := n }
    | _, _ => none

instance : GoStruct Role where
  NumField _ := 3
  Field r i :=
    match i with
    | 0 => some (.val (.uint r.ID))
    | 1 => some (.val (.str r.Name))
    | 2 => some (.slice (r.Users.map fun us => us.map User.toValue))
    | _ => none
  Set r i v :=
    match i, v with
    | 0, .val (.uint n) => some { r with ID := n }
    | 1, .val (.str s) => some { r with Name := s }
    | 2, .slice vs => (sliceOfValues User.ofValue vs).map fun us => { r with Users := us }
    | _, _ => none

instance : GoStruct Item where
  NumField _ := 8
  Field x i :=
    match i with
    | 0 => some (.val x.Model.toValue)
    | 1 => some (.val (.str x.Name))
    | 2 => some (.val (.str x.Description))
    | 3 => some (.val (.str x.Code))
    | 4 => some (.val (.int x.TotalQuantity))
    | 5 => some (.val (.int x.AvailableQuantity))
    | 6 => some (.val (.float x.Price))
    | 7 => some (.val (.str x.Category))
    | _ => none
  Set x i v :=
    match i, v with
    | 0, .val m => (Model.ofValue m).map fun m => { x with Model := m }
    | 1, .val (.str s) => some { x with Name := s }
    | 2, .val (.str s) => some { x with Description := s }
    | 3, .val (.str s) => some { x with Code := s }
    | 4, .val (.int n) => some { x with TotalQuantity := n }
    | 5, .val (.int n) => some { x with AvailableQuantity := n }
    | 6, .val (.float b) => some { x with Price := b }
    | 7, .val (.str s) => some { x with Category := s }
    | _, _ => none

instance : GoStruct Truck where
  NumField _ := 3
  Field x i :=
    match i with
    | 0 => some (.val x.Model.toValue)
    | 1 => some (.val (.str x.ChassisNumber))
    | 2 => some (.val (.str x.LicensePlate))
    | _ => none
  Set x i v :=
    match i, v with
    | 0, .val m => (Model.ofValue m).map fun m => { x with Model := m }
    | 1, .val (.str s) => some { x with ChassisNumber := s }
    | 2, .val (.str s) => some { x with LicensePlate := s }
    | _, _ => none

instance : GoStruct Order where
  NumField _ := 6
  Field x i :=
    match i with
    | 0 => some (.val x.Model.toValue)
    | 1 => some (.val (.str x.Code))
    | 2 => some (.val x.SubmittedDate.toValue)
    | 3 => some (.val x.DeadlineDate.toValue)
    | 4 => some (.val (.int x.UserID))
    | 5 => some (.slice (x.OrderItems.map fun os => os.map OrderItem.toValue))
    | _ => none
  Set x i v :=
    match i, v with
    | 0, .val m => (Model.ofValue m).map fun m => { x with Model := m }
    | 1, .val (.str s) => some { x with Code := s }
    | 2, .val t => (Time.ofValue t).map fun t => { x with SubmittedDate := t }
    | 3, .val t => (Time.ofValue t).map fun t => { x with DeadlineDate := t }
    | 4, .val (.int n) => some { x with UserID := n }
    | 5, .slice vs =>
      (sliceOfValues OrderItem.ofValue vs).map fun os => { x with OrderItems := os }
    | _, _ => none

/-! ## Errors, status codes, projections -/

/-- A non-nil Go `error`, by its message. A result of type `Option Error` is a Go `error`
(`none` is `nil`). -/
abbrev Error := String

/-- `http.StatusOK`. -/
def StatusOK : Int := 200
/-- `http.StatusBadRequest`. -/
def StatusBadRequest : Int := 400
/-- `http.StatusUnauthorized`. -/
def StatusUnauthorized : Int := 401
/-- `http.StatusForbidden`. -/
def StatusForbidden : Int := 403
/-- `http.StatusNotFound`. -/
def StatusNotFound : Int := 404
/-- `http.StatusInternalServerError`. -/
def StatusInternalServerError : Int := 500

/-- `automapper.Map(user, &dto)` at `models.User` and `models.UserDTO`: every field of the
destination takes the source field of the same name; `ID` is the promoted field of the
embedded `gorm.Model`. -/
def MapUserDTO (u : User) : UserDTO :=
  { ID := u.Model.ID, FirstName := u.FirstName, LastName := u.LastName,
    Username := u.Username, RoleID := u.RoleID }

/-- `automapper.Map(role, &dto)` at `models.Role` and `models.RoleDTO`. -/
def MapRoleDTO (r : Role) : RoleDTO := { ID := r.ID, Name := r.Name }

/-- `automapper.Map(item, &dto)` at `models.Item` and `models.ItemDTO`. -/
def MapItemDTO (x : Item) : ItemDTO :=
  { ID := x.Model.ID, Name := x.Name, Description := x.Description, Code := x.Code,
    Price := x.Price, Category := x.Category }

/-- `automapper.Map(truck, &dto)` at `models.Truck` and `models.TruckDTO`. -/
def MapTruckDTO (x : Truck) : TruckDTO :=
  { ID := x.Model.ID, ChassisNumber := x.ChassisNumber, LicensePlate := x.LicensePlate }

/-! ## Repositories (`repositories/*.go`, the interfaces) -/

/-- The methods every repository interface has, over a store state `σ`: each call takes
the store and returns its results with the store after the call. -/
structure Repo (E σ : Type) where
  FindAll : Pagination → σ → (Option (List E) × Option Error) × σ
  FindByID : Int → σ → (E × Option Error) × σ
  Save : E → σ → (E × Option Error) × σ
  Update : E → σ → (E × Option Error) × σ
  Delete : E → σ → Option Error × σ
  DeleteById : Int → σ → (E × Option Error) × σ

/-- `repositories.UserRepo`. -/
structure UserRepo (σ : Type) extends Repo User σ where
  FindByUsername : String → σ → (User × Option Error) × σ

/-- `repositories.ItemRepo`. -/
structure ItemRepo (σ : Type) extends Repo Item σ where
  FindByName : String → σ → (Item × Option Error) × σ

/-- `repositories.TruckRepo`. -/
abbrev TruckRepo (σ : Type) := Repo Truck σ

/-- `repositories.OrderRepo`. -/
abbrev OrderRepo (σ : Type) := Repo Order σ

/-- `repositories.RoleRepo`; its `FindAll` takes no pagination. -/
structure RoleRepo (σ : Type) where
  FindAll : σ → (Option (List Role) × Option Error) × σ
  FindByID : Int → σ → (Role × Option Error) × σ
  FindByName : String → σ → (Role × Option Error) × σ
  Save : Role → σ → (Role × Option Error) × σ
  Update : Role → σ → (Role × Option Error) × σ
  Delete : Role → σ → Option Error × σ
  DeleteById : Int → σ → (Role × Option Error) × σ

/-! ## Password hashing (`utils/bcrypt.go`) -/

/-- The two functions of `golang.org/x/crypto/bcrypt` the repository calls.
`GenerateFromPassword` takes, first, the random bytes it draws for the salt. -/
structure BcryptLib where
  GenerateFromPassword : String → String → Int → String × Option Error
  CompareHashAndPassword : String → String → Option Error

/-- `bcrypt.DefaultCost`. -/
def DefaultCost : Int := 10

/-- `utils.GetHashPassword`: the hash as a string; panics (`none`) when bcrypt fails. -/
def GetHashPassword (bc : BcryptLib) (rand password : String) : Option String :=
  match bc.GenerateFromPassword rand password DefaultCost with
  | (_, some _) => none
  | (hashedPassword, none) => some hashedPassword

/-- `utils.ComparePassword`. -/
def ComparePassword (bc : BcryptLib) (hashedPassword password : String) : Bool :=
  (bc.CompareHashAndPassword hashedPassword password).isNone

/-! ## Tokens (`utils/bcrypt.go`) -/

/-- A reading of `time.Now()`: nanoseconds since the Unix epoch. -/
structure Instant where
  unixNano : Int
  deriving DecidableEq

/-- `time.Hour`, a `time.Duration` in nanoseconds. -/
def Hour : Int := 3600 * 1000000000

/-- `Time.Add`. -/
def Instant.Add (t : Instant) (d : Int) : Instant := ⟨t.unixNano + d⟩

/-- `Time.Unix`: whole seconds since the epoch, rounded down. -/
def Instant.Unix (t : Instant) : Int := t.unixNano / 1000000000

/-- A value stored in a `jwt.MapClaims` (a `map[string]interface{}`). -/
inductive ClaimValue where
  | int (i : Int)
  | uint (n : Nat)
  | str (s : String)
  | float (bits : Nat)
  deriving DecidableEq

/-- `jwt.MapClaims`: the entries of the map. -/
abbrev MapClaims := List (String × ClaimValue)

/-- The map index `claims[key]`; `none` is the nil interface of a missing key. -/
def MapClaims.get (m : MapClaims) (key : String) : Option ClaimValue :=
  (m.find? fun e => e.1 == key).map Prod.snd

/-- The `jwt.Claims` a token carries: a `jwt.MapClaims` or a value of some other type. -/
inductive Claims where
  | mapClaims (m : MapClaims)
  | other
  deriving DecidableEq

/-- A `jwt.SigningMethod`: one of the `*jwt.SigningMethodHMAC` values, or a method of
another type (RSA, ECDSA, none), each with its `alg` name. -/
inductive SigningMethod where
  | HMAC (alg : String)
  | other (alg : String)
  deriving DecidableEq

/-- `jwt.SigningMethodHS256`. -/
def SigningMethodHS256 : SigningMethod := .HMAC "HS256"

/-- `SigningMethod.Alg()`. -/
def SigningMethod.Alg : SigningMethod → String
  | .HMAC alg => alg
  | .other alg => alg

/-- A `jwt.Token`. A `*jwt.Token` that the repository dereferences is never nil, so the
pointer is the token itself. -/
structure Token where
  Raw : String
  Method : SigningMethod
  Claims : Claims
  Signature : String
  Valid : Bool
  deriving DecidableEq

/-- `os.Getenv`: the environment; an unset variable reads as the empty string. -/
abbrev Env := String → String

/-- The functions of `github.com/dgrijalva/jwt-go` behind `SignedString` and `Parse`:
the encoding of the header and of the claims (JSON, then base64url), the HMAC signature
of a signing string under a key, and `jwt.Parse` (token string, key function, the clock
reading it validates against). -/
structure JWTLib where
  EncodeHeader : SigningMethod → String
  EncodeClaims : Claims → String
  HMACSign : String → String → String → String
  Parse : String → (Token → Option String × Option Error) → Instant → Token × Option Error

/-- `jwt.NewWithClaims`. -/
def NewWithClaims (method : SigningMethod) (claims : Claims) : Token :=
  { Raw := "", Method := method, Claims := claims, Signature := "", Valid := false }

/-- `Token.SigningString`: the encoded header and claims joined by a dot. -/
def Token.SigningString (lib : JWTLib) (t : Token) : String :=
  lib.EncodeHeader t.Method ++ "." ++ lib.EncodeClaims t.Claims

/-- `Token.SignedString(key)` with a `[]byte` key: the signing string, a dot, the
signature. Only the HMAC methods accept a `[]byte` key. -/
def Token.SignedString (lib : JWTLib) (t : Token) (key : String) : String × Option Error :=
  match t.Method with
  | .HMAC alg =>
    (t.SigningString lib ++ "." ++ lib.HMACSign alg (t.SigningString lib) key, none)
  | .other _ => ("", some "key is of invalid type")

/-- The claims `GenerateToken` builds. The map literal calls `time.Now()` twice, for
`exp` and then for `iat`; `now1` and `now2` are the two readings, in this order. -/
def GenerateTokenClaims (now1 now2 : Instant) (user : User) (role : String) : MapClaims :=
  [("exp", .int (now1.Add (Hour * 5)).Unix),
   ("iat", .int now2.Unix),
   ("sub", .uint user.Model.ID),
   ("user", .str user.Username),
   ("role", .str role)]

/-- `utils.GenerateToken`; panics (`none`) when signing fails. -/
def GenerateToken (lib : JWTLib) (env : Env) (now1 now2 : Instant) (user : User)
    (role : String) : Option String :=
  let claims := GenerateTokenClaims now1 now2 user role
  let token := NewWithClaims SigningMethodHS256 (.mapClaims claims)
  match token.SignedString lib (env "JWT_SECRET") with
  | (_, some _) => none
  | (t, none) => some t

/-- The claims `GenerateExpiredToken` builds from its single reading `now` of the clock. -/
def GenerateExpiredTokenClaims (now : Instant) : MapClaims :=
  [("exp", .int now.Unix), ("iat", .int now.Unix)]

/-- `utils.GenerateExpiredToken`; panics (`none`) when signing fails. -/
def GenerateExpiredToken (lib : JWTLib) (env : Env) (now : Instant) : Option String :=
  let claims := GenerateExpiredTokenClaims now
  let token := NewWithClaims SigningMethodHS256 (.mapClaims claims)
  match token.SignedString lib (env "JWT_SECRET") with
  | (_, some _) => none
  | (t, none) => some t

/-- The key function `ValidateToken` hands to `jwt.Parse`. -/
def ValidateTokenKeyfunc (env : Env) (token : Token) : Option String × Option Error :=
  match token.Method with
  | .HMAC _ => (some (env "JWT_SECRET"), none)
  | .other alg => (none, some ("unexpected signing method: " ++ alg))

/-- `utils.ValidateToken`; `now` is the clock reading `jwt.Parse` validates against. -/
def ValidateToken (lib : JWTLib) (env : Env) (now : Instant) (token : String) :
    Token × Option Error :=
  lib.Parse token (ValidateTokenKeyfunc env) now

/-! ## Services (`services/*.go`)

A service method returns the Go triple `(value, status, error)` with the store after
the call; `none` is a panic. -/

/-- `services.userService`. -/
structure userService (σ : Type) where
  userRepo : UserRepo σ
  roleRepo : RoleRepo σ

/-- `services.roleService`. -/
structure roleService (σ : Type) where
  roleRepo : RoleRepo σ

/-- `services.itemService`. -/
structure itemService (σ : Type) where
  ItemRepo : ItemRepo σ

/-- `services.truckService`. -/
structure truckService (σ : Type) where
  TruckRepo : TruckRepo σ

/-- `services.orderService`. -/
structure orderService (σ : Type) where
  OrderRepo : OrderRepo σ

/-- `userService.CreateUser`; `rand` is the randomness bcrypt draws. -/
def userService.CreateUser {σ : Type} (u : userService σ) (bc : BcryptLib) (rand : String)
    (user : User) (s : σ) : Option ((UserDTO × Int × Option Error) × σ) :=
  match GetHashPassword bc rand user.Password with
  | none => none
  | some password =>
    let user := { user with Password := password }
    match u.userRepo.Save user s with
    | ((_, some err), s) => some ((UserDTO.zero, StatusInternalServerError, some err), s)
    | ((user, none), s) =>
      let user := { user with Password := "" }
      some ((MapUserDTO user, StatusOK, none), s)

/-- `userService.UpdateUser`. -/
def userService.UpdateUser {σ : Type} (u : userService σ) (id : Int) (user : User) (s : σ) :
    Option ((UserDTO × Int × Option Error) × σ) :=
  match u.userRepo.FindByID id s with
  | ((_, some err), s) => some ((UserDTO.zero, StatusNotFound, some err), s)
  | ((userDb, none), s) =>
    match CopyNonEmptyFields userDb user with
    | none => none
    | some userDb =>
      match u.userRepo.Update userDb s with
      | ((_, some err), s) => some ((UserDTO.zero, StatusInternalServerError, some err), s)
      | ((userDb, none), s) => some ((MapUserDTO userDb, StatusOK, none), s)

/-- `userService.SignInUser`; `now1`, `now2` are the two clock readings of
`GenerateToken`. -/
def userService.SignInUser {σ : Type} (u : userService σ) (bc : BcryptLib) (lib : JWTLib)
    (env : Env) (now1 now2 : Instant) (loginUser : Login) (s : σ) :
    Option ((String × Int × Option Error) × σ) :=
  match u.userRepo.FindByUsername loginUser.Username s with
  | ((_, some err), s) => some (("", StatusNotFound, some err), s)
  | ((userDb, none), s) =>
    if !ComparePassword bc userDb.Password loginUser.Password then
      some (("", StatusUnauthorized, some "invalid password"), s)
    else
      match u.roleRepo.FindByID userDb.RoleID s with
      | ((_, some err), s) => some (("", StatusNotFound, some err), s)
      | ((role, none), s) =>
        match GenerateToken lib env now1 now2 userDb role.Name with
        | none => none
        | some token => some ((token, StatusOK, none), s)

/-- `userService.SignOutUser`. -/
def userService.SignOutUser {σ : Type} (_u : userService σ) (lib : JWTLib) (env : Env)
    (now : Instant) : Option String :=
  GenerateExpiredToken lib env now

/-- `roleService.UpdateRole`. The merge goes into `roleDB`; the record passed to the
repository's `Update` is `role`, the request body. -/
def roleService.UpdateRole {σ : Type} (r : roleService σ) (id : Int) (role : Role) (s : σ) :
    Option ((RoleDTO × Int × Option Error) × σ) :=
  match r.roleRepo.FindByID id s with
  | ((_, some err), s) => some ((RoleDTO.zero, StatusNotFound, some err), s)
  | ((roleDB, none), s) =>
    match CopyNonEmptyFields roleDB role with
    | none => none
    | some _ =>
      match r.roleRepo.Update role s with
      | ((_, some err), s) => some ((RoleDTO.zero, StatusInternalServerError, some err), s)
      | ((role, none), s) => some ((MapRoleDTO role, StatusOK, none), s)

/-- `itemService.UpdateItem`. -/
def itemService.UpdateItem {σ : Type} (p : itemService σ) (id : Int) (item : Item) (s : σ) :
    Option ((ItemDTO × Int × Option Error) × σ) :=
  match p.ItemRepo.FindByID id s with
  | ((_, some err), s) => some ((ItemDTO.zero, StatusNotFound, some err), s)
  | ((itemDb, none), s) =>
    match CopyNonEmptyFields itemDb item with
    | none => none
    | some itemDb =>
      match p.ItemRepo.Update itemDb s with
      | ((_, some err), s) => some ((ItemDTO.zero, StatusInternalServerError, some err), s)
      | ((itemDb, none), s) => some ((MapItemDTO itemDb, StatusOK, none), s)

/-- `truckService.UpdateTruck`. -/
def truckService.UpdateTruck {σ : Type} (p : truckService σ) (id : Int) (truck : Truck)
    (s : σ) : Option ((TruckDTO × Int × Option Error) × σ) :=
  match p.TruckRepo.FindByID id s with
  | ((_, some err), s) => some ((TruckDTO.zero, StatusNotFound, some err), s)
  | ((truckDb, none), s) =>
    match CopyNonEmptyFields truckDb truck with
    | none => none
    | some truckDb =>
      match p.TruckRepo.Update truckDb s with
      | ((_, some err), s) => some ((TruckDTO.zero, StatusInternalServerError, some err), s)
      | ((truckDb, none), s) => some ((MapTruckDTO truckDb, StatusOK, none), s)

/-- `orderService.UpdateOrder`; orders are returned as they are, without a DTO. -/
def orderService.UpdateOrder {σ : Type} (p : orderService σ) (id : Int) (order : Order)
    (s : σ) : Option ((Order × Int × Option Error) × σ) :=
  match p.OrderRepo.FindByID id s with
  | ((orderDb, some err), s) => some ((orderDb, StatusNotFound, some err), s)
  | ((orderDb, none), s) =>
    match CopyNonEmptyFields orderDb order with
    | none => none
    | some orderDb =>
      match p.OrderRepo.Update orderDb s with
      | ((orderDb, some err), s) => some ((orderDb, StatusInternalServerError, some err), s)
      | ((orderDb, none), s) => some ((orderDb, StatusOK, none), s)

/-! ### Observing the calls a service makes -/

/-- A call on a repository of entities `E`, with its argument. -/
inductive Call (E : Type) where
  | FindAll (pagination : Pagination)
  | FindByID (id : Int)
  | FindByKey (key : String)
  | Save (e : E)
  | Update (e : E)
  | Delete (e : E)
  | DeleteById (id : Int)
  deriving DecidableEq

/-- The repository `r` with a journal: every call is appended to the list next to the
store, and is otherwise passed on to `r` unchanged. -/
def Repo.traced {E σ : Type} (r : Repo E σ) : Repo E (σ × List (Call E)) where
  FindAll p s := ((r.FindAll p s.1).1, ((r.FindAll p s.1).2, s.2 ++ [.FindAll p]))
  FindByID id s := ((r.FindByID id s.1).1, ((r.FindByID id s.1).2, s.2 ++ [.FindByID id]))
  Save e s := ((r.Save e s.1).1, ((r.Save e s.1).2, s.2 ++ [.Save e]))
  Update e s := ((r.Update e s.1).1, ((r.Update e s.1).2, s.2 ++ [.Update e]))
  Delete e s := ((r.Delete e s.1).1, ((r.Delete e s.1).2, s.2 ++ [.Delete e]))
  DeleteById id s :=
    ((r.DeleteById id s.1).1, ((r.DeleteById id s.1).2, s.2 ++ [.DeleteById id]))

/-- The user repository `r` with a journal of its calls. -/
def UserRepo.traced {σ : Type} (r : UserRepo σ) : UserRepo (σ × List (Call User)) where
  toRepo := r.toRepo.traced
  FindByUsername n s :=
    ((r.FindByUsername n s.1).1, ((r.FindByUsername n s.1).2, s.2 ++ [.FindByKey n]))

/-- The item repository `r` with a journal of its calls. -/
def ItemRepo.traced {σ : Type} (r : ItemRepo σ) : ItemRepo (σ × List (Call Item)) where
  toRepo := r.toRepo.traced
  FindByName n s :=
    ((r.FindByName n s.1).1, ((r.FindByName n s.1).2, s.2 ++ [.FindByKey n]))

/-- The role repository `r` with a journal of its calls. -/
def RoleRepo.traced {σ : Type} (r : RoleRepo σ) : RoleRepo (σ × List (Call Role)) where
  FindAll s := ((r.FindAll s.1).1, ((r.FindAll s.1).2, s.2 ++ [.FindAll ⟨0, 0⟩]))
  FindByID id s := ((r.FindByID id s.1).1, ((r.FindByID id s.1).2, s.2 ++ [.FindByID id]))
  FindByName n s :=
    ((r.FindByName n s.1).1, ((r.FindByName n s.1).2, s.2 ++ [.FindByKey n]))
  Save e s := ((r.Save e s.1).1, ((r.Save e s.1).2, s.2 ++ [.Save e]))
  Update e s := ((r.Update e s.1).1, ((r.Update e s.1).2, s.2 ++ [.Update e]))
  Delete e s := ((r.Delete e s.1).1, ((r.Delete e s.1).2, s.2 ++ [.Delete e]))
  DeleteById id s :=
    ((r.DeleteById id s.1).1, ((r.DeleteById id s.1).2, s.2 ++ [.DeleteById id]))

/-- The role repository `r` run next to a journal it does not write. -/
def RoleRepo.beside {σ J : Type} (r : RoleRepo σ) : RoleRepo (σ × J) where
  FindAll s := ((r.FindAll s.1).1, ((r.FindAll s.1).2, s.2))
  FindByID id s := ((r.FindByID id s.1).1, ((r.FindByID id s.1).2, s.2))
  FindByName n s := ((r.FindByName n s.1).1, ((r.FindByName n s.1).2, s.2))
  Save e s := ((r.Save e s.1).1, ((r.Save e s.1).2, s.2))
  Update e s := ((r.Update e s.1).1, ((r.Update e s.1).2, s.2))
  Delete e s := ((r.Delete e s.1).1, ((r.Delete e s.1).2, s.2))
  DeleteById id s := ((r.DeleteById id s.1).1, ((r.DeleteById id s.1).2, s.2))

/-- The records a journal shows were handed to the repository's `Update`, in order. -/
def updatesOf {E : Type} : List (Call E) → List E
  | [] => []
  | .Update e :: cs => e :: updatesOf cs
  | _ :: cs => updatesOf cs

/-- The records a journal shows were handed to the repository's `Save`, in order. -/
def savesOf {E : Type} : List (Call E) → List E
  | [] => []
  | .Save e :: cs => e :: savesOf cs
  | _ :: cs => savesOf cs

/-! ## Response envelope (`helpers/response.go`) -/

/-- The `interface{}` payload of a response: an error text, a struct or slice value, a
`gin.H` of texts, or one of the values the handlers return (a DTO, an order, a slice of
them; `none` is the `nil` slice). -/
inductive Data where
  | str (s : String)
  | value (v : FieldValue)
  | H (entries : List (String × String))
  | user (u : UserDTO)
  | users (us : Option (List UserDTO))
  | role (r : RoleDTO)
  | roles (rs : Option (List RoleDTO))
  | item (x : ItemDTO)
  | items (xs : Option (List ItemDTO))
  | truck (x : TruckDTO)
  | trucks (xs : Option (List TruckDTO))
  | order (o : Order)
  | orders (os : Option (List Order))

/-- The envelope types of `helpers/response.go`; they share one shape, `Data` is omitted
from the JSON when it is nil. -/
structure JSONResult where
  Code : Int
  Message : String
  Data : Option Data

/-- The object `ctx.JSON` serialises: one of the envelope types, or any other value (a
bare DTO, a `gin.H`). -/
inductive Body where
  | envelope (r : JSONResult)
  | raw (d : Data)

/-- The part of a `gin.Context` the middleware and the handlers use: the request headers
(`GetHeader` gives the empty string for a missing header), the responses written by
`ctx.JSON` with their HTTP status, whether the chain was aborted, whether `Next` was
called; and of the request, the path parameters (`Param` gives the empty string for a
missing one), the values of each query key (`none` for a key that is absent) and the
body; and the headers of the response (the empty string for a header that is not set). -/
structure Context where
  GetHeader : String → String
  Written : List (Int × Body)
  Aborted : Bool
  NextCalled : Bool
  Param : String → String := fun _ => ""
  QueryValues : String → Option (List String) := fun _ => none
  RequestBody : String := ""
  ResponseHeader : String → String := fun _ => ""

/-- `ctx.JSON(code, obj)`. -/
def Context.JSON (c : Context) (code : Int) (obj : Body) : Context :=
  { c with Written := c.Written ++ [(code, obj)] }

/-- `c.Header(key, value)`: sets the response header, or deletes it when the value is
empty. -/
def Context.Header (c : Context) (key value : String) : Context :=
  { c with ResponseHeader := fun k => if k = key then value else c.ResponseHeader k }

/-- `c.Abort()`. -/
def Context.Abort (c : Context) : Context := { c with Aborted := true }

/-- `c.Next()`: the rest of the chain, the protected handler included, runs. -/
def Context.Next (c : Context) : Context := { c with NextCalled := true }

/-- `helpers.FailedResponse`: a `switch` over five status codes, without a default. -/
def FailedResponse (ctx : Context) (respCode : Int) (message : String)
    (data : Option Data) : Context :=
  if respCode = StatusBadRequest then
    ctx.JSON respCode (.envelope { Code := StatusBadRequest, Message := message, Data := data })
  else if respCode = StatusNotFound then
    ctx.JSON respCode (.envelope { Code := StatusNotFound, Message := message, Data := data })
  else if respCode = StatusUnauthorized then
    ctx.JSON respCode (.envelope { Code := StatusUnauthorized, Message := message, Data := data })
  else if respCode = StatusForbidden then
    ctx.JSON respCode (.envelope { Code := StatusForbidden, Message := message, Data := data })
  else if respCode = StatusInternalServerError then
    ctx.JSON respCode (.envelope { Code := StatusInternalServerError, Message := message, Data := data })
  else ctx

/-! ## Authorization middleware (`middleware/authorize-jwt.go`) -/

/-- `strings.Split(s, sep)` for a separator of one character, on the characters of `s`:
the pieces between the occurrences of `sep`, one more than there are occurrences. -/
def splitChars (sep : Char) : List Char → List (List Char)
  | [] => [[]]
  | c :: cs =>
    if c = sep then [] :: splitChars sep cs
    else
      match splitChars sep cs with
      | [] => [[c]]
      | p :: ps => (c :: p) :: ps

/-- `strings.Split(s, sep)` for a separator of one character. -/
def Split (s : String) (sep : Char) : List String :=
  (splitChars sep s.toList).map String.mk

/-- `contains` of `authorize-jwt.go`. -/
def contains : List String → String → Bool
  | [], _ => false
  | r :: roles, role => if r = role then true else contains roles role

/-- The part of `AuthMiddleware` after `utils.ValidateToken` has returned `(token, err)`
(authorize-jwt.go lines 37-59). -/
def authorizeToken (roles : List String) (c : Context) (validated : Token × Option Error) :
    Context :=
  match validated with
  | (_, some err) =>
    (FailedResponse c StatusUnauthorized "invalid token" (some (.str err))).Abort
  | (token, none) =>
    match token.Claims, token.Valid with
    | .mapClaims claims, true =>
      match claims.get "role" with
      | some (.str role) =>
        if roles.length > 0 && !contains roles role then
          (FailedResponse c StatusForbidden "forbidden" none).Abort
        else c.Next
      | _ => (FailedResponse c StatusUnauthorized "missing role claim" none).Abort
    | _, _ => (FailedResponse c StatusUnauthorized "invalid token" none).Abort

/-- `middleware.AuthMiddleware(roles...)` applied to a request context; `now` is the clock
reading token validation uses. -/
def AuthMiddleware (lib : JWTLib) (env : Env) (now : Instant) (roles : List String)
    (c : Context) : Context :=
  let authHeader := c.GetHeader "Authorization"
  if authHeader = "" then
    (FailedResponse c StatusUnauthorized "missing authorization header" none).Abort
  else
    match Split authHeader ' ' with
    | [_, bearer] => authorizeToken roles c (ValidateToken lib env now bearer)
    | _ => (FailedResponse c StatusUnauthorized "invalid token" none).Abort

/-- `utils.GetRoleName`. -/
def GetRoleName (role : Int) : String :=
  if role = 1 then "User"
  else if role = 2 then "Admin"
  else if role = 3 then "SysAdmin"
  else "No Role"

/-- The role constant `utils.User`. -/
def RoleUser : Int := 1
/-- The role constant `utils.Admin`. -/
def RoleAdmin : Int := 2
/-- The role constant `utils.SysAdmin`. -/
def RoleSysAdmin : Int := 3

/-! ### The words of the specification on the header -/

/-- White space in the sense of `unicode.IsSpace` on the Latin-1 range. -/
def isSpaceChar (c : Char) : Bool :=
  c = ' ' || c = '\t' || c = '\n' || c = '\r' || c.toNat = 11 || c.toNat = 12 ||
    c.toNat = 133 || c.toNat = 160

/-- The pieces of a text between its white-space characters, empty pieces included. -/
def splitSpaces : List Char → List (List Char)
  | [] => [[]]
  | c :: cs =>
    if isSpaceChar c then [] :: splitSpaces cs
    else
      match splitSpaces cs with
      | [] => [[c]]
      | p :: ps => (c :: p) :: ps

/-- The white-space-separated parts of a text: its maximal runs of characters that are
not white space. -/
def whitespaceParts (s : String) : List String :=
  ((splitSpaces s.toList).filter fun p => !p.isEmpty).map String.mk

/-! ## Fixtures: a repository, a bcrypt and a jwt library to run the code on -/

/-- A repository over a store that holds nothing: `FindByID` finds `stored`, `Save` and
`Update` succeed and return the record they are given. -/
def stubRepo {E : Type} (stored : E) : Repo E Unit where
  FindAll _ s := ((some [stored], none), s)
  FindByID _ s := ((stored, none), s)
  Save e s := ((e, none), s)
  Update e s := ((e, none), s)
  Delete _ s := (none, s)
  DeleteById _ s := ((stored, none), s)

/-- The user repository of the same kind. -/
def stubUserRepo (stored : User) : UserRepo Unit where
  toRepo := stubRepo stored
  FindByUsername _ s := ((stored, none), s)

/-- The item repository of the same kind. -/
def stubItemRepo (stored : Item) : ItemRepo Unit where
  toRepo := stubRepo stored
  FindByName _ s := ((stored, none), s)

/-- The role repository of the same kind. -/
def stubRoleRepo (stored : Role) : RoleRepo Unit where
  FindAll s := ((some [stored], none), s)
  FindByID _ s := ((stored, none), s)
  FindByName _ s := ((stored, none), s)
  Save e s := ((e, none), s)
  Update e s := ((e, none), s)
  Delete _ s := (none, s)
  DeleteById _ s := ((stored, none), s)

/-- A stand-in for bcrypt: the hash of `p` is `p` behind a marker. -/
def toyBcrypt : BcryptLib where
  GenerateFromPassword _ password _ := ("$2a$" ++ password, none)
  CompareHashAndPassword hashedPassword password :=
    if hashedPassword = "$2a$" ++ password then none
    else some "crypto/bcrypt: hashedPassword is not the hash of the given password"

/-- The text of one claim value. -/
def ClaimValue.text : ClaimValue → String
  | .int i => toString i
  | .uint n => toString n
  | .str s => s
  | .float bits => toString bits

/-- A stand-in for jwt-go: segments are written in clear, the signature is the key, and
`Parse` reads a token string as its own `role` claim, valid whenever the key function
yields a key; the token string `garbage` does not parse. -/
def toyJWT : JWTLib where
  EncodeHeader m := m.Alg
  EncodeClaims c :=
    match c with
    | .mapClaims m => String.intercalate "," (m.map fun e => e.1 ++ "=" ++ e.2.text)
    | .other => ""
  HMACSign _ _ key := key
  Parse tokenString keyFunc _ :=
    let token : Token :=
      { Raw := tokenString, Method := SigningMethodHS256,
        Claims := .mapClaims [("role", .str tokenString)], Signature := "", Valid := false }
    if tokenString = "garbage" then
      (token, some "token contains an invalid number of segments")
    else
      match keyFunc token with
      | (_, some err) => (token, some err)
      | (_, none) => ({ token with Valid := true }, none)

/-- An environment in which only `JWT_SECRET` is set. -/
def toyEnv : Env := fun name => if name = "JWT_SECRET" then "secret" else ""

/-- A fresh request context with the given `Authorization` header. -/
def requestWith (authorization : String) : Context where
  GetHeader name := if name = "Authorization" then authorization else ""
  Written := []
  Aborted := false
  NextCalled := false

/-! ## The merge, field by field -/

/-- The merge the specification describes, field by field. -/
def mergeFields (dest src : List FieldValue) : List FieldValue :=
  List.zipWith (fun d s => if s.NonEmpty then s else d) dest src


/-! ## Sample records -/

/-- A stored item with identifier 1. -/
def sampleItem : Item :=
  { Model := ⟨1, ⟨0, 63800000000, 0⟩, ⟨0, 63800000000, 0⟩, DeletedAt.zero⟩,
    Name := "Item 1", Description := "", Code := "itm1", TotalQuantity := 100,
    AvailableQuantity := 100, Price := 0, Category := "Category Test" }

/-- A stored user with identifier 1 and the toy hash of `Test1234!`. -/
def sampleUser : User :=
  { Model := ⟨1, ⟨0, 63800000000, 0⟩, ⟨0, 63800000000, 0⟩, DeletedAt.zero⟩,
    FirstName := "Sys", LastName := "Admin", Username := "sysAdminTest",
    Password := "$2a$Test1234!", RoleID := 3 }

/-- The stored role with identifier 1. -/
def sampleRole : Role := { ID := 1, Name := "User", Users := none }

/-- The stored role with identifier 3. -/
def sysAdminRole : Role := { ID := 3, Name := "SysAdmin", Users := none }


/-! ## Services: the read and delete paths (`services/*.go`) -/

/-- `userService.GetUser`. -/
def userService.GetUser {σ : Type} (u : userService σ) (id : Int) (s : σ) :
    Option ((UserDTO × Int × Option Error) × σ) :=
  match u.userRepo.FindByID id s with
  | ((_, some err), s) => some ((UserDTO.zero, StatusInternalServerError, some err), s)
  | ((user, none), s) =>
    let user := { user with Password := "" }
    some ((MapUserDTO user, StatusOK, none), s)

/-- `userService.DeleteUser`. -/
def userService.DeleteUser {σ : Type} (u : userService σ) (id : Int) (s : σ) :
    Option ((UserDTO × Int × Option Error) × σ) :=
  match u.userRepo.FindByID id s with
  | ((_, some err), s) => some ((UserDTO.zero, StatusNotFound, some err), s)
  | ((user, none), s) =>
    match u.userRepo.Delete user s with
    | (some err, s) => some ((UserDTO.zero, StatusInternalServerError, some err), s)
    | (none, s) => some ((MapUserDTO user, StatusOK, none), s)

/-- `roleService.GetRole`. -/
def roleService.GetRole {σ : Type} (r : roleService σ) (id : Int) (s : σ) :
    Option ((RoleDTO × Int × Option Error) × σ) :=
  match r.roleRepo.FindByID id s with
  | ((_, some err), s) => some ((RoleDTO.zero, StatusInternalServerError, some err), s)
  | ((role, none), s) => some ((MapRoleDTO role, StatusOK, none), s)

/-- `roleService.DeleteRole`. -/
def roleService.DeleteRole {σ : Type} (r : roleService σ) (id : Int) (s : σ) :
    Option ((RoleDTO × Int × Option Error) × σ) :=
  match r.roleRepo.FindByID id s with
  | ((_, some err), s) => some ((RoleDTO.zero, StatusNotFound, some err), s)
  | ((role, none), s) =>
    match r.roleRepo.Delete role s with
    | (some err, s) => some ((RoleDTO.zero, StatusInternalServerError, some err), s)
    | (none, s) => some ((MapRoleDTO role, StatusOK, none), s)

/-- `itemService.GetItem`. -/
def itemService.GetItem {σ : Type} (p : itemService σ) (id : Int) (s : σ) :
    Option ((ItemDTO × Int × Option Error) × σ) :=
  match p.ItemRepo.FindByID id s with
  | ((_, some err), s) => some ((ItemDTO.zero, StatusNotFound, some err), s)
  | ((item, none), s) => some ((MapItemDTO item, StatusOK, none), s)

/-- `itemService.DeleteItem`. -/
def itemService.DeleteItem {σ : Type} (p : itemService σ) (id : Int) (s : σ) :
    Option ((ItemDTO × Int × Option Error) × σ) :=
  match p.ItemRepo.FindByID id s with
  | ((_, some err), s) => some ((ItemDTO.zero, StatusNotFound, some err), s)
  | ((item, none), s) =>
    match p.ItemRepo.Delete item s with
    | (some err, s) => some ((ItemDTO.zero, StatusInternalServerError, some err), s)
    | (none, s) => some ((MapItemDTO item, StatusOK, none), s)

/-- `truckService.GetTruck`. -/
def truckService.GetTruck {σ : Type} (p : truckService σ) (id : Int) (s : σ) :
    Option ((TruckDTO × Int × Option Error) × σ) :=
  match p.TruckRepo.FindByID id s with
  | ((_, some err), s) => some ((TruckDTO.zero, StatusNotFound, some err), s)
  | ((truck, none), s) => some ((MapTruckDTO truck, StatusOK, none), s)

/-- `truckService.DeleteTruck`. -/
def truckService.DeleteTruck {σ : Type} (p : truckService σ) (id : Int) (s : σ) :
    Option ((TruckDTO × Int × Option Error) × σ) :=
  match p.TruckRepo.FindByID id s with
  | ((_, some err), s) => some ((TruckDTO.zero, StatusNotFound, some err), s)
  | ((truck, none), s) =>
    match p.TruckRepo.Delete truck s with
    | (some err, s) => some ((TruckDTO.zero, StatusInternalServerError, some err), s)
    | (none, s) => some ((MapTruckDTO truck, StatusOK, none), s)

/-- `orderService.GetOrder`; on an error the order the repository returned goes out with
it. -/
def orderService.GetOrder {σ : Type} (p : orderService σ) (id : Int) (s : σ) :
    Option ((Order × Int × Option Error) × σ) :=
  match p.OrderRepo.FindByID id s with
  | ((order, some err), s) => some ((order, StatusInternalServerError, some err), s)
  | ((order, none), s) => some ((order, StatusOK, none), s)

/-- `orderService.DeleteOrder`. -/
def orderService.DeleteOrder {σ : Type} (p : orderService σ) (id : Int) (s : σ) :
    Option ((Order × Int × Option Error) × σ) :=
  match p.OrderRepo.FindByID id s with
  | ((item, some err), s) => some ((item, StatusNotFound, some err), s)
  | ((item, none), s) =>
    match p.OrderRepo.Delete item s with
    | (some err, s) => some ((item, StatusInternalServerError, some err), s)
    | (none, s) => some ((item, StatusOK, none), s)

/-! ### Reading a service result -/

/-- The status and the error of a service result; `none` when the call panicked. -/
def outcome {σ R : Type} (out : Option ((R × Int × Option Error) × σ)) :
    Option (Int × Option Error) :=
  out.map fun r => (r.1.2.1, r.1.2.2)

/-- The value (DTO) of a service result; `none` when the call panicked. -/
def valueOf {σ R : Type} (out : Option ((R × Int × Option Error) × σ)) : Option R :=
  out.map fun r => r.1.1

/-- The repository's `Update` stores the record it is given, reports no error and returns
that record, and the next `FindByID id` returns that record. -/
def StoresUpdates {E σ : Type} (find : Int → σ → (E × Option Error) × σ)
    (update : E → σ → (E × Option Error) × σ) (id : Int) : Prop :=
  ∀ (r : E) (s : σ), (update r s).1 = (r, none) ∧ (find id (update r s).2).1 = (r, none)

/-! ### More fixtures -/

/-- A repository over a store that is one record: `FindByID` returns it, `Save` and
`Update` replace it with the record they are given, `Delete` leaves it. -/
def cellRepo {E : Type} : Repo E E where
  FindAll _ s := ((some [s], none), s)
  FindByID _ s := ((s, none), s)
  Save e _ := ((e, none), e)
  Update e _ := ((e, none), e)
  Delete _ s := (none, s)
  DeleteById _ s := ((s, none), s)

/-- The user repository of the same kind. -/
def cellUserRepo : UserRepo User where
  toRepo := cellRepo
  FindByUsername _ s := ((s, none), s)

/-- The item repository of the same kind. -/
def cellItemRepo : ItemRepo Item where
  toRepo := cellRepo
  FindByName _ s := ((s, none), s)

/-- The role repository of the same kind. -/
def cellRoleRepo : RoleRepo Role where
  FindAll s := ((some [s], none), s)
  FindByID _ s := ((s, none), s)
  FindByName _ s := ((s, none), s)
  Save e _ := ((e, none), e)
  Update e _ := ((e, none), e)
  Delete _ s := (none, s)
  DeleteById _ s := ((s, none), s)

/-- A repository every call of which fails with the error `err`, returning `zero`. -/
def failingRepo {E : Type} (zero : E) (err : Error) : Repo E Unit where
  FindAll _ s := ((none, some err), s)
  FindByID _ s := ((zero, some err), s)
  Save _ s := ((zero, some err), s)
  Update _ s := ((zero, some err), s)
  Delete _ s := (some err, s)
  DeleteById _ s := ((zero, some err), s)

/-- The user repository of the same kind. -/
def failingUserRepo (err : Error) : UserRepo Unit where
  toRepo := failingRepo User.zero err
  FindByUsername _ s := ((User.zero, some err), s)

/-- The item repository of the same kind. -/
def failingItemRepo (err : Error) : ItemRepo Unit where
  toRepo := failingRepo Item.zero err
  FindByName _ s := ((Item.zero, some err), s)

/-- The role repository of the same kind. -/
def failingRoleRepo (err : Error) : RoleRepo Unit where
  FindAll s := ((none, some err), s)
  FindByID _ s := ((Role.zero, some err), s)
  FindByName _ s := ((Role.zero, some err), s)
  Save _ s := ((Role.zero, some err), s)
  Update _ s := ((Role.zero, some err), s)
  Delete _ s := (some err, s)
  DeleteById _ s := ((Role.zero, some err), s)

/-! ## Token validation (`jwt.Parse` of jwt-go, behind `utils.ValidateToken`)

`ParseWithClaims` and `MapClaims.Valid` follow `github.com/dgrijalva/jwt-go` v3; the
codecs they call (base64url, JSON, HMAC) are the functions of a `JWTCodec`. -/

/-- The functions of jwt-go below `Parse` and `SignedString`: the encoders of `JWTLib`,
the decoding of a header segment (its `alg` entry when that is a string) and of a claims
segment, the conversion `int64(f)` of the `float64` with a given bit pattern (a JSON
number in the claims decodes to a `float64`), and `SigningMethod.Verify` (signing string,
signature, key). -/
structure JWTCodec where
  EncodeHeader : SigningMethod → String
  EncodeClaims : Claims → String
  HMACSign : String → String → String → String
  DecodeHeader : String → Option String × Option Error
  DecodeClaims : String → MapClaims × Option Error
  Int64 : Nat → Int
  Verify : SigningMethod → String → String → Option String → Option Error

/-- `jwt.GetSigningMethod`: the methods the library registers, by `alg`. -/
def GetSigningMethod (alg : String) : Option SigningMethod :=
  if alg = "HS256" ∨ alg = "HS384" ∨ alg = "HS512" then some (.HMAC alg)
  else if alg ∈ ["RS256", "RS384", "RS512", "PS256", "PS384", "PS512",
      "ES256", "ES384", "ES512", "none"] then some (.other alg)
  else none

/-- `verifyExp` of jwt-go: an `exp` of 0 counts as absent; otherwise `now <= exp`. -/
def verifyExp (exp now : Int) (required : Bool) : Bool :=
  if exp = 0 then !required else decide (now ≤ exp)

/-- `verifyIat` of jwt-go. -/
def verifyIat (iat now : Int) (required : Bool) : Bool :=
  if iat = 0 then !required else decide (now ≥ iat)

/-- `verifyNbf` of jwt-go. -/
def verifyNbf (nbf now : Int) (required : Bool) : Bool :=
  if nbf = 0 then !required else decide (now ≥ nbf)

/-- `MapClaims.VerifyExpiresAt`: only a `float64` claim is compared. -/
def MapClaims.VerifyExpiresAt (codec : JWTCodec) (m : MapClaims) (cmp : Int) (req : Bool) :
    Bool :=
  match m.get "exp" with
  | some (.float bits) => verifyExp (codec.Int64 bits) cmp req
  | _ => req == false

/-- `MapClaims.VerifyIssuedAt`. -/
def MapClaims.VerifyIssuedAt (codec : JWTCodec) (m : MapClaims) (cmp : Int) (req : Bool) :
    Bool :=
  match m.get "iat" with
  | some (.float bits) => verifyIat (codec.Int64 bits) cmp req
  | _ => req == false

/-- `MapClaims.VerifyNotBefore`. -/
def MapClaims.VerifyNotBefore (codec : JWTCodec) (m : MapClaims) (cmp : Int) (req : Bool) :
    Bool :=
  match m.get "nbf" with
  | some (.float bits) => verifyNbf (codec.Int64 bits) cmp req
  | _ => req == false

/-- `MapClaims.Valid` at the clock reading `now` (in seconds): the error of the last check
that failed, `none` when all three pass. -/
def MapClaims.Valid (codec : JWTCodec) (m : MapClaims) (now : Int) : Option Error :=
  let e1 : Option Error :=
    if m.VerifyExpiresAt codec now false = false then some "Token is expired" else none
  let e2 : Option Error :=
    if m.VerifyIssuedAt codec now false = false then some "Token used before issued" else e1
  if m.VerifyNotBefore codec now false = false then some "Token is not valid yet" else e2

/-- `jwt.Parse(tokenString, keyFunc)`, that is `ParseWithClaims` with a `MapClaims`:
split into three segments, decode header and claims, look the method up, ask the key
function for the key, validate the claims against `now`, verify the signature. On an error
the token is returned as far as it was filled in. -/
def Parse (codec : JWTCodec) (tokenString : String)
    (keyFunc : Token → Option String × Option Error) (now : Instant) : Token × Option Error :=
  let blank : Token :=
    { Raw := tokenString, Method := .other "", Claims := .mapClaims [], Signature := "",
      Valid := false }
  match Split tokenString '.' with
  | [p0, p1, p2] =>
    match codec.DecodeHeader p0 with
    | (_, some err) => (blank, some err)
    | (header, none) =>
      match codec.DecodeClaims p1 with
      | (_, some err) => (blank, some err)
      | (claims, none) =>
        match header with
        | none =>
          ({ blank with Claims := .mapClaims claims },
            some "signing method (alg) is unspecified.")
        | some alg =>
          match GetSigningMethod alg with
          | none =>
            ({ blank with Claims := .mapClaims claims },
              some "signing method (alg) is unavailable.")
          | some method =>
            let token : Token := { blank with Claims := .mapClaims claims, Method := method }
            match keyFunc token with
            | (_, some err) => (token, some err)
            | (key, none) =>
              let token : Token := { token with Signature := p2 }
              match claims.Valid codec now.Unix,
                codec.Verify method (p0 ++ "." ++ p1) p2 key with
              | none, none => ({ token with Valid := true }, none)
              | _, some err => (token, some err)
              | some err, none => (token, some err)
  | _ => (blank, some "token contains an invalid number of segments")

/-- The library jwt-go over a codec. -/
def jwtGo (codec : JWTCodec) : JWTLib where
  EncodeHeader := codec.EncodeHeader
  EncodeClaims := codec.EncodeClaims
  HMACSign := codec.HMACSign
  Parse := Parse codec

/-- `utils.GetClaimsFromToken`: the claims, or nil claims with an error. -/
def GetClaimsFromToken (lib : JWTLib) (env : Env) (now : Instant) (token : String) :
    Option MapClaims × Option Error :=
  match ValidateToken lib env now token with
  | (_, some err) => (none, some err)
  | (t, none) =>
    match t.Claims, t.Valid with
    | .mapClaims claims, true => (some claims, none)
    | _, _ => (none, some "invalid token")

/-- The `exp` claim of a token string as validation reads it: the integer value of the
`float64` claim `exp` of the decoded second segment; `none` when the string has not three
segments, the segment does not decode, or there is no numeric `exp`. -/
def expOf (codec : JWTCodec) (tokenString : String) : Option Int :=
  match Split tokenString '.' with
  | [_, p1, _] =>
    match codec.DecodeClaims p1 with
    | (claims, none) =>
      match claims.get "exp" with
      | some (.float bits) => some (codec.Int64 bits)
      | _ => none
    | _ => none
  | _ => none

/-- The value of a run of decimal digits, most significant first, on top of `acc`; `none`
when a character is not a digit. -/
def digitsValue : List Char → Nat → Option Nat
  | [], acc => some acc
  | c :: cs, acc =>
    if '0' ≤ c ∧ c ≤ '9' then digitsValue cs (acc * 10 + (c.toNat - '0'.toNat)) else none

/-- A stand-in for the codecs of jwt-go: a header segment is the `alg` in clear, a claims
segment is a decimal number that is both `exp` and `iat`, a `float64` is written as the
integer it holds, and the signature of the HMAC methods is the key. -/
def toyCodec : JWTCodec where
  EncodeHeader m := m.Alg
  EncodeClaims c :=
    match c with
    | .mapClaims m => ((m.get "exp").map ClaimValue.text).getD ""
    | .other => ""
  HMACSign _ _ key := key
  DecodeHeader seg := (some seg, none)
  DecodeClaims seg :=
    match seg.toList, digitsValue seg.toList 0 with
    | _ :: _, some n => ([("exp", .float n), ("iat", .float n)], none)
    | _, _ => ([], some "invalid character looking for beginning of value")
  Int64 bits := bits
  Verify method _ signature key :=
    match method, key with
    | .HMAC _, some k => if signature = k then none else some "signature is invalid"
    | _, _ => some "key is of invalid type"

/-! ## Password hashing in place (`utils.HashPassword`) and a bcrypt with a length limit -/

/-- `utils.HashPassword`: the bytes `*password` holds afterwards; panics (`none`) when
bcrypt fails. -/
def HashPassword (bc : BcryptLib) (rand password : String) : Option String :=
  match bc.GenerateFromPassword rand password DefaultCost with
  | (_, some _) => none
  | (hashedPassword, none) => some hashedPassword

/-- A stand-in for bcrypt as `golang.org/x/crypto` ships it since v0.4.0:
`GenerateFromPassword` answers a password of more than 72 bytes with
`ErrPasswordTooLong`; below that it is `toyBcrypt`. -/
def longRefusingBcrypt : BcryptLib where
  GenerateFromPassword rand password cost :=
    if password.utf8ByteSize > 72 then ("", some "bcrypt: password length exceeds 72 bytes")
    else toyBcrypt.GenerateFromPassword rand password cost
  CompareHashAndPassword := toyBcrypt.CompareHashAndPassword

/-- A password of 73 bytes. -/
def password73 : String :=
  "0123456789012345678901234567890123456789012345678901234567890123456789012"

/-! ## Paginated listing (`repositories/*_repo.go`, `FindAll`, over `*gorm.DB`) -/

/-- The value a Go `int` of 64 bits holds for the mathematical integer `x`: arithmetic on
`int` wraps around. -/
def wrapInt64 (x : Int) : Int := (x + 2 ^ 63) % 2 ^ 64 - 2 ^ 63

/-- Go's `a - b` on `int`. -/
def subInt (a b : Int) : Int := wrapInt64 (a - b)

/-- Go's `a * b` on `int`. -/
def mulInt (a b : Int) : Int := wrapInt64 (a * b)

/-- Whether `x` is a value of Go's `int` (64 bits). -/
def IsGoInt (x : Int) : Prop := -(2 ^ 63) ≤ x ∧ x < 2 ^ 63

/-- The clauses a chain of `*gorm.DB` calls has put on the statement `Find` runs: the
argument of `Offset`, the argument of `Limit`, the associations named to `Preload`. -/
structure Statement where
  offsetClause : Option Int := none
  limitClause : Option Int := none
  preloads : List String := []
  deriving DecidableEq

/-- `db.Offset(offset)`. -/
def Statement.Offset (q : Statement) (offset : Int) : Statement :=
  { q with offsetClause := some offset }

/-- `db.Limit(limit)`. -/
def Statement.Limit (q : Statement) (limit : Int) : Statement :=
  { q with limitClause := some limit }

/-- `db.Preload(query)`. -/
def Statement.Preload (q : Statement) (query : String) : Statement :=
  { q with preloads := q.preloads ++ [query] }

/-- A `*gorm.DB` on the table of `E`, over a store state `σ`: `Find` runs the statement and
answers with what the destination slice holds afterwards (given what it held before) and
the `Error` of the result. -/
structure GormDB (E σ : Type) where
  Find : Statement → Option (List E) → σ → (Option (List E) × Option Error) × σ

/-- `repositories.userRepo`. -/
structure userRepo (σ : Type) where
  DB : GormDB User σ

/-- `repositories.itemRepo`. -/
structure itemRepo (σ : Type) where
  DB : GormDB Item σ

/-- `repositories.truckRepo`. -/
structure truckRepo (σ : Type) where
  DB : GormDB Truck σ

/-- `repositories.orderRepo`. -/
structure orderRepo (σ : Type) where
  DB : GormDB Order σ

/-- `userRepo.FindAll`: the query runs twice, the second run gives the result. -/
def userRepo.FindAll {σ : Type} (u : userRepo σ) (pagination : Pagination) (s : σ) :
    (Option (List User) × Option Error) × σ :=
  let users : Option (List User) := none
  if pagination.Limit = 0 ∨ pagination.Page = 0 then
    match u.DB.Find {} users s with
    | ((_, some err), s1) => ((none, some err), s1)
    | ((users, none), s1) => u.DB.Find {} users s1
  else
    match u.DB.Find ((Statement.Offset {} (mulInt (subInt pagination.Page 1)
        pagination.Limit)).Limit pagination.Limit) users s with
    | ((_, some err), s1) => ((none, some err), s1)
    | ((users, none), s1) =>
      u.DB.Find ((Statement.Offset {} (mulInt (subInt pagination.Page 1)
        pagination.Limit)).Limit pagination.Limit) users s1

/-- `itemRepo.FindAll`: the query runs twice, the second run gives the result. -/
def itemRepo.FindAll {σ : Type} (p : itemRepo σ) (pagination : Pagination) (s : σ) :
    (Option (List Item) × Option Error) × σ :=
  let items : Option (List Item) := none
  if pagination.Limit = 0 ∨ pagination.Page = 0 then
    match p.DB.Find {} items s with
    | ((_, some err), s1) => ((none, some err), s1)
    | ((items, none), s1) => p.DB.Find {} items s1
  else
    match p.DB.Find ((Statement.Offset {} (mulInt (subInt pagination.Page 1)
        pagination.Limit)).Limit pagination.Limit) items s with
    | ((_, some err), s1) => ((none, some err), s1)
    | ((items, none), s1) =>
      p.DB.Find ((Statement.Offset {} (mulInt (subInt pagination.Page 1)
        pagination.Limit)).Limit pagination.Limit) items s1

/-- `truckRepo.FindAll`: one query; the slice is returned as `Find` left it. -/
def truckRepo.FindAll {σ : Type} (t : truckRepo σ) (pagination : Pagination) (s : σ) :
    (Option (List Truck) × Option Error) × σ :=
  let trucks : Option (List Truck) := none
  if pagination.Limit = 0 ∨ pagination.Page = 0 then
    t.DB.Find {} trucks s
  else
    t.DB.Find ((Statement.Offset {} (mulInt (subInt pagination.Page 1)
      pagination.Limit)).Limit pagination.Limit) trucks s

/-- `orderRepo.FindAll`: one query, with the order items preloaded. -/
def orderRepo.FindAll {σ : Type} (o : orderRepo σ) (pagination : Pagination) (s : σ) :
    (Option (List Order) × Option Error) × σ :=
  let orders : Option (List Order) := none
  if pagination.Limit = 0 ∨ pagination.Page = 0 then
    o.DB.Find (Statement.Preload {} "OrderItems") orders s
  else
    o.DB.Find (((Statement.Offset {} (mulInt (subInt pagination.Page 1)
      pagination.Limit)).Limit pagination.Limit).Preload "OrderItems") orders s

/-- The rows a statement selects from `rows`, as the SQL gorm builds does: `OFFSET` is
written for an offset above 0, `LIMIT` for a limit above 0 (`FindAll` never passes the
limit 0). -/
def Statement.select {E : Type} (q : Statement) (rows : List E) : List E :=
  let skipped :=
    match q.offsetClause with
    | some o => if o > 0 then rows.drop o.toNat else rows
    | none => rows
  match q.limitClause with
  | some n => if n > 0 then skipped.take n.toNat else skipped
  | none => skipped

/-- A database whose table is the list of rows in the store, in a fixed order; `Find`
never fails and overwrites the destination. -/
def tableDB (E : Type) : GormDB E (List E) where
  Find q _ rows := ((some (q.select rows), none), rows)

/-- The page `4611686018427387905 = 2^62 + 1` with 4 rows a page. -/
def farPage : Pagination := ⟨4611686018427387905, 4⟩

/-- The item with the given ID, all else zero. -/
def itemNo (id : Nat) : Item := { Item.zero with Model := { Model.zero with ID := id } }

/-- A table of six items, IDs 1 to 6. -/
def sixItems : List Item := [itemNo 1, itemNo 2, itemNo 3, itemNo 4, itemNo 5, itemNo 6]

/-! ## Number parsing (`strconv`) -/

/-- The two errors of the parsers of `strconv`: `ErrSyntax` and `ErrRange`. -/
inductive NumError where
  | invalid
  | range
  deriving DecidableEq

/-- The text of `ErrSyntax` and of `ErrRange`. -/
def NumError.text : NumError → String
  | .invalid => "invalid syntax"
  | .range => "value out of range"

/-- Whether `c` is one of `0` to `9`. -/
def isDecimalDigit (c : Char) : Bool := decide ('0' ≤ c ∧ c ≤ '9')

/-- The loop of `strconv.ParseUint(s, 10, 64)` over what is left of the string, `n` being
the value so far: a character that is not a digit of base 10 is a syntax error; a value
that leaves `uint64` is a range error with the largest `uint64`. -/
def ParseUint.loop : List Char → Nat → Nat × Option NumError
  | [], n => (n, none)
  | c :: cs, n =>
    if isDecimalDigit c then
      if n ≥ 1844674407370955162 then (18446744073709551615, some .range)
      else if n * 10 + (c.toNat - '0'.toNat) > 18446744073709551615 then
        (18446744073709551615, some .range)
      else ParseUint.loop cs (n * 10 + (c.toNat - '0'.toNat))
    else (0, some .invalid)

/-- `strconv.ParseUint(s, 10, 64)` on the characters of `s`. -/
def ParseUint (s : List Char) : Nat × Option NumError :=
  match s with
  | [] => (0, some .invalid)
  | _ :: _ => ParseUint.loop s 0

/-- `strconv.ParseInt(s, 10, 64)`: an optional sign, then `ParseUint`; a value outside
`int64` is a range error with the nearest `int64`. -/
def ParseInt (s : String) : Int × Option NumError :=
  match s.toList with
  | [] => (0, some .invalid)
  | c :: cs =>
    let neg : Bool := c = '-'
    match ParseUint (if c = '+' ∨ c = '-' then cs else c :: cs) with
    | (_, some .invalid) => (0, some .invalid)
    | (un, _) =>
      if !neg && un ≥ 9223372036854775808 then (9223372036854775807, some .range)
      else if neg && un > 9223372036854775808 then (-9223372036854775808, some .range)
      else (if neg then -(un : Int) else (un : Int), none)

/-- What "decimal integer" means for a path or query parameter: an optional sign `+` or
`-` followed by one or more of the digits `0` to `9`. -/
def IsDecimalInteger (s : String) : Bool :=
  match s.toList with
  | [] => false
  | c :: cs =>
    if c = '+' ∨ c = '-' then !cs.isEmpty && cs.all isDecimalDigit
    else (c :: cs).all isDecimalDigit

/-! ## Handlers (`handlers/*.go`) -/

/-- Library functions behind the handlers: `strconv.Quote`, with which the errors of
`strconv` quote their input; the decoding of a request body by `ctx.ShouldBindJSON`
into each of the five models and into `models.Login`; `automapper.Map` from
`[]models.UserDTO` to `[]models.UserDTO`. -/
structure HandlerLibs where
  Quote : String → String
  BindLogin : String → Login × Option Error
  BindUser : String → User × Option Error
  BindRole : String → Role × Option Error
  BindItem : String → Item × Option Error
  BindTruck : String → Truck × Option Error
  BindOrder : String → Order × Option Error
  MapUserDTOs : Option (List UserDTO) → Option (List UserDTO)

/-- `strconv.Atoi(s)` where `int` has 64 bits: the value and, on failure, the text of the
`*NumError`. -/
def Atoi (libs : HandlerLibs) (s : String) : Int × Option Error :=
  match ParseInt s with
  | (i, none) => (i, none)
  | (i, some e) => (i, some ("strconv.Atoi: parsing " ++ libs.Quote s ++ ": " ++ e.text))

/-- `ctx.Query(key)`: the first value of the key, the empty string when there is none. -/
def Context.Query (c : Context) (key : String) : String :=
  match c.QueryValues key with
  | some (v :: _) => v
  | _ => ""

/-- `unicode.IsSpace`: the white space of Latin-1 (tab, line feed, vertical tab, form
feed, carriage return, space, U+0085, U+00A0) and the other characters with the Unicode
property White_Space. -/
def IsSpace (c : Char) : Bool :=
  c = '\t' || c = '\n' || c.toNat = 11 || c.toNat = 12 || c = '\r' || c = ' ' ||
    c.toNat = 133 || c.toNat = 160 || c.toNat = 5760 ||
    (8192 ≤ c.toNat && c.toNat ≤ 8202) || c.toNat = 8232 || c.toNat = 8233 ||
    c.toNat = 8239 || c.toNat = 8287 || c.toNat = 12288

/-- `strings.TrimSpace`: the text without its leading and trailing white space. -/
def TrimSpace (s : String) : String :=
  String.mk ((s.toList.dropWhile IsSpace).reverse.dropWhile IsSpace).reverse

/-- The form mapping of gin for one `int` field (`setByForm`, `setWithProperType`,
`setIntField`): a key that is absent leaves the field as it is; otherwise the first value,
with the white space around it trimmed (as gin does for every field that is not a string)
and `0` in place of an empty one, goes through `strconv.ParseInt`, whose error is the error
of the binding. -/
def setIntByForm (libs : HandlerLibs) (vs : Option (List String)) (field : Int) :
    Int × Option Error :=
  match vs with
  | none => (field, none)
  | some vs =>
    let val := match vs with
      | v :: _ => v
      | [] => ""
    let val := TrimSpace val
    let val := if val = "" then "0" else val
    match ParseInt val with
    | (i, none) => (i, none)
    | (_, some e) =>
      (field, some ("strconv.ParseInt: parsing " ++ libs.Quote val ++ ": " ++ e.text))

/-- `ctx.ShouldBindQuery(&pagination)` at `models.Pagination`. The struct has `json` tags
only, so the form mapping looks each field up under its own name, `Page` and `Limit`, in
field order, and stops at the first error; there is nothing to validate. -/
def Context.ShouldBindQuery (c : Context) (libs : HandlerLibs) (pagination : Pagination) :
    Pagination × Option Error :=
  match setIntByForm libs (c.QueryValues "Page") pagination.Page with
  | (page, some err) => ({ pagination with Page := page }, some err)
  | (page, none) =>
    match setIntByForm libs (c.QueryValues "Limit") pagination.Limit with
    | (limit, err) => (⟨page, limit⟩, err)

/-- `helpers.SuccessResponse`. -/
def SuccessResponse (ctx : Context) (data : Data) : Context :=
  let data := match data with
    | .str "" => Data.str "Success"
    | d => d
  ctx.JSON StatusOK (.envelope { Code := StatusOK, Message := "Success", Data := some data })

/-- `services.UserService`, the interface, over a store state `σ`; `none` is a panic. -/
structure UserService (σ : Type) where
  CreateUser : User → σ → Option ((UserDTO × Int × Option Error) × σ)
  GetUser : Int → σ → Option ((UserDTO × Int × Option Error) × σ)
  GetAllUsers : Pagination → σ → Option ((Option (List UserDTO) × Int × Option Error) × σ)
  SignInUser : Login → σ → Option ((String × Int × Option Error) × σ)
  SignOutUser : σ → Option (String × σ)
  UpdateUser : Int → User → σ → Option ((UserDTO × Int × Option Error) × σ)
  DeleteUser : Int → σ → Option ((UserDTO × Int × Option Error) × σ)

/-- `services.RoleService`. -/
structure RoleService (σ : Type) where
  CreateRole : Role → σ → Option ((RoleDTO × Int × Option Error) × σ)
  GetRole : Int → σ → Option ((RoleDTO × Int × Option Error) × σ)
  GetAllRoles : σ → Option ((Option (List RoleDTO) × Int × Option Error) × σ)
  UpdateRole : Int → Role → σ → Option ((RoleDTO × Int × Option Error) × σ)
  DeleteRole : Int → σ → Option ((RoleDTO × Int × Option Error) × σ)

/-- `services.ItemService`. -/
structure ItemService (σ : Type) where
  CreateItem : Item → σ → Option ((ItemDTO × Int × Option Error) × σ)
  GetItem : Int → σ → Option ((ItemDTO × Int × Option Error) × σ)
  GetAllItems : Pagination → σ → Option ((Option (List ItemDTO) × Int × Option Error) × σ)
  UpdateItem : Int → Item → σ → Option ((ItemDTO × Int × Option Error) × σ)
  DeleteItem : Int → σ → Option ((ItemDTO × Int × Option Error) × σ)

/-- `services.TruckService`. -/
structure TruckService (σ : Type) where
  CreateTruck : Truck → σ → Option ((TruckDTO × Int × Option Error) × σ)
  GetTruck : Int → σ → Option ((TruckDTO × Int × Option Error) × σ)
  GetAllTrucks : Pagination → σ → Option ((Option (List TruckDTO) × Int × Option Error) × σ)
  UpdateTruck : Int → Truck → σ → Option ((TruckDTO × Int × Option Error) × σ)
  DeleteTruck : Int → σ → Option ((TruckDTO × Int × Option Error) × σ)

/-- `services.OrderService`. -/
structure OrderService (σ : Type) where
  CreateOrder : Order → σ → Option ((Order × Int × Option Error) × σ)
  GetOrder : Int → σ → Option ((Order × Int × Option Error) × σ)
  GetAllOrders : Pagination → σ → Option ((Option (List Order) × Int × Option Error) × σ)
  UpdateOrder : Int → Order → σ → Option ((Order × Int × Option Error) × σ)
  DeleteOrder : Int → σ → Option ((Order × Int × Option Error) × σ)

/-- `handlers.userHandler`. -/
structure userHandler (σ : Type) where
  userService : UserService σ
  roleService : RoleService σ

/-- `handlers.itemHandler`. -/
structure itemHandler (σ : Type) where
  itemService : ItemService σ

/-- `handlers.truckHandler`. -/
structure truckHandler (σ : Type) where
  truckService : TruckService σ

/-- `handlers.orderHandler`. -/
structure orderHandler (σ : Type) where
  orderService : OrderService σ

/-- `userHandler.GetUser`. -/
def userHandler.GetUser {σ : Type} (u : userHandler σ) (libs : HandlerLibs) (ctx : Context)
    (s : σ) : Option (Context × σ) :=
  let id := ctx.Param "id"
  match Atoi libs id with
  | (_, some err) => some (FailedResponse ctx StatusBadRequest err none, s)
  | (intId, none) =>
    match u.userService.GetUser intId s with
    | none => none
    | some ((_, status, some err), s1) =>
      some (FailedResponse ctx status err none, s1)
    | some ((user, _, none), s1) => some (SuccessResponse ctx (.user user), s1)

/-- `userHandler.GetAllUsers`: a `page` or `limit` that `Atoi` refuses counts as 0. -/
def userHandler.GetAllUsers {σ : Type} (u : userHandler σ) (libs : HandlerLibs) (ctx : Context)
    (s : σ) : Option (Context × σ) :=
  let page := ctx.Query "page"
  let limit := ctx.Query "limit"
  let intPage := match Atoi libs page with
    | (_, some _) => 0
    | (i, none) => i
  let intLimit := match Atoi libs limit with
    | (_, some _) => 0
    | (i, none) => i
  let pagination : Pagination := { Page := intPage, Limit := intLimit }
  match u.userService.GetAllUsers pagination s with
  | none => none
  | some ((_, status, some err), s1) => some (FailedResponse ctx status err none, s1)
  | some ((users, _, none), s1) =>
    some (SuccessResponse ctx (.users (libs.MapUserDTOs users)), s1)

/-- `userHandler.UpdateUser`. -/
def userHandler.UpdateUser {σ : Type} (u : userHandler σ) (libs : HandlerLibs) (ctx : Context)
    (s : σ) : Option (Context × σ) :=
  let id := ctx.Param "id"
  match Atoi libs id with
  | (_, some err) => some (FailedResponse ctx StatusBadRequest err none, s)
  | (intId, none) =>
    match libs.BindUser ctx.RequestBody with
    | (_, some err) => some (FailedResponse ctx StatusBadRequest err none, s)
    | (user, none) =>
      match u.userService.UpdateUser intId user s with
      | none => none
      | some ((_, status, some err), s1) =>
        some (FailedResponse ctx status err none, s1)
      | some ((userDTO, _, none), s1) => some (SuccessResponse ctx (.user userDTO), s1)

/-- `userHandler.DeleteUser`. -/
def userHandler.DeleteUser {σ : Type} (u : userHandler σ) (libs : HandlerLibs) (ctx : Context)
    (s : σ) : Option (Context × σ) :=
  let id := ctx.Param "id"
  match Atoi libs id with
  | (_, some err) => some (FailedResponse ctx StatusBadRequest err none, s)
  | (intId, none) =>
    match u.userService.DeleteUser intId s with
    | none => none
    | some ((_, status, some err), s1) =>
      some (FailedResponse ctx status err none, s1)
    | some ((user, _, none), s1) => some (SuccessResponse ctx (.user user), s1)

/-- `userHandler.GetRole`. -/
def userHandler.GetRole {σ : Type} (u : userHandler σ) (libs : HandlerLibs) (ctx : Context)
    (s : σ) : Option (Context × σ) :=
  let id := ctx.Param "id"
  match Atoi libs id with
  | (_, some err) => some (FailedResponse ctx StatusBadRequest err none, s)
  | (intId, none) =>
    match u.roleService.GetRole intId s with
    | none => none
    | some ((_, status, some err), s1) =>
      some (FailedResponse ctx status err none, s1)
    | some ((role, _, none), s1) => some (SuccessResponse ctx (.role role), s1)

/-- `userHandler.UpdateRole`. -/
def userHandler.UpdateRole {σ : Type} (u : userHandler σ) (libs : HandlerLibs) (ctx : Context)
    (s : σ) : Option (Context × σ) :=
  let id := ctx.Param "id"
  match Atoi libs id with
  | (_, some err) => some (FailedResponse ctx StatusBadRequest err none, s)
  | (intId, none) =>
    match libs.BindRole ctx.RequestBody with
    | (_, some err) => some (FailedResponse ctx StatusBadRequest err none, s)
    | (role, none) =>
      match u.roleService.UpdateRole intId role s with
      | none => none
      | some ((_, status, some err), s1) =>
        some (FailedResponse ctx status err none, s1)
      | some ((roleDTO, _, none), s1) => some (SuccessResponse ctx (.role roleDTO), s1)

/-- `userHandler.DeleteRole`. -/
def userHandler.DeleteRole {σ : Type} (u : userHandler σ) (libs : HandlerLibs) (ctx : Context)
    (s : σ) : Option (Context × σ) :=
  let id := ctx.Param "id"
  match Atoi libs id with
  | (_, some err) => some (FailedResponse ctx StatusBadRequest err none, s)
  | (intId, none) =>
    match u.roleService.DeleteRole intId s with
    | none => none
    | some ((_, status, some err), s1) =>
      some (FailedResponse ctx status err none, s1)
    | some ((role, _, none), s1) => some (SuccessResponse ctx (.role role), s1)

/-- `itemHandler.GetItem`. -/
def itemHandler.GetItem {σ : Type} (p : itemHandler σ) (libs : HandlerLibs) (ctx : Context)
    (s : σ) : Option (Context × σ) :=
  let id := ctx.Param "id"
  match Atoi libs id with
  | (_, some err) => some (ctx.JSON StatusBadRequest (.raw (.H [("error", err)])), s)
  | (intId, none) =>
    match p.itemService.GetItem intId s with
    | none => none
    | some ((_, status, some err), s1) =>
      some (ctx.JSON status (.raw (.H [("error", err)])), s1)
    | some ((itemDTO, status, none), s1) => some (ctx.JSON status (.raw (.item itemDTO)), s1)

/-- `itemHandler.GetAllItems`: a `page` or `limit` that `Atoi` refuses counts as 0. -/
def itemHandler.GetAllItems {σ : Type} (p : itemHandler σ) (libs : HandlerLibs) (ctx : Context)
    (s : σ) : Option (Context × σ) :=
  let page := ctx.Query "page"
  let limit := ctx.Query "limit"
  let intPage := match Atoi libs page with
    | (_, some _) => 0
    | (i, none) => i
  let intLimit := match Atoi libs limit with
    | (_, some _) => 0
    | (i, none) => i
  let pagination : Pagination := { Page := intPage, Limit := intLimit }
  match p.itemService.GetAllItems pagination s with
  | none => none
  | some ((_, status, some err), s1) =>
    some (ctx.JSON status (.raw (.H [("error", err)])), s1)
  | some ((itemsDTO, status, none), s1) => some (ctx.JSON status (.raw (.items itemsDTO)), s1)

/-- `itemHandler.UpdateItem`. -/
def itemHandler.UpdateItem {σ : Type} (p : itemHandler σ) (libs : HandlerLibs) (ctx : Context)
    (s : σ) : Option (Context × σ) :=
  let id := ctx.Param "id"
  match Atoi libs id with
  | (_, some err) => some (ctx.JSON StatusBadRequest (.raw (.H [("error", err)])), s)
  | (intId, none) =>
    match libs.BindItem ctx.RequestBody with
    | (_, some err) => some (ctx.JSON StatusBadRequest (.raw (.H [("error", err)])), s)
    | (item, none) =>
      match p.itemService.UpdateItem intId item s with
      | none => none
      | some ((_, status, some err), s1) =>
        some (ctx.JSON status (.raw (.H [("error", err)])), s1)
      | some ((itemDTO, status, none), s1) => some (ctx.JSON status (.raw (.item itemDTO)), s1)

/-- `itemHandler.DeleteItem`. -/
def itemHandler.DeleteItem {σ : Type} (p : itemHandler σ) (libs : HandlerLibs) (ctx : Context)
    (s : σ) : Option (Context × σ) :=
  let id := ctx.Param "id"
  match Atoi libs id with
  | (_, some err) => some (ctx.JSON StatusBadRequest (.raw (.H [("error", err)])), s)
  | (intId, none) =>
    match p.itemService.DeleteItem intId s with
    | none => none
    | some ((_, status, some err), s1) =>
      some (ctx.JSON status (.raw (.H [("error", err)])), s1)
    | some ((itemDTO, status, none), s1) => some (ctx.JSON status (.raw (.item itemDTO)), s1)

/-- `truckHandler.GetTruck`. -/
def truckHandler.GetTruck {σ : Type} (p : truckHandler σ) (libs : HandlerLibs) (ctx : Context)
    (s : σ) : Option (Context × σ) :=
  let id := ctx.Param "id"
  match Atoi libs id with
  | (_, some err) => some (FailedResponse ctx StatusBadRequest err none, s)
  | (intId, none) =>
    match p.truckService.GetTruck intId s with
    | none => none
    | some ((_, status, some err), s1) =>
      some (FailedResponse ctx status err none, s1)
    | some ((truckDTO, _, none), s1) => some (SuccessResponse ctx (.truck truckDTO), s1)

/-- `truckHandler.GetAllTrucks`: the pagination is bound with `ShouldBindQuery`, whose
error is answered with 400. -/
def truckHandler.GetAllTrucks {σ : Type} (p : truckHandler σ) (libs : HandlerLibs) (ctx : Context)
    (s : σ) : Option (Context × σ) :=
  match ctx.ShouldBindQuery libs ⟨0, 0⟩ with
  | (_, some err) => some (FailedResponse ctx StatusBadRequest err none, s)
  | (pagination, none) =>
    match p.truckService.GetAllTrucks pagination s with
    | none => none
    | some ((_, status, some err), s1) => some (FailedResponse ctx status err none, s1)
    | some ((trucksDTO, _, none), s1) => some (SuccessResponse ctx (.trucks trucksDTO), s1)

/-- `truckHandler.UpdateTruck`. -/
def truckHandler.UpdateTruck {σ : Type} (p : truckHandler σ) (libs : HandlerLibs) (ctx : Context)
    (s : σ) : Option (Context × σ) :=
  let id := ctx.Param "id"
  match Atoi libs id with
  | (_, some err) => some (FailedResponse ctx StatusBadRequest err none, s)
  | (intId, none) =>
    match libs.BindTruck ctx.RequestBody with
    | (_, some err) => some (FailedResponse ctx StatusBadRequest err none, s)
    | (truck, none) =>
      match p.truckService.UpdateTruck intId truck s with
      | none => none
      | some ((_, status, some err), s1) =>
        some (FailedResponse ctx status err none, s1)
      | some ((truckDTO, _, none), s1) => some (SuccessResponse ctx (.truck truckDTO), s1)

/-- `truckHandler.DeleteTruck`. -/
def truckHandler.DeleteTruck {σ : Type} (p : truckHandler σ) (libs : HandlerLibs) (ctx : Context)
    (s : σ) : Option (Context × σ) :=
  let id := ctx.Param "id"
  match Atoi libs id with
  | (_, some err) => some (FailedResponse ctx StatusBadRequest err none, s)
  | (intId, none) =>
    match p.truckService.DeleteTruck intId s with
    | none => none
    | some ((_, status, some err), s1) =>
      some (FailedResponse ctx status err none, s1)
    | some ((truckDTO, _, none), s1) => some (SuccessResponse ctx (.truck truckDTO), s1)

/-- `orderHandler.GetOrder`. -/
def orderHandler.GetOrder {σ : Type} (p : orderHandler σ) (libs : HandlerLibs) (ctx : Context)
    (s : σ) : Option (Context × σ) :=
  let id := ctx.Param "id"
  match Atoi libs id with
  | (_, some err) => some (ctx.JSON StatusBadRequest (.raw (.H [("error", err)])), s)
  | (intId, none) =>
    match p.orderService.GetOrder intId s with
    | none => none
    | some ((_, status, some err), s1) =>
      some (ctx.JSON status (.raw (.H [("error", err)])), s1)
    | some ((order, status, none), s1) => some (ctx.JSON status (.raw (.order order)), s1)

/-- `orderHandler.GetAllOrders`: a `page` or `limit` that `Atoi` refuses counts as 0. -/
def orderHandler.GetAllOrders {σ : Type} (p : orderHandler σ) (libs : HandlerLibs) (ctx : Context)
    (s : σ) : Option (Context × σ) :=
  let page := ctx.Query "page"
  let limit := ctx.Query "limit"
  let intPage := match Atoi libs page with
    | (_, some _) => 0
    | (i, none) => i
  let intLimit := match Atoi libs limit with
    | (_, some _) => 0
    | (i, none) => i
  let pagination : Pagination := { Page := intPage, Limit := intLimit }
  match p.orderService.GetAllOrders pagination s with
  | none => none
  | some ((_, status, some err), s1) =>
    some (ctx.JSON status (.raw (.H [("error", err)])), s1)
  | some ((orders, status, none), s1) => some (ctx.JSON status (.raw (.orders orders)), s1)

/-- `orderHandler.UpdateOrder`. -/
def orderHandler.UpdateOrder {σ : Type} (p : orderHandler σ) (libs : HandlerLibs) (ctx : Context)
    (s : σ) : Option (Context × σ) :=
  let id := ctx.Param "id"
  match Atoi libs id with
  | (_, some err) => some (ctx.JSON StatusBadRequest (.raw (.H [("error", err)])), s)
  | (intId, none) =>
    match libs.BindOrder ctx.RequestBody with
    | (_, some err) => some (ctx.JSON StatusBadRequest (.raw (.H [("error", err)])), s)
    | (order, none) =>
      match p.orderService.UpdateOrder intId order s with
      | none => none
      | some ((_, status, some err), s1) =>
        some (ctx.JSON status (.raw (.H [("error", err)])), s1)
      | some ((order, status, none), s1) => some (ctx.JSON status (.raw (.order order)), s1)

/-- `orderHandler.DeleteOrder`. -/
def orderHandler.DeleteOrder {σ : Type} (p : orderHandler σ) (libs : HandlerLibs) (ctx : Context)
    (s : σ) : Option (Context × σ) :=
  let id := ctx.Param "id"
  match Atoi libs id with
  | (_, some err) => some (ctx.JSON StatusBadRequest (.raw (.H [("error", err)])), s)
  | (intId, none) =>
    match p.orderService.DeleteOrder intId s with
    | none => none
    | some ((_, status, some err), s1) =>
      some (ctx.JSON status (.raw (.H [("error", err)])), s1)
    | some ((order, status, none), s1) => some (ctx.JSON status (.raw (.order order)), s1)

/-! ### Fixtures for the handlers -/

/-- A stand-in for the libraries behind the handlers: quoting puts the text between double
quotes, an empty body does not decode (`EOF`) and any other decodes to the zero value,
the mapping of DTO slices is the identity. -/
def toyLibs : HandlerLibs where
  Quote s := "\"" ++ s ++ "\""
  BindLogin body := (⟨"", ""⟩, if body = "" then some "EOF" else none)
  BindUser body := (User.zero, if body = "" then some "EOF" else none)
  BindRole body := (Role.zero, if body = "" then some "EOF" else none)
  BindItem body := (Item.zero, if body = "" then some "EOF" else none)
  BindTruck body := (Truck.zero, if body = "" then some "EOF" else none)
  BindOrder body := (Order.zero, if body = "" then some "EOF" else none)
  MapUserDTOs us := us

/-- A fresh request whose path parameter `id` is the given text, with a body. -/
def paramRequest (id : String) : Context where
  GetHeader _ := ""
  Written := []
  Aborted := false
  NextCalled := false
  Param name := if name = "id" then id else ""
  RequestBody := "{}"

/-- A fresh request with the given query string, as keys with their values. -/
def queryRequest (query : List (String × List String)) : Context where
  GetHeader _ := ""
  Written := []
  Aborted := false
  NextCalled := false
  QueryValues key := (query.find? (fun kv => kv.1 = key)).map (fun kv => kv.2)

/-- A user service every method of which panics. -/
def panickingUserService (σ : Type) : UserService σ where
  CreateUser _ _ := none
  GetUser _ _ := none
  GetAllUsers _ _ := none
  SignInUser _ _ := none
  SignOutUser _ := none
  UpdateUser _ _ _ := none
  DeleteUser _ _ := none

/-- A role service every method of which panics. -/
def panickingRoleService (σ : Type) : RoleService σ where
  CreateRole _ _ := none
  GetRole _ _ := none
  GetAllRoles _ := none
  UpdateRole _ _ _ := none
  DeleteRole _ _ := none

/-- An item service every method of which panics. -/
def panickingItemService (σ : Type) : ItemService σ where
  CreateItem _ _ := none
  GetItem _ _ := none
  GetAllItems _ _ := none
  UpdateItem _ _ _ := none
  DeleteItem _ _ := none

/-- A truck service every method of which panics. -/
def panickingTruckService (σ : Type) : TruckService σ where
  CreateTruck _ _ := none
  GetTruck _ _ := none
  GetAllTrucks _ _ := none
  UpdateTruck _ _ _ := none
  DeleteTruck _ _ := none

/-- An order service every method of which panics. -/
def panickingOrderService (σ : Type) : OrderService σ where
  CreateOrder _ _ := none
  GetOrder _ _ := none
  GetAllOrders _ _ := none
  UpdateOrder _ _ _ := none
  DeleteOrder _ _ := none

/-- A truck service that answers every call with success and zero values and keeps, as
its state, the paginations `GetAllTrucks` was called with. -/
def recordingTruckService : TruckService (List Pagination) where
  CreateTruck _ s := some ((TruckDTO.zero, StatusOK, none), s)
  GetTruck _ s := some ((TruckDTO.zero, StatusOK, none), s)
  GetAllTrucks pagination s := some ((some [], StatusOK, none), s ++ [pagination])
  UpdateTruck _ _ s := some ((TruckDTO.zero, StatusOK, none), s)
  DeleteTruck _ s := some ((TruckDTO.zero, StatusOK, none), s)

/-- A user service as `recordingTruckService`, for the paginations of `GetAllUsers`. -/
def recordingUserService : UserService (List Pagination) where
  CreateUser _ s := some ((UserDTO.zero, StatusOK, none), s)
  GetUser _ s := some ((UserDTO.zero, StatusOK, none), s)
  GetAllUsers pagination s := some ((some [], StatusOK, none), s ++ [pagination])
  SignInUser _ s := some (("", StatusOK, none), s)
  SignOutUser s := some ("", s)
  UpdateUser _ _ s := some ((UserDTO.zero, StatusOK, none), s)
  DeleteUser _ s := some ((UserDTO.zero, StatusOK, none), s)

/-! ## The remaining service methods (`services/*.go`) -/

/-- `automapper.Map(source, &dest)` at two slice types with different elements: the
destination becomes a new slice of the length of the source (not nil, also for a nil
source) whose elements are the mapped elements of the source. -/
def mapSlice {A B : Type} (f : A → B) (source : Option (List A)) : Option (List B) :=
  some ((source.getD []).map f)

/-- `userService.GetAllUsers`. -/
def userService.GetAllUsers {σ : Type} (u : userService σ) (pagination : Pagination) (s : σ) :
    Option ((Option (List UserDTO) × Int × Option Error) × σ) :=
  match u.userRepo.FindAll pagination s with
  | ((_, some err), s1) => some ((some [], StatusInternalServerError, some err), s1)
  | ((users, none), s1) =>
    let users := users.map fun us => us.map fun x => { x with Password := "" }
    some ((mapSlice MapUserDTO users, StatusOK, none), s1)

/-- `roleService.CreateRole`. -/
def roleService.CreateRole {σ : Type} (r : roleService σ) (role : Role) (s : σ) :
    Option ((RoleDTO × Int × Option Error) × σ) :=
  match r.roleRepo.Save role s with
  | ((_, some err), s1) => some ((RoleDTO.zero, StatusInternalServerError, some err), s1)
  | ((role, none), s1) => some ((MapRoleDTO role, StatusOK, none), s1)

/-- `roleService.GetAllRoles`. -/
def roleService.GetAllRoles {σ : Type} (r : roleService σ) (s : σ) :
    Option ((Option (List RoleDTO) × Int × Option Error) × σ) :=
  match r.roleRepo.FindAll s with
  | ((_, some err), s1) => some ((some [], StatusInternalServerError, some err), s1)
  | ((roles, none), s1) => some ((mapSlice MapRoleDTO roles, StatusOK, none), s1)

/-- `itemService.CreateItem`. -/
def itemService.CreateItem {σ : Type} (p : itemService σ) (item : Item) (s : σ) :
    Option ((ItemDTO × Int × Option Error) × σ) :=
  match p.ItemRepo.Save item s with
  | ((_, some err), s1) => some ((ItemDTO.zero, StatusInternalServerError, some err), s1)
  | ((item, none), s1) => some ((MapItemDTO item, StatusOK, none), s1)

/-- `itemService.GetAllItems`. -/
def itemService.GetAllItems {σ : Type} (p : itemService σ) (pagination : Pagination) (s : σ) :
    Option ((Option (List ItemDTO) × Int × Option Error) × σ) :=
  match p.ItemRepo.FindAll pagination s with
  | ((_, some err), s1) => some ((some [], StatusInternalServerError, some err), s1)
  | ((items, none), s1) => some ((mapSlice MapItemDTO items, StatusOK, none), s1)

/-- `truckService.CreateTruck`. -/
def truckService.CreateTruck {σ : Type} (p : truckService σ) (truck : Truck) (s : σ) :
    Option ((TruckDTO × Int × Option Error) × σ) :=
  match p.TruckRepo.Save truck s with
  | ((_, some err), s1) => some ((TruckDTO.zero, StatusInternalServerError, some err), s1)
  | ((truck, none), s1) => some ((MapTruckDTO truck, StatusOK, none), s1)

/-- `truckService.GetAllTrucks`. -/
def truckService.GetAllTrucks {σ : Type} (p : truckService σ) (pagination : Pagination)
    (s : σ) : Option ((Option (List TruckDTO) × Int × Option Error) × σ) :=
  match p.TruckRepo.FindAll pagination s with
  | ((_, some err), s1) => some ((some [], StatusInternalServerError, some err), s1)
  | ((trucks, none), s1) => some ((mapSlice MapTruckDTO trucks, StatusOK, none), s1)

/-- `orderService.CreateOrder`: on an error the order the repository returned goes back. -/
def orderService.CreateOrder {σ : Type} (p : orderService σ) (order : Order) (s : σ) :
    Option ((Order × Int × Option Error) × σ) :=
  match p.OrderRepo.Save order s with
  | ((order, some err), s1) => some ((order, StatusInternalServerError, some err), s1)
  | ((order, none), s1) => some ((order, StatusOK, none), s1)

/-- `orderService.GetAllOrders`: on an error the slice the repository returned goes
back. -/
def orderService.GetAllOrders {σ : Type} (p : orderService σ) (pagination : Pagination)
    (s : σ) : Option ((Option (List Order) × Int × Option Error) × σ) :=
  match p.OrderRepo.FindAll pagination s with
  | ((orders, some err), s1) => some ((orders, StatusInternalServerError, some err), s1)
  | ((orders, none), s1) => some ((orders, StatusOK, none), s1)

/-- A status and an error as the services pair them: the status is 200 exactly when there
is no error, and it is one of 200, 401, 404 and 500. -/
def StatusMatchesError (o : Option (Int × Option Error)) : Prop :=
  ∀ status err, o = some (status, err) →
    (status = 200 ↔ err = none) ∧
      (status ≠ 200 → status = 401 ∨ status = 404 ∨ status = 500)

/-- A result that carries an error carries the value `zero` with it. -/
def ZeroOnError {σ R : Type} (zero : R) (out : Option ((R × Int × Option Error) × σ)) : Prop :=
  ∀ v status err s1, out = some ((v, status, some err), s1) → v = zero

/-! ## The remaining handlers (`handlers/*.go`) -/

/-- `helpers.SuccessResponseNoData`. -/
def SuccessResponseNoData (ctx : Context) : Context :=
  ctx.JSON StatusOK (.envelope { Code := StatusOK, Message := "Success", Data := none })

/-- `userHandler.CreateUser`. -/
def userHandler.CreateUser {σ : Type} (u : userHandler σ) (libs : HandlerLibs) (ctx : Context)
    (s : σ) : Option (Context × σ) :=
  match libs.BindUser ctx.RequestBody with
  | (_, some err) => some (FailedResponse ctx StatusBadRequest err none, s)
  | (user, none) =>
    match u.userService.CreateUser user s with
    | none => none
    | some ((_, status, some err), s1) => some (FailedResponse ctx status err none, s1)
    | some ((userDTO, _, none), s1) => some (SuccessResponse ctx (.user userDTO), s1)

/-- `userHandler.SignInUser`: the token goes into the `Authorization` header of the
response. -/
def userHandler.SignInUser {σ : Type} (u : userHandler σ) (libs : HandlerLibs) (ctx : Context)
    (s : σ) : Option (Context × σ) :=
  match libs.BindLogin ctx.RequestBody with
  | (_, some err) => some (FailedResponse ctx StatusBadRequest err none, s)
  | (loginUser, none) =>
    match u.userService.SignInUser loginUser s with
    | none => none
    | some ((_, status, some err), s1) => some (FailedResponse ctx status err none, s1)
    | some ((token, _, none), s1) =>
      some (SuccessResponseNoData (ctx.Header "Authorization" token), s1)

/-- `userHandler.SignOutUser`. -/
def userHandler.SignOutUser {σ : Type} (u : userHandler σ) (_libs : HandlerLibs)
    (ctx : Context) (s : σ) : Option (Context × σ) :=
  match u.userService.SignOutUser s with
  | none => none
  | some (expToken, s1) =>
    some (SuccessResponse (ctx.Header "Authorization" expToken)
      (.H [("message", "User logged out successfully")]), s1)

/-- `userHandler.CreateRole`. -/
def userHandler.CreateRole {σ : Type} (u : userHandler σ) (libs : HandlerLibs) (ctx : Context)
    (s : σ) : Option (Context × σ) :=
  match libs.BindRole ctx.RequestBody with
  | (_, some err) => some (FailedResponse ctx StatusBadRequest err none, s)
  | (role, none) =>
    match u.roleService.CreateRole role s with
    | none => none
    | some ((_, status, some err), s1) => some (FailedResponse ctx status err none, s1)
    | some ((userDTO, _, none), s1) => some (SuccessResponse ctx (.role userDTO), s1)

/-- `userHandler.GetAllRoles`. -/
def userHandler.GetAllRoles {σ : Type} (u : userHandler σ) (_libs : HandlerLibs)
    (ctx : Context) (s : σ) : Option (Context × σ) :=
  match u.roleService.GetAllRoles s with
  | none => none
  | some ((_, status, some err), s1) => some (FailedResponse ctx status err none, s1)
  | some ((roles, _, none), s1) => some (SuccessResponse ctx (.roles roles), s1)

/-- `itemHandler.CreateItem`. -/
def itemHandler.CreateItem {σ : Type} (p : itemHandler σ) (libs : HandlerLibs) (ctx : Context)
    (s : σ) : Option (Context × σ) :=
  match libs.BindItem ctx.RequestBody with
  | (_, some err) => some (ctx.JSON 400 (.raw (.H [("error", err)])), s)
  | (item, none) =>
    match p.itemService.CreateItem item s with
    | none => none
    | some ((_, status, some err), s1) =>
      some (ctx.JSON status (.raw (.H [("error", err)])), s1)
    | some ((itemDTO, status, none), s1) => some (ctx.JSON status (.raw (.item itemDTO)), s1)

/-- `truckHandler.CreateTruck`. -/
def truckHandler.CreateTruck {σ : Type} (p : truckHandler σ) (libs : HandlerLibs)
    (ctx : Context) (s : σ) : Option (Context × σ) :=
  match libs.BindTruck ctx.RequestBody with
  | (_, some err) => some (FailedResponse ctx StatusBadRequest err none, s)
  | (truck, none) =>
    match p.truckService.CreateTruck truck s with
    | none => none
    | some ((_, status, some err), s1) => some (FailedResponse ctx status err none, s1)
    | some ((truckDTO, _, none), s1) => some (SuccessResponse ctx (.truck truckDTO), s1)

/-- `orderHandler.CreateOrder`. -/
def orderHandler.CreateOrder {σ : Type} (p : orderHandler σ) (libs : HandlerLibs)
    (ctx : Context) (s : σ) : Option (Context × σ) :=
  match libs.BindOrder ctx.RequestBody with
  | (_, some err) => some (ctx.JSON StatusBadRequest (.raw (.H [("error", err)])), s)
  | (order, none) =>
    match p.orderService.CreateOrder order s with
    | none => none
    | some ((_, status, some err), s1) =>
      some (ctx.JSON status (.raw (.H [("error", err)])), s1)
    | some ((order, status, none), s1) => some (ctx.JSON status (.raw (.order order)), s1)

/-- How a handler of users, roles or trucks answers `call`, the result of its service
call. A panic of the service is a panic of the handler. An error with one of the
statuses 400, 401, 403, 404 and 500 is answered with that HTTP status and the envelope
of that code and the text of the error, without data. Success is answered with the HTTP
status 200 and the envelope of code 200 and message `Success` whose data is the payload.
In both cases the store is the one the service left. -/
def AnswersInEnvelope {σ R : Type} (ctx : Context) (payload : R → Data)
    (call : Option ((R × Int × Option Error) × σ)) (out : Option (Context × σ)) : Prop :=
  (call = none → out = none) ∧
  (∀ v status err s1, call = some ((v, status, some err), s1) →
    (status = 400 ∨ status = 401 ∨ status = 403 ∨ status = 404 ∨ status = 500) →
    out = some (ctx.JSON status (.envelope ⟨status, err, none⟩), s1)) ∧
  (∀ v status s1, call = some ((v, status, none), s1) →
    out = some (ctx.JSON 200 (.envelope ⟨200, "Success", some (payload v)⟩), s1))

/-- How a handler of items or orders answers `call`, the result of its service call. A
panic of the service is a panic of the handler. An error is answered with the status of
the service and the object with the one entry `error`, the text of the error. Success is
answered with the status of the service and the bare payload. In both cases the store is
the one the service left. -/
def AnswersBare {σ R : Type} (ctx : Context) (payload : R → Data)
    (call : Option ((R × Int × Option Error) × σ)) (out : Option (Context × σ)) : Prop :=
  (call = none → out = none) ∧
  (∀ v status err s1, call = some ((v, status, some err), s1) →
    out = some (ctx.JSON status (.raw (.H [("error", err)])), s1)) ∧
  (∀ v status s1, call = some ((v, status, none), s1) →
    out = some (ctx.JSON status (.raw (payload v)), s1))

/-- The pagination the list handlers of users, items and orders take from the query: for
`page` and for `limit`, the number `strconv.Atoi` reads, and 0 when it reports an
error. -/
def queryPagination (libs : HandlerLibs) (ctx : Context) : Pagination :=
  { Page := if (Atoi libs (ctx.Query "page")).2 = none then (Atoi libs (ctx.Query "page")).1
      else 0,
    Limit := if (Atoi libs (ctx.Query "limit")).2 = none then
      (Atoi libs (ctx.Query "limit")).1 else 0 }

/-! ## Configuration (`initializers/envVars.go`) -/

/-- The environment of the process: the value of each variable that is set. -/
abbrev Environ := String → Option String

/-- `os.Getenv` on an environment: an unset variable reads as the empty string. -/
def Environ.Getenv (e : Environ) : Env := fun name => (e name).getD ""

/-- `initializers.Vars`. -/
structure Vars where
  PGHost : String
  PGUser : String
  PGPassword : String
  PGDatabase : String
  PGPort : String
  SecretKey : String
  Port : String
  TablePrefix : String
  deriving DecidableEq

/-- `godotenv.Load(path)`, given what the file at the path holds (`none` when it cannot
be read or parsed, which is an error): each variable of the file that is not set yet is
set; variables that are set already keep their value. -/
def godotenvLoad (file : Option (List (String × String))) (e : Environ) : Option Environ :=
  file.map fun entries name =>
    match e name with
    | some v => some v
    | none => (entries.find? fun kv => kv.1 = name).map fun kv => kv.2

/-- `env.Parse(&vars)` of `caarlos0/env` at `Vars`: every field is tagged `required`, so a
variable that is not set is an error (`none`); a variable set to the empty string is
accepted. -/
def envParse (e : Environ) : Option Vars :=
  match e "POSTGRES_HOST", e "POSTGRES_USER", e "POSTGRES_PASSWORD", e "POSTGRES_DB",
    e "POSTGRES_PORT", e "SECRET_KEY", e "PORT", e "TABLE_PREFIX" with
  | some host, some user, some password, some db, some pgPort, some secret, some port,
    some tablePrefix =>
    some { PGHost := host, PGUser := user, PGPassword := password, PGDatabase := db,
           PGPort := pgPort, SecretKey := secret, Port := port, TablePrefix := tablePrefix }
  | _, _, _, _, _, _, _, _ => none

/-- `initializers.LoadEnvVariables(envFilePath)`: the variables, and the environment as
loading leaves it; `none` when the process is ended (`log.Fatalf`) because the file does
not load or a required variable is not set. -/
def LoadEnvVariables (file : Option (List (String × String))) (e : Environ) :
    Option (Vars × Environ) :=
  match godotenvLoad file e with
  | none => none
  | some loaded =>
    match envParse loaded with
    | none => none
    | some vars => some (vars, loaded)

/-- The file `TestLoadEnvVariables` writes and loads: the eight required variables. -/
def testEnvFile : List (String × String) :=
  [("POSTGRES_HOST", "localhost"), ("POSTGRES_USER", "postgres"),
   ("POSTGRES_PASSWORD", "postgres"), ("POSTGRES_DB", "test"), ("POSTGRES_PORT", "5432"),
   ("SECRET_KEY", "secret"), ("PORT", "8001"), ("TABLE_PREFIX", "test-go-warehouse.")]

/-- An environment in which nothing is set. -/
def emptyEnviron : Environ := fun _ => none

/-- An item service that answers every call with success and zero values. -/
def stubItemService : ItemService Unit where
  CreateItem _ s := some ((ItemDTO.zero, StatusOK, none), s)
  GetItem _ s := some ((ItemDTO.zero, StatusOK, none), s)
  GetAllItems _ s := some ((some [], StatusOK, none), s)
  UpdateItem _ _ s := some ((ItemDTO.zero, StatusOK, none), s)
  DeleteItem _ s := some ((ItemDTO.zero, StatusOK, none), s)

/-- The three shapes of a service result: a panic; a value with status 200 and no error;
or a value that satisfies `P` with one of the statuses 401, 404, 500 and an error. -/
def ResultShape {σ R : Type} (P : R → Prop) (out : Option ((R × Int × Option Error) × σ)) :
    Prop :=
  out = none ∨ (∃ v s1, out = some ((v, 200, none), s1)) ∨
    (∃ v c err s1, P v ∧ (c = 401 ∨ c = 404 ∨ c = 500) ∧ out = some ((v, c, some err), s1))
/-! # Theorems -/

/-! ## `CopyNonEmptyFields` -/

theorem isNaN_imp (b : Nat) (h : isNaN b = true) : b % 2 ^ 63 ≠ 0 := by
  simp only [isNaN, Bool.and_eq_true, beq_iff_eq, bne_iff_ne] at h
  norm_num at h ⊢
  omega

theorem floatEq_zero (b : Nat) : floatEq b 0 = isZeroFloat b := by
  unfold isZeroFloat
  by_cases hn : isNaN b = true
  · have h3 := isNaN_imp b hn
    simp only [floatEq, hn]
    norm_num at h3 ⊢
    exact h3
  · have h0 : isNaN 0 = false := by decide
    simp only [Bool.not_eq_true] at hn
    simp only [floatEq, hn, h0]
    by_cases hz : b % 2 ^ 63 = 0
    · simp only [hz]
      simp
    · norm_num at hz ⊢
      intro h4
      omega

mutual
theorem Value.eq_Zero : ∀ v : Value, Value.eq v v.Zero = v.IsZeroValue
  | .str s => by simp [Value.eq, Value.Zero, Value.IsZeroValue]
  | .int i => by simp [Value.eq, Value.Zero, Value.IsZeroValue]
  | .uint n => by simp [Value.eq, Value.Zero, Value.IsZeroValue]
  | .float b => by simp [Value.eq, Value.Zero, Value.IsZeroValue, floatEq_zero]
  | .bool b => by simp [Value.eq, Value.Zero, Value.IsZeroValue]
  | .ptr a => by simp [Value.eq, Value.Zero, Value.IsZeroValue]
  | .struct fs => by
      simp only [Value.eq, Value.Zero, Value.IsZeroValue]
      exact Value.eqList_ZeroList fs
theorem Value.eqList_ZeroList : ∀ vs : List Value,
    Value.eqList vs (Value.ZeroList vs) = Value.IsZeroList vs
  | [] => by simp [Value.eqList, Value.ZeroList, Value.IsZeroList]
  | v :: vs => by
      simp only [Value.eqList, Value.ZeroList, Value.IsZeroList]
      rw [Value.eq_Zero v, Value.eqList_ZeroList vs]
end

theorem copyField_list (p d ps s : List FieldValue) (a b : FieldValue)
    (hp : p.length = ps.length) (hab : FieldValue.sameType a b = true) :
    copyField (p ++ a :: d) (ps ++ b :: s) p.length
      = some (p ++ (if b.NonEmpty then b else a) :: d) := by
  have h1 : (p ++ a :: d)[p.length]? = some a := by
    rw [List.getElem?_append_right (le_refl _)]; simp
  have h2 : (ps ++ b :: s)[p.length]? = some b := by
    rw [hp, List.getElem?_append_right (le_refl _)]; simp
  have h3 : ∀ x : FieldValue, (p ++ a :: d).set p.length x = p ++ x :: d := by
    intro x
    rw [List.set_append_right _ _ (le_refl _)]; simp
  simp only [copyField, GoStruct.Field, h1, h2, GoStruct.Set]
  cases b with
  | val v =>
    simp only [FieldValue.NonEmpty, Value.eq_Zero, hab, h3]
    by_cases hv : v.IsZeroValue = true
    · simp [hv]
    · simp [hv]
  | slice e =>
    simp only [FieldValue.NonEmpty, hab, h3]
    by_cases hl : 0 < sliceLen e
    · simp [hl]
    · simp [hl]

theorem copyLoop_list : ∀ (d s p ps : List FieldValue), p.length = ps.length →
    SameStructType d s = true →
    copyLoop (ps ++ s) d.length p.length (p ++ d) = some (p ++ mergeFields d s)
  | [], [], p, ps, _, _ => by simp [copyLoop, mergeFields]
  | [], _ :: _, _, _, _, h => by simp [SameStructType] at h
  | _ :: _, [], _, _, _, h => by simp [SameStructType] at h
  | a :: d, b :: s, p, ps, hp, h => by
      simp only [SameStructType, Bool.and_eq_true] at h
      obtain ⟨hab, hds⟩ := h
      simp only [List.length_cons, copyLoop]
      rw [copyField_list p d ps s a b hp hab]
      simp only [Option.some_bind]
      have := copyLoop_list d s (p ++ [if b.NonEmpty then b else a]) (ps ++ [b])
        (by simp [hp]) hds
      simpa [mergeFields] using this

theorem SameStructType.length_eq : ∀ (d s : List FieldValue), SameStructType d s = true →
    d.length = s.length
  | [], [], _ => rfl
  | [], _ :: _, h => by simp [SameStructType] at h
  | _ :: _, [], h => by simp [SameStructType] at h
  | _ :: d, _ :: s, h => by
    simp only [SameStructType, Bool.and_eq_true] at h
    simp [SameStructType.length_eq d s h.2]

theorem CopyNonEmptyFields_list (dest src : List FieldValue)
    (h : SameStructType dest src = true) :
    CopyNonEmptyFields dest src = some (mergeFields dest src) := by
  have := copyLoop_list dest src [] [] rfl h
  simpa [CopyNonEmptyFields, GoStruct.NumField] using this

/-- C1. For every pair `dest`, `src` of the same struct type, `CopyNonEmptyFields` returns
(it does not panic) a struct with as many fields as `dest`, in which every top-level field
is the field of `src` when that one is non-empty (a non-zero value, or a slice of length
greater than 0) and the previous field of `dest` when it is the zero value or an empty or
nil slice. `src` is only an input of the function: nothing is written to it. -/
theorem CopyNonEmptyFields_spec (dest src : List FieldValue)
    (h : SameStructType dest src = true) :
    ∃ r : List FieldValue, CopyNonEmptyFields dest src = some r ∧
      r.length = dest.length ∧
      ∀ (i : Nat) (d s : FieldValue), dest[i]? = some d → src[i]? = some s →
        (s.NonEmpty = true → r[i]? = some s) ∧ (s.NonEmpty = false → r[i]? = some d) := by
  refine ⟨mergeFields dest src, CopyNonEmptyFields_list dest src h, ?_, ?_⟩
  · simp [mergeFields, SameStructType.length_eq dest src h]
  · intro i d s hd hs
    have hm : (mergeFields dest src)[i]? = some (if s.NonEmpty then s else d) := by
      simp [mergeFields, List.getElem?_zipWith, hd, hs]
    constructor
    · intro hn; simp [hm, hn]
    · intro hn; simp [hm, hn]

/-- C1 on the structs of `TestCopyNonEmptyFields`, with an integer field added:
`dest = {"", "kept", [], 5}` and `src = {"a", "", ["c", "d"], 0}`. -/
theorem CopyNonEmptyFields_spec_witness :
    ∃ r : List FieldValue,
      CopyNonEmptyFields
          [FieldValue.val (.str ""), .val (.str "kept"), .slice (some []), .val (.int 5)]
          [FieldValue.val (.str "a"), .val (.str ""),
            .slice (some [.str "c", .str "d"]), .val (.int 0)] = some r ∧
      r.length =
        [FieldValue.val (.str ""), .val (.str "kept"), .slice (some []), .val (.int 5)].length ∧
      ∀ (i : Nat) (d s : FieldValue),
        [FieldValue.val (.str ""), .val (.str "kept"), .slice (some []), .val (.int 5)][i]?
          = some d →
        [FieldValue.val (.str "a"), .val (.str ""),
            .slice (some [.str "c", .str "d"]), .val (.int 0)][i]? = some s →
        (s.NonEmpty = true → r[i]? = some s) ∧ (s.NonEmpty = false → r[i]? = some d) :=
  CopyNonEmptyFields_spec _ _ (by decide)

@[simp] theorem Time_ofValue_toValue (t : Time) : Time.ofValue t.toValue = some t := rfl

@[simp] theorem DeletedAt_ofValue_toValue (d : DeletedAt) :
    DeletedAt.ofValue d.toValue = some d := rfl

@[simp] theorem Model_ofValue_toValue (m : Model) : Model.ofValue m.toValue = some m := rfl

@[simp] theorem User_ofValue_toValue (u : User) : User.ofValue u.toValue = some u := rfl

@[simp] theorem OrderItem_ofValue_toValue (o : OrderItem) :
    OrderItem.ofValue o.toValue = some o := rfl

@[simp] theorem Value.isZeroValue_str (s : String) :
    (Value.str s).IsZeroValue = decide (s = "") := rfl

@[simp] theorem Value.isZeroValue_int (i : Int) :
    (Value.int i).IsZeroValue = decide (i = 0) := rfl

@[simp] theorem Value.isZeroValue_uint (n : Nat) :
    (Value.uint n).IsZeroValue = decide (n = 0) := rfl

@[simp] theorem Value.isZeroValue_float (b : Nat) :
    (Value.float b).IsZeroValue = isZeroFloat b := rfl

theorem Time_isZeroValue (t : Time) :
    t.toValue.IsZeroValue = decide (t = Time.zero) := by
  cases t with
  | mk w e l =>
    simp only [Time.toValue, Value.IsZeroValue, Value.IsZeroList, Time.zero, Time.mk.injEq]
    by_cases h1 : w = 0 <;> by_cases h2 : e = 0 <;> by_cases h3 : l = 0 <;> simp [h1, h2, h3]

theorem Model_isZeroValue (m : Model) :
    m.toValue.IsZeroValue = decide (m = Model.zero) := by
  obtain ⟨id, c, u, ⟨dt, dv⟩⟩ := m
  have hc := Time_isZeroValue c
  have hu := Time_isZeroValue u
  have hd := Time_isZeroValue dt
  simp only [Model.toValue, DeletedAt.toValue, Value.IsZeroValue, Value.IsZeroList,
     Model.zero, DeletedAt.zero, Model.mk.injEq, DeletedAt.mk.injEq] at hc hu hd ⊢
  rw [hc, hu, hd]
  by_cases h1 : id = 0 <;> by_cases h2 : c = Time.zero <;> by_cases h3 : u = Time.zero <;>
    by_cases h4 : dt = Time.zero <;> cases dv <;> simp [h1, h2, h3, h4]

theorem elemsOfValues_map {T : Type} (toValue : T → Value) (ofValue : Value → Option T)
    (h : ∀ t, ofValue (toValue t) = some t) :
    ∀ l : List T, elemsOfValues ofValue (l.map toValue) = some l
  | [] => rfl
  | a :: l => by
    simp [elemsOfValues, h, elemsOfValues_map toValue ofValue h l]

theorem sliceOfValues_map {T : Type} (toValue : T → Value) (ofValue : Value → Option T)
    (h : ∀ t, ofValue (toValue t) = some t) (xs : Option (List T)) :
    sliceOfValues ofValue (xs.map fun l => l.map toValue) = some xs := by
  cases xs with
  | none => rfl
  | some l => simp [sliceOfValues, elemsOfValues_map toValue ofValue h l]

theorem bind_ite_some {α β : Type} (c : Prop) [Decidable c] (a b : α) (f : α → Option β) :
    (if c then some a else some b).bind f = f (if c then a else b) := by
  split <;> rfl

theorem CopyNonEmptyFields_User (dest src : User) :
    CopyNonEmptyFields dest src = some
      { Model := if src.Model = Model.zero then dest.Model else src.Model
        FirstName := if src.FirstName = "" then dest.FirstName else src.FirstName
        LastName := if src.LastName = "" then dest.LastName else src.LastName
        Username := if src.Username = "" then dest.Username else src.Username
        Password := if src.Password = "" then dest.Password else src.Password
        RoleID := if src.RoleID = 0 then dest.RoleID else src.RoleID } := by
  simp only [CopyNonEmptyFields, copyLoop, copyField, GoStruct.NumField, GoStruct.Field,
    GoStruct.Set, Value.eq_Zero, Model_isZeroValue, Value.isZeroValue_str,
    Value.isZeroValue_int, Model_ofValue_toValue, Option.map_some', bind_ite_some,
    Option.bind_some, Option.some_bind]
  by_cases h0 : src.Model = Model.zero <;> by_cases h1 : src.FirstName = "" <;>
    by_cases h2 : src.LastName = "" <;> by_cases h3 : src.Username = "" <;>
    by_cases h4 : src.Password = "" <;> by_cases h5 : src.RoleID = 0 <;>
    simp [h0, h1, h2, h3, h4, h5]


theorem CopyNonEmptyFields_Role (dest src : Role) :
    CopyNonEmptyFields dest src = some
      { ID := if src.ID = 0 then dest.ID else src.ID
        Name := if src.Name = "" then dest.Name else src.Name
        Users := if 0 < (src.Users.getD []).length then src.Users else dest.Users } := by
  have hs := sliceOfValues_map User.toValue User.ofValue User_ofValue_toValue src.Users
  have hl : sliceLen (src.Users.map fun us => us.map User.toValue)
      = (src.Users.getD []).length := by
    cases src.Users <;> simp [sliceLen]
  simp only [CopyNonEmptyFields, copyLoop, copyField, GoStruct.NumField, GoStruct.Field,
    GoStruct.Set, Value.eq_Zero, Value.isZeroValue_str, Value.isZeroValue_uint, hs, hl,
    Option.map_some', bind_ite_some, Option.bind_some, Option.some_bind]
  by_cases h0 : src.ID = 0 <;> by_cases h1 : src.Name = "" <;>
    by_cases h2 : 0 < (src.Users.getD []).length <;> simp [h0, h1, h2]

theorem CopyNonEmptyFields_Truck (dest src : Truck) :
    CopyNonEmptyFields dest src = some
      { Model := if src.Model = Model.zero then dest.Model else src.Model
        ChassisNumber := if src.ChassisNumber = "" then dest.ChassisNumber
          else src.ChassisNumber
        LicensePlate := if src.LicensePlate = "" then dest.LicensePlate
          else src.LicensePlate } := by
  simp only [CopyNonEmptyFields, copyLoop, copyField, GoStruct.NumField, GoStruct.Field,
    GoStruct.Set, Value.eq_Zero, Model_isZeroValue, Value.isZeroValue_str,
    Model_ofValue_toValue, Option.map_some', bind_ite_some,
    Option.bind_some, Option.some_bind]
  by_cases h0 : src.Model = Model.zero <;> by_cases h1 : src.ChassisNumber = "" <;>
    by_cases h2 : src.LicensePlate = "" <;> simp [h0, h1, h2]

theorem CopyNonEmptyFields_Item (dest src : Item) :
    CopyNonEmptyFields dest src = some
      { Model := if src.Model = Model.zero then dest.Model else src.Model
        Name := if src.Name = "" then dest.Name else src.Name
        Description := if src.Description = "" then dest.Description else src.Description
        Code := if src.Code = "" then dest.Code else src.Code
        TotalQuantity := if src.TotalQuantity = 0 then dest.TotalQuantity
          else src.TotalQuantity
        AvailableQuantity := if src.AvailableQuantity = 0 then dest.AvailableQuantity
          else src.AvailableQuantity
        Price := if isZeroFloat src.Price then dest.Price else src.Price
        Category := if src.Category = "" then dest.Category else src.Category } := by
  simp only [CopyNonEmptyFields, copyLoop, copyField, GoStruct.NumField, GoStruct.Field,
    GoStruct.Set, Value.eq_Zero, Model_isZeroValue, Value.isZeroValue_str,
    Value.isZeroValue_int, Value.isZeroValue_float, Model_ofValue_toValue, Option.map_some',
    bind_ite_some, Option.bind_some, Option.some_bind]
  by_cases h0 : src.Model = Model.zero <;> by_cases h1 : src.Name = "" <;>
    by_cases h2 : src.Description = "" <;> by_cases h3 : src.Code = "" <;>
    by_cases h4 : src.TotalQuantity = 0 <;> by_cases h5 : src.AvailableQuantity = 0 <;>
    by_cases h6 : isZeroFloat src.Price = true <;> by_cases h7 : src.Category = "" <;>
    simp [h0, h1, h2, h3, h4, h5, h6, h7]

theorem CopyNonEmptyFields_Order (dest src : Order) :
    CopyNonEmptyFields dest src = some
      { Model := if src.Model = Model.zero then dest.Model else src.Model
        Code := if src.Code = "" then dest.Code else src.Code
        SubmittedDate := if src.SubmittedDate = Time.zero then dest.SubmittedDate
          else src.SubmittedDate
        DeadlineDate := if src.DeadlineDate = Time.zero then dest.DeadlineDate
          else src.DeadlineDate
        UserID := if src.UserID = 0 then dest.UserID else src.UserID
        OrderItems := if 0 < (src.OrderItems.getD []).length then src.OrderItems
          else dest.OrderItems } := by
  have hs := sliceOfValues_map OrderItem.toValue OrderItem.ofValue
    OrderItem_ofValue_toValue src.OrderItems
  have hl : sliceLen (src.OrderItems.map fun us => us.map OrderItem.toValue)
      = (src.OrderItems.getD []).length := by
    cases src.OrderItems <;> simp [sliceLen]
  simp only [CopyNonEmptyFields, copyLoop, copyField, GoStruct.NumField, GoStruct.Field,
    GoStruct.Set, Value.eq_Zero, Model_isZeroValue, Time_isZeroValue,
    Value.isZeroValue_str, Value.isZeroValue_int, Model_ofValue_toValue,
    Time_ofValue_toValue, hs, hl, Option.map_some', bind_ite_some, Option.bind_some,
    Option.some_bind]
  by_cases h0 : src.Model = Model.zero <;> by_cases h1 : src.Code = "" <;>
    by_cases h2 : src.SubmittedDate = Time.zero <;>
    by_cases h3 : src.DeadlineDate = Time.zero <;>
    by_cases h4 : src.UserID = 0 <;>
    by_cases h5 : 0 < (src.OrderItems.getD []).length <;>
    simp [h0, h1, h2, h3, h4, h5]

/-! ## The update path of the services -/

theorem CopyNonEmptyFields_User_zero (x : User) : CopyNonEmptyFields x User.zero = some x := by
  rw [CopyNonEmptyFields_User]; simp [User.zero]

theorem CopyNonEmptyFields_Item_zero (x : Item) : CopyNonEmptyFields x Item.zero = some x := by
  rw [CopyNonEmptyFields_Item]; simp [Item.zero, isZeroFloat]

theorem CopyNonEmptyFields_Truck_zero (x : Truck) :
    CopyNonEmptyFields x Truck.zero = some x := by
  rw [CopyNonEmptyFields_Truck]; simp [Truck.zero]

theorem CopyNonEmptyFields_Order_zero (x : Order) :
    CopyNonEmptyFields x Order.zero = some x := by
  rw [CopyNonEmptyFields_Order]; simp [Order.zero]

theorem CopyNonEmptyFields_Role_zero (x : Role) : CopyNonEmptyFields x Role.zero = some x := by
  rw [CopyNonEmptyFields_Role]; simp [Role.zero]

/-- `UpdateUser` with the zero-valued patch, against a repository whose `Update` returns
the record it is given, returns 200 and the projection of the loaded record. -/
theorem UpdateUser_zero_patch {σ : Type} (u : userService σ) (id : Int) (stored : User)
    (s s1 : σ) (hfind : u.userRepo.FindByID id s = ((stored, none), s1))
    (hupd : ∀ (r : User) (t : σ), (u.userRepo.Update r t).1 = (r, none)) :
    ∃ s2, u.UpdateUser id User.zero s = some ((MapUserDTO stored, StatusOK, none), s2) := by
  have h := hupd stored s1
  rcases hres : u.userRepo.Update stored s1 with ⟨⟨r, e⟩, s2⟩
  rw [hres] at h
  simp only [Prod.mk.injEq] at h
  obtain ⟨rfl, rfl⟩ := h
  exact ⟨s2, by simp [userService.UpdateUser, hfind, CopyNonEmptyFields_User_zero, hres]⟩

/-- `UpdateItem` with the zero-valued patch is a no-op in the same sense. -/
theorem UpdateItem_zero_patch {σ : Type} (p : itemService σ) (id : Int) (stored : Item)
    (s s1 : σ) (hfind : p.ItemRepo.FindByID id s = ((stored, none), s1))
    (hupd : ∀ (r : Item) (t : σ), (p.ItemRepo.Update r t).1 = (r, none)) :
    ∃ s2, p.UpdateItem id Item.zero s = some ((MapItemDTO stored, StatusOK, none), s2) := by
  have h := hupd stored s1
  rcases hres : p.ItemRepo.Update stored s1 with ⟨⟨r, e⟩, s2⟩
  rw [hres] at h
  simp only [Prod.mk.injEq] at h
  obtain ⟨rfl, rfl⟩ := h
  exact ⟨s2, by simp [itemService.UpdateItem, hfind, CopyNonEmptyFields_Item_zero, hres]⟩

/-- `UpdateTruck` with the zero-valued patch is a no-op in the same sense. -/
theorem UpdateTruck_zero_patch {σ : Type} (p : truckService σ) (id : Int) (stored : Truck)
    (s s1 : σ) (hfind : p.TruckRepo.FindByID id s = ((stored, none), s1))
    (hupd : ∀ (r : Truck) (t : σ), (p.TruckRepo.Update r t).1 = (r, none)) :
    ∃ s2, p.UpdateTruck id Truck.zero s = some ((MapTruckDTO stored, StatusOK, none), s2) := by
  have h := hupd stored s1
  rcases hres : p.TruckRepo.Update stored s1 with ⟨⟨r, e⟩, s2⟩
  rw [hres] at h
  simp only [Prod.mk.injEq] at h
  obtain ⟨rfl, rfl⟩ := h
  exact ⟨s2, by simp [truckService.UpdateTruck, hfind, CopyNonEmptyFields_Truck_zero, hres]⟩

/-- `UpdateOrder` with the zero-valued patch is a no-op in the same sense; an order is
its own projection. -/
theorem UpdateOrder_zero_patch {σ : Type} (p : orderService σ) (id : Int) (stored : Order)
    (s s1 : σ) (hfind : p.OrderRepo.FindByID id s = ((stored, none), s1))
    (hupd : ∀ (r : Order) (t : σ), (p.OrderRepo.Update r t).1 = (r, none)) :
    ∃ s2, p.UpdateOrder id Order.zero s = some ((stored, StatusOK, none), s2) := by
  have h := hupd stored s1
  rcases hres : p.OrderRepo.Update stored s1 with ⟨⟨r, e⟩, s2⟩
  rw [hres] at h
  simp only [Prod.mk.injEq] at h
  obtain ⟨rfl, rfl⟩ := h
  exact ⟨s2, by simp [orderService.UpdateOrder, hfind, CopyNonEmptyFields_Order_zero, hres]⟩

/-- `UpdateRole` hands the request body, not the merged record, to the repository:
whatever was loaded, the result is decided by `Update role`. -/
theorem UpdateRole_passes_body {σ : Type} (r : roleService σ) (id : Int) (stored role : Role)
    (s s1 : σ) (hfind : r.roleRepo.FindByID id s = ((stored, none), s1)) :
    r.UpdateRole id role s =
      match r.roleRepo.Update role s1 with
      | ((_, some err), s2) => some ((RoleDTO.zero, StatusInternalServerError, some err), s2)
      | ((role, none), s2) => some ((MapRoleDTO role, StatusOK, none), s2) := by
  simp [roleService.UpdateRole, hfind, CopyNonEmptyFields_Role]

/-- The record `UpdateUser` hands to the repository's `Update` is the merge of the patch
into the loaded record, and nothing else is handed to it. -/
theorem UpdateUser_journal {σ : Type} (ur : UserRepo σ) (rr : RoleRepo (σ × List (Call User)))
    (id : Int) (stored patch merged : User) (s s1 : σ)
    (hfind : ur.FindByID id s = ((stored, none), s1))
    (hmerge : CopyNonEmptyFields stored patch = some merged) :
    ∃ res st, userService.UpdateUser ⟨ur.traced, rr⟩ id patch (s, []) = some (res, st) ∧
      updatesOf st.2 = [merged] := by
  rcases hres : ur.Update merged s1 with ⟨⟨r, e⟩, s2⟩
  cases e with
  | none =>
    refine ⟨(MapUserDTO r, StatusOK, none), (s2, [.FindByID id, .Update merged]), ?_, ?_⟩
    · simp [userService.UpdateUser, UserRepo.traced, Repo.traced, hfind, hmerge, hres]
    · simp [updatesOf]
  | some err =>
    refine ⟨(UserDTO.zero, StatusInternalServerError, some err),
      (s2, [.FindByID id, .Update merged]), ?_, ?_⟩
    · simp [userService.UpdateUser, UserRepo.traced, Repo.traced, hfind, hmerge, hres]
    · simp [updatesOf]


/-! ## What the update and create paths hand to the repository -/

/-- C2 (the code departs from it). The identifier of the record handed to the repository's
`Update` is not protected from the patch. With the stored item 1: a patch whose `ID` is 7
hands over a record with identifier 7; a patch that only sets `CreatedAt` and `Name`
hands over a record with identifier 0; and `UpdateRole`, for the stored role 1 and a patch
that only sets `Name`, hands over a record with identifier 0. -/
theorem Update_identifier_overwritten :
    sampleItem.Model.ID = 1 ∧ sampleRole.ID = 1 ∧
    ((itemService.UpdateItem ⟨(stubItemRepo sampleItem).traced⟩ 1
        { Item.zero with Model := { Model.zero with ID := 7 } } ((), [])).map
      fun r => (updatesOf r.2.2).map fun x => x.Model.ID) = some [7] ∧
    ((itemService.UpdateItem ⟨(stubItemRepo sampleItem).traced⟩ 1
        { Item.zero with
          Model := { Model.zero with CreatedAt := ⟨0, 63839664000, 0⟩ }, Name := "x" }
        ((), [])).map
      fun r => (updatesOf r.2.2).map fun x => x.Model.ID) = some [0] ∧
    ((roleService.UpdateRole ⟨(stubRoleRepo sampleRole).traced⟩ 1
        { Role.zero with Name := "Boss" } ((), [])).map
      fun r => (updatesOf r.2.2).map fun x => x.ID) = some [0] := by
  decide

/-- C3 (the code departs from it). `UpdateRole` with the zero-valued patch, against a
repository whose `Update` returns the record it is given, answers 200 with the zero
`RoleDTO`, which is not the projection of the stored role. -/
theorem UpdateRole_zero_patch_not_noop :
    roleService.UpdateRole ⟨stubRoleRepo sampleRole⟩ 1 Role.zero ()
        = some ((RoleDTO.zero, StatusOK, none), ()) ∧
      MapRoleDTO sampleRole = ⟨1, "User"⟩ ∧ MapRoleDTO sampleRole ≠ RoleDTO.zero := by
  decide

/-- C4 (the code departs from it). For every stored user and every patch with a non-empty
`Password`, the one record `UpdateUser` hands to the repository's `Update` carries the
patch's password as it came, the plaintext. -/
theorem UpdateUser_hands_plaintext {σ : Type} (ur : UserRepo σ)
    (rr : RoleRepo (σ × List (Call User))) (id : Int) (stored patch : User) (s s1 : σ)
    (hfind : ur.FindByID id s = ((stored, none), s1)) (hpw : patch.Password ≠ "") :
    ∃ res st rec, userService.UpdateUser ⟨ur.traced, rr⟩ id patch (s, []) = some (res, st) ∧
      updatesOf st.2 = [rec] ∧ rec.Password = patch.Password := by
  obtain ⟨res, st, hrun, hlog⟩ :=
    UpdateUser_journal ur rr id stored patch _ s s1 hfind (CopyNonEmptyFields_User stored patch)
  exact ⟨res, st, _, hrun, hlog, by simp [hpw]⟩

/-- C4 at a stored user and the patch `{"password": "NewPass1!"}`: the record handed to
`Update` has the password `NewPass1!`, which does not verify against itself. -/
theorem UpdateUser_hands_plaintext_witness :
    ComparePassword toyBcrypt "NewPass1!" "NewPass1!" = false ∧
    ∃ res st rec,
      userService.UpdateUser
          ⟨(stubUserRepo sampleUser).traced, (stubRoleRepo sysAdminRole).beside⟩ 1
          { User.zero with Password := "NewPass1!" } ((), []) = some (res, st) ∧
        updatesOf st.2 = [rec] ∧ rec.Password = "NewPass1!" :=
  ⟨by decide,
    UpdateUser_hands_plaintext (stubUserRepo sampleUser) _ 1 sampleUser
      { User.zero with Password := "NewPass1!" } () () rfl (by decide)⟩

/-- C5. Let bcrypt be such that a hash it produces verifies against its plaintext and
differs from it, and let it hash the payload's password `p` to `h`. Then `CreateUser`
hands to the repository's `Save` exactly one record, the payload with `Password` replaced
by `h`: its password differs from `p`, `ComparePassword` accepts it for `p`, and every other
field is the payload's. When `Save` succeeds with `saved` the result is 200 with the
projection of `saved` (a `UserDTO`, which has no password field); when `Save` fails the
result is 500 with the zero DTO and the error. -/
theorem CreateUser_hashes_then_saves {σ : Type} (ur : UserRepo σ)
    (rr : RoleRepo (σ × List (Call User))) (bc : BcryptLib) (rand : String) (payload : User)
    (s : σ) (h : String)
    (hbc : ∀ (rnd p hp : String), bc.GenerateFromPassword rnd p DefaultCost = (hp, none) →
      bc.CompareHashAndPassword hp p = none ∧ hp ≠ p)
    (hgen : bc.GenerateFromPassword rand payload.Password DefaultCost = (h, none)) :
    ∃ res st rec,
      userService.CreateUser ⟨ur.traced, rr⟩ bc rand payload (s, []) = some (res, st) ∧
      savesOf st.2 = [rec] ∧
      rec = { payload with Password := rec.Password } ∧
      rec.Password = h ∧ rec.Password ≠ payload.Password ∧
      ComparePassword bc rec.Password payload.Password = true ∧
      (∀ saved s1, ur.Save rec s = ((saved, none), s1) →
        res = (MapUserDTO saved, StatusOK, none) ∧ st.1 = s1) ∧
      (∀ saved err s1, ur.Save rec s = ((saved, some err), s1) →
        res = (UserDTO.zero, StatusInternalServerError, some err) ∧ st.1 = s1) := by
  obtain ⟨hcmp, hne⟩ := hbc rand payload.Password h hgen
  rcases hres : ur.Save { payload with Password := h } s with ⟨⟨r, e⟩, s2⟩
  cases e with
  | none =>
    refine ⟨(MapUserDTO r, StatusOK, none), (s2, [.Save { payload with Password := h }]),
      { payload with Password := h }, ?_, ?_, rfl, rfl, hne, ?_, ?_, ?_⟩
    · simp [userService.CreateUser, GetHashPassword, hgen, UserRepo.traced, Repo.traced,
        hres, MapUserDTO]
    · simp [savesOf]
    · simp [ComparePassword, hcmp]
    · intro saved s1 hs
      rw [hres] at hs
      simp only [Prod.mk.injEq] at hs
      obtain ⟨⟨rfl, _⟩, rfl⟩ := hs
      exact ⟨rfl, rfl⟩
    · intro saved err s1 hs
      rw [hres] at hs
      simp at hs
  | some err =>
    refine ⟨(UserDTO.zero, StatusInternalServerError, some err),
      (s2, [.Save { payload with Password := h }]),
      { payload with Password := h }, ?_, ?_, rfl, rfl, hne, ?_, ?_, ?_⟩
    · simp [userService.CreateUser, GetHashPassword, hgen, UserRepo.traced, Repo.traced,
        hres]
    · simp [savesOf]
    · simp [ComparePassword, hcmp]
    · intro saved s1 hs
      rw [hres] at hs
      simp at hs
    · intro saved err' s1 hs
      rw [hres] at hs
      simp only [Prod.mk.injEq, Option.some.injEq] at hs
      obtain ⟨⟨_, rfl⟩, rfl⟩ := hs
      exact ⟨rfl, rfl⟩

theorem toyBcrypt_contract (rnd p hp : String)
    (h : toyBcrypt.GenerateFromPassword rnd p DefaultCost = (hp, none)) :
    toyBcrypt.CompareHashAndPassword hp p = none ∧ hp ≠ p := by
  simp only [toyBcrypt, Prod.mk.injEq, and_true] at h
  subst h
  refine ⟨by simp [toyBcrypt], ?_⟩
  intro heq
  have hlen := congrArg String.length heq
  simp only [String.length_append] at hlen
  have h4 : "$2a$".length = 4 := by decide
  omega

/-- C5 at the payload of `TestCreateUser` with the password `Test1234!`. -/
theorem CreateUser_hashes_then_saves_witness :
    ∃ res st rec,
      userService.CreateUser
          ⟨(stubUserRepo sampleUser).traced, (stubRoleRepo sysAdminRole).beside⟩ toyBcrypt ""
          ⟨Model.zero, "User", "Test", "testUser", "Test1234!", 1⟩ ((), []) = some (res, st) ∧
      savesOf st.2 = [rec] ∧
      rec = { (⟨Model.zero, "User", "Test", "testUser", "Test1234!", 1⟩ : User) with
        Password := rec.Password } ∧
      rec.Password = "$2a$Test1234!" ∧ rec.Password ≠ "Test1234!" ∧
      ComparePassword toyBcrypt rec.Password "Test1234!" = true ∧
      (∀ saved s1, (stubUserRepo sampleUser).Save rec () = ((saved, none), s1) →
        res = (MapUserDTO saved, StatusOK, none) ∧ st.1 = s1) ∧
      (∀ saved err s1, (stubUserRepo sampleUser).Save rec () = ((saved, some err), s1) →
        res = (UserDTO.zero, StatusInternalServerError, some err) ∧ st.1 = s1) :=
  CreateUser_hashes_then_saves (stubUserRepo sampleUser) _ toyBcrypt ""
    ⟨Model.zero, "User", "Test", "testUser", "Test1234!", 1⟩ () "$2a$Test1234!"
    toyBcrypt_contract rfl


/-! ## The authorization middleware -/

theorem contains_iff (roles : List String) (role : String) :
    contains roles role = true ↔ role ∈ roles := by
  induction roles with
  | nil => simp [contains]
  | cons r rs ih =>
    by_cases h : r = role
    · simp [contains, h]
    · have h2 : ¬ role = r := fun e => h e.symm
      simp [contains, h, h2, ih]

theorem splitChars_ne_nil (sep : Char) (s : List Char) : splitChars sep s ≠ [] := by
  cases s with
  | nil => simp [splitChars]
  | cons c cs =>
    by_cases h : c = sep
    · simp [splitChars, h]
    · cases hs : splitChars sep cs <;> simp [splitChars, h, hs]

theorem splitChars_length (sep : Char) (s : List Char) :
    (splitChars sep s).length = s.count sep + 1 := by
  induction s with
  | nil => simp [splitChars]
  | cons c cs ih =>
    by_cases h : c = sep
    · simp [splitChars, h, ih]
    · have hne := splitChars_ne_nil sep cs
      cases hs : splitChars sep cs with
      | nil => exact absurd hs hne
      | cons p ps =>
        rw [hs] at ih
        simp only [List.length_cons] at ih
        simp only [splitChars, h, if_false, hs, List.length_cons]
        rw [List.count_cons_of_ne (fun e => h e.symm)]
        omega

theorem splitChars_two (sep : Char) :
    ∀ (s a b : List Char), splitChars sep s = [a, b] → s = a ++ sep :: b
  | [], a, b, h => by simp [splitChars] at h
  | c :: cs, a, b, h => by
    by_cases hc : c = sep
    · simp only [splitChars, hc, if_true, List.cons.injEq] at h
      obtain ⟨rfl, h2⟩ := h
      have hlen := splitChars_length sep cs
      rw [h2] at hlen
      have hcount : cs.count sep = 0 := by simpa using hlen.symm
      have hnot : sep ∉ cs := List.count_eq_zero.mp hcount
      have hb : cs = b := by
        clear hlen hcount
        induction cs generalizing b with
        | nil => simpa [splitChars] using h2
        | cons d ds ih =>
          have hd : ¬ d = sep := fun e => hnot (by simp [e])
          have hne := splitChars_ne_nil sep ds
          cases hs : splitChars sep ds with
          | nil => exact absurd hs hne
          | cons p ps =>
            simp only [splitChars, hd, if_false, hs, List.cons.injEq] at h2
            obtain ⟨rfl, rfl⟩ := h2
            have := ih p hs (fun hm => hnot (List.mem_cons_of_mem _ hm))
            rw [this]
      simp [hc, hb]
    · have hne := splitChars_ne_nil sep cs
      cases hs : splitChars sep cs with
      | nil => exact absurd hs hne
      | cons p ps =>
        simp only [splitChars, hc, if_false, hs, List.cons.injEq] at h
        obtain ⟨rfl, rfl⟩ := h
        have := splitChars_two sep cs p b hs
        simp [this]

theorem Split_length (s : String) (sep : Char) :
    (Split s sep).length = s.toList.count sep + 1 := by
  simp [Split, splitChars_length]

theorem Split_two (s a b : String) (sep : Char) (h : Split s sep = [a, b]) :
    s = a ++ String.singleton sep ++ b := by
  simp only [Split] at h
  rcases hs : splitChars sep s.toList with _ | ⟨p, _ | ⟨q, _ | ⟨r, rest⟩⟩⟩
  · rw [hs] at h; simp at h
  · rw [hs] at h; simp at h
  · rw [hs] at h
    simp only [List.map_cons, List.map_nil, List.cons.injEq, and_true] at h
    obtain ⟨rfl, rfl⟩ := h
    have := splitChars_two sep s.toList p q hs
    apply String.ext
    have hd : s.data = p ++ sep :: q := this
    simp [hd, String.singleton]
  · rw [hs] at h; simp at h

theorem FailedResponse_401 (c : Context) (message : String) (data : Option Data) :
    (FailedResponse c StatusUnauthorized message data).Abort =
      { c with Written := c.Written ++ [(401, .envelope ⟨401, message, data⟩)], Aborted := true } := by
  simp [FailedResponse, StatusUnauthorized, StatusBadRequest, StatusNotFound, Context.JSON,
    Context.Abort]

theorem FailedResponse_403 (c : Context) (message : String) (data : Option Data) :
    (FailedResponse c StatusForbidden message data).Abort =
      { c with Written := c.Written ++ [(403, .envelope ⟨403, message, data⟩)], Aborted := true } := by
  simp [FailedResponse, StatusForbidden, StatusUnauthorized, StatusBadRequest, StatusNotFound,
    Context.JSON, Context.Abort]

/-- What `authorizeToken` does with a valid token whose `role` claim is the string `r`. -/
theorem authorizeToken_valid (roles : List String) (c : Context) (tok : Token)
    (claims : MapClaims) (r : String) (hvalid : tok.Valid = true)
    (hclaims : tok.Claims = .mapClaims claims) (hrole : claims.get "role" = some (.str r)) :
    authorizeToken roles c (tok, none) =
      if roles = [] ∨ r ∈ roles then c.Next
      else { c with Written := c.Written ++ [(403, .envelope ⟨403, "forbidden", none⟩)],
                    Aborted := true } := by
  simp only [authorizeToken, hclaims, hvalid, hrole, FailedResponse_403]
  by_cases hin : r ∈ roles
  · have hc := (contains_iff roles r).mpr hin
    simp [hin, hc]
  · have hc : contains roles r = false := by
      cases h : contains roles r
      · rfl
      · exact absurd ((contains_iff roles r).mp h) hin
    cases roles with
    | nil => simp
    | cons a rs => simp [hin, hc]

/-- C6. For a request whose header splits into a scheme and a token that validates, is
marked valid and carries the string `r` as its `role` claim: `AuthMiddleware` calls `Next`
(and writes nothing, aborts nothing) if and only if `roles` is empty or `r` is an element
of `roles`; otherwise it writes the 403 envelope with message `forbidden`, aborts, and
does not call `Next`. In particular `Admin` is refused by the middleware built for
`GetRoleName(SysAdmin)` and `SysAdmin` by the one built for `GetRoleName(User)`. -/
theorem AuthMiddleware_role_gate (lib : JWTLib) (env : Env) (now : Instant)
    (roles : List String) (c : Context) (scheme bearer : String) (tok : Token)
    (claims : MapClaims) (r : String)
    (hhdr : c.GetHeader "Authorization" ≠ "")
    (hsplit : Split (c.GetHeader "Authorization") ' ' = [scheme, bearer])
    (hval : ValidateToken lib env now bearer = (tok, none))
    (hvalid : tok.Valid = true) (hclaims : tok.Claims = .mapClaims claims)
    (hrole : claims.get "role" = some (.str r)) :
    (AuthMiddleware lib env now roles c = c.Next ↔ (roles = [] ∨ r ∈ roles)) ∧
    (¬ (roles = [] ∨ r ∈ roles) →
      AuthMiddleware lib env now roles c =
        { c with Written := c.Written ++ [(403, .envelope ⟨403, "forbidden", none⟩)],
                 Aborted := true }) ∧
    (r = "Admin" → roles = [GetRoleName RoleSysAdmin] →
      AuthMiddleware lib env now roles c =
        { c with Written := c.Written ++ [(403, .envelope ⟨403, "forbidden", none⟩)],
                 Aborted := true }) ∧
    (r = "SysAdmin" → roles = [GetRoleName RoleUser] →
      AuthMiddleware lib env now roles c =
        { c with Written := c.Written ++ [(403, .envelope ⟨403, "forbidden", none⟩)],
                 Aborted := true }) := by
  have hrun : AuthMiddleware lib env now roles c =
      if roles = [] ∨ r ∈ roles then c.Next
      else { c with Written := c.Written ++ [(403, .envelope ⟨403, "forbidden", none⟩)],
                    Aborted := true } := by
    simp only [AuthMiddleware, hhdr, if_false, hsplit, hval]
    exact authorizeToken_valid roles c tok claims r hvalid hclaims hrole
  refine ⟨?_, ?_, ?_, ?_⟩
  · constructor
    · intro h
      by_contra hn
      rw [hrun, if_neg hn] at h
      have hw := congrArg Context.Written h
      have hl := congrArg List.length hw
      simp [Context.Next] at hl
    · intro h
      rw [hrun, if_pos h]
  · intro hn
    rw [hrun, if_neg hn]
  · intro hr hroles
    subst hr hroles
    rw [hrun, if_neg (by decide)]
  · intro hr hroles
    subst hr hroles
    rw [hrun, if_neg (by decide)]

/-- C6 at the header `Bearer Admin` (the toy library reads the token as its role) and the
middleware built for `SysAdmin`: the request is refused with 403. -/
theorem AuthMiddleware_role_gate_witness :
    AuthMiddleware toyJWT toyEnv ⟨0⟩ [GetRoleName RoleSysAdmin] (requestWith "Bearer Admin") =
      { requestWith "Bearer Admin" with
        Written := [(403, .envelope ⟨403, "forbidden", none⟩)], Aborted := true } :=
  (AuthMiddleware_role_gate toyJWT toyEnv ⟨0⟩ [GetRoleName RoleSysAdmin]
    (requestWith "Bearer Admin") "Bearer" "Admin"
    { Raw := "Admin", Method := SigningMethodHS256,
      Claims := .mapClaims [("role", .str "Admin")], Signature := "", Valid := true }
    [("role", .str "Admin")] "Admin" (by decide) (by decide) rfl rfl rfl rfl).2.2.1 rfl rfl

/-- C7 as stated fails. The header `Bearer  SysAdmin` (two spaces) has exactly two
white-space-separated parts, yet `AuthMiddleware` answers 401 `invalid token` without
validating the token; had it validated the second part, the request would have gone
through. And the header `Bearer garbage` does consist of exactly two parts, yet the answer
is 401 `invalid token` again, this time from token validation. -/
theorem AuthMiddleware_two_parts_rejected :
    whitespaceParts "Bearer  SysAdmin" = ["Bearer", "SysAdmin"] ∧
    AuthMiddleware toyJWT toyEnv ⟨0⟩ [] (requestWith "Bearer  SysAdmin") =
      { requestWith "Bearer  SysAdmin" with
        Written := [(401, .envelope ⟨401, "invalid token", none⟩)], Aborted := true } ∧
    authorizeToken [] (requestWith "Bearer  SysAdmin")
        (ValidateToken toyJWT toyEnv ⟨0⟩ "SysAdmin") = (requestWith "Bearer  SysAdmin").Next ∧
    whitespaceParts "Bearer garbage" = ["Bearer", "garbage"] ∧
    Split "Bearer garbage" ' ' = ["Bearer", "garbage"] ∧
    AuthMiddleware toyJWT toyEnv ⟨0⟩ [] (requestWith "Bearer garbage") =
      { requestWith "Bearer garbage" with
        Written := [(401, .envelope ⟨401, "invalid token",
          some (.str "token contains an invalid number of segments")⟩)],
        Aborted := true } := by
  refine ⟨by decide, rfl, rfl, by decide, by decide, rfl⟩

/-- C7, amended. `AuthMiddleware` answers 401 `missing authorization header` when the
header is empty. For a non-empty header it answers 401 `invalid token`, with no data and
without validating anything, when the header does not contain exactly one space character
(splitting at every single space does not give two pieces). A header with exactly one
space character is `scheme ++ " " ++ bearer` and always reaches token validation: the
outcome is what lines 37-59 make of `ValidateToken(bearer)`. In both rejections the chain
is aborted and `Next` is not called. -/
theorem AuthMiddleware_header_stage (lib : JWTLib) (env : Env) (now : Instant)
    (roles : List String) (c : Context) :
    (c.GetHeader "Authorization" = "" →
      AuthMiddleware lib env now roles c =
        { c with
          Written := c.Written ++ [(401, .envelope ⟨401, "missing authorization header", none⟩)],
          Aborted := true }) ∧
    (c.GetHeader "Authorization" ≠ "" →
      (c.GetHeader "Authorization").toList.count ' ' ≠ 1 →
      AuthMiddleware lib env now roles c =
        { c with Written := c.Written ++ [(401, .envelope ⟨401, "invalid token", none⟩)],
                 Aborted := true }) ∧
    ((c.GetHeader "Authorization").toList.count ' ' = 1 →
      ∃ scheme bearer : String,
        c.GetHeader "Authorization" = scheme ++ " " ++ bearer ∧
        AuthMiddleware lib env now roles c =
          authorizeToken roles c (ValidateToken lib env now bearer)) := by
  refine ⟨?_, ?_, ?_⟩
  · intro h
    simp [AuthMiddleware, h, FailedResponse_401]
  · intro h hcount
    have hlen := Split_length (c.GetHeader "Authorization") ' '
    simp only [AuthMiddleware, h, if_false]
    rcases hs : Split (c.GetHeader "Authorization") ' ' with _ | ⟨p, _ | ⟨q, _ | ⟨r, rest⟩⟩⟩
    · simp [FailedResponse_401]
    · simp [FailedResponse_401]
    · rw [hs] at hlen
      simp only [List.length_cons, List.length_nil] at hlen
      omega
    · simp [FailedResponse_401]
  · intro hcount
    have hlen := Split_length (c.GetHeader "Authorization") ' '
    rw [hcount] at hlen
    rcases hs : Split (c.GetHeader "Authorization") ' ' with _ | ⟨p, _ | ⟨q, _ | ⟨r, rest⟩⟩⟩
    · rw [hs] at hlen; simp at hlen
    · rw [hs] at hlen; simp at hlen
    · have heq := Split_two _ p q ' ' hs
      have hne : c.GetHeader "Authorization" ≠ "" := by
        intro h0
        rw [h0] at hcount
        simp at hcount
      refine ⟨p, q, heq, ?_⟩
      simp only [AuthMiddleware, hne, if_false, hs]
    · rw [hs] at hlen; simp at hlen

/-! ## Sign-in and sign-out -/

theorem SignedString_HS256 (lib : JWTLib) (claims : Claims) (key : String) :
    (NewWithClaims SigningMethodHS256 claims).SignedString lib key =
      (lib.EncodeHeader SigningMethodHS256 ++ "." ++ lib.EncodeClaims claims ++ "." ++
        lib.HMACSign "HS256" (lib.EncodeHeader SigningMethodHS256 ++ "." ++
          lib.EncodeClaims claims) key, none) := by
  simp [Token.SignedString, NewWithClaims, SigningMethodHS256, Token.SigningString]

theorem dotted_ne_empty (a b c : String) : a ++ "." ++ b ++ "." ++ c ≠ "" := by
  intro h
  have hlen := congrArg String.length h
  simp only [String.length_append] at hlen
  have h1 : ".".length = 1 := by decide
  have h0 : "".length = 0 := by decide
  omega

/-- `GenerateToken` never panics: it returns the signed string of the HS256 token with the
claims of `GenerateTokenClaims`, which is not empty. -/
theorem GenerateToken_eq (lib : JWTLib) (env : Env) (now1 now2 : Instant) (user : User)
    (role : String) :
    ∃ t, GenerateToken lib env now1 now2 user role = some t ∧ t ≠ "" ∧
      t = ((NewWithClaims SigningMethodHS256
        (.mapClaims (GenerateTokenClaims now1 now2 user role))).SignedString lib
          (env "JWT_SECRET")).1 := by
  refine ⟨_, ?_, ?_, rfl⟩
  · simp [GenerateToken, SignedString_HS256]
  · rw [SignedString_HS256]
    exact dotted_ne_empty _ _ _

/-- C8. `SignInUser` returns `("", 404, err)` when `FindByUsername` fails with `err`,
whatever the password; `("", 401, "invalid password")` when the user is found and
`ComparePassword(stored hash, supplied password)` is false; `("", 404, err)` when the
password matches and the role lookup by the user's `RoleID` fails with `err`; and
otherwise `(token, 200, nil)` with a non-empty token. It never panics. -/
theorem SignInUser_outcomes {σ : Type} (u : userService σ) (bc : BcryptLib) (lib : JWTLib)
    (env : Env) (now1 now2 : Instant) (loginUser : Login) (s : σ) :
    (∀ userDb err s1, u.userRepo.FindByUsername loginUser.Username s = ((userDb, some err), s1) →
      u.SignInUser bc lib env now1 now2 loginUser s = some (("", 404, some err), s1)) ∧
    (∀ userDb s1, u.userRepo.FindByUsername loginUser.Username s = ((userDb, none), s1) →
      ComparePassword bc userDb.Password loginUser.Password = false →
      u.SignInUser bc lib env now1 now2 loginUser s =
        some (("", 401, some "invalid password"), s1)) ∧
    (∀ userDb s1 role err s2,
      u.userRepo.FindByUsername loginUser.Username s = ((userDb, none), s1) →
      ComparePassword bc userDb.Password loginUser.Password = true →
      u.roleRepo.FindByID userDb.RoleID s1 = ((role, some err), s2) →
      u.SignInUser bc lib env now1 now2 loginUser s = some (("", 404, some err), s2)) ∧
    (∀ userDb s1 role s2,
      u.userRepo.FindByUsername loginUser.Username s = ((userDb, none), s1) →
      ComparePassword bc userDb.Password loginUser.Password = true →
      u.roleRepo.FindByID userDb.RoleID s1 = ((role, none), s2) →
      ∃ token, token ≠ "" ∧
        u.SignInUser bc lib env now1 now2 loginUser s = some ((token, 200, none), s2)) := by
  refine ⟨?_, ?_, ?_, ?_⟩
  · intro userDb err s1 hfind
    simp [userService.SignInUser, hfind, StatusNotFound]
  · intro userDb s1 hfind hcmp
    simp [userService.SignInUser, hfind, hcmp, StatusUnauthorized]
  · intro userDb s1 role err s2 hfind hcmp hrole
    simp [userService.SignInUser, hfind, hcmp, hrole, StatusNotFound]
  · intro userDb s1 role s2 hfind hcmp hrole
    obtain ⟨t, ht, hne, _⟩ := GenerateToken_eq lib env now1 now2 userDb role.Name
    exact ⟨t, hne, by simp [userService.SignInUser, hfind, hcmp, hrole, ht, StatusOK]⟩

/-- The claims of a sign-in token other than the two times, and the two times when both
readings of the clock are the same instant. -/
theorem GenerateTokenClaims_get (now1 now2 : Instant) (user : User) (role : String) :
    (GenerateTokenClaims now1 now2 user role).get "sub" = some (.uint user.Model.ID) ∧
    (GenerateTokenClaims now1 now2 user role).get "user" = some (.str user.Username) ∧
    (GenerateTokenClaims now1 now2 user role).get "role" = some (.str role) ∧
    (GenerateTokenClaims now1 now2 user role).get "iat" = some (.int now2.Unix) ∧
    (GenerateTokenClaims now1 now2 user role).get "exp" = some (.int (now1.Unix + 18000)) := by
  refine ⟨by simp [GenerateTokenClaims, MapClaims.get, List.find?],
    by simp [GenerateTokenClaims, MapClaims.get, List.find?],
    by simp [GenerateTokenClaims, MapClaims.get, List.find?],
    by simp [GenerateTokenClaims, MapClaims.get, List.find?], ?_⟩
  simp only [GenerateTokenClaims, MapClaims.get, List.find?, beq_self_eq_true, Option.map_some',
    Instant.Add, Instant.Unix, Hour]
  congr 2
  omega

/-- C9 (the code departs from it). `GenerateToken` reads the clock twice, for `exp` and
then for `iat`. With the readings 0.999999999 s and 1.000000000 s after the epoch the
sign-in of the stored user succeeds with a token whose claims are `exp = 18000` and
`iat = 1`: `exp` is `iat + 17999`, not `iat + 18000`. -/
theorem SignInUser_exp_not_iat_plus_5h :
    userService.SignInUser ⟨stubUserRepo sampleUser, stubRoleRepo sysAdminRole⟩
        toyBcrypt toyJWT toyEnv ⟨999999999⟩ ⟨1000000000⟩ ⟨"sysAdminTest", "Test1234!"⟩ ()
      = some (("HS256.exp=18000,iat=1,sub=1,user=sysAdminTest,role=SysAdmin.secret",
          200, none), ()) ∧
    (GenerateTokenClaims ⟨999999999⟩ ⟨1000000000⟩ sampleUser "SysAdmin").get "exp"
      = some (.int 18000) ∧
    (GenerateTokenClaims ⟨999999999⟩ ⟨1000000000⟩ sampleUser "SysAdmin").get "iat"
      = some (.int 1) ∧
    (18000 : Int) ≠ 1 + 18000 := by
  decide

/-- C10. `SignOutUser` never panics and returns the signed string of an HS256 token whose
claims are exactly `exp` and `iat`, both the issuance time `now` in epoch seconds; there
is no `sub`, `user` or `role` claim. Hence `exp` is not after `now`, nor after any later
instant, counted in seconds or in nanoseconds. -/
theorem SignOutUser_claims {σ : Type} (u : userService σ) (lib : JWTLib) (env : Env)
    (now : Instant) :
    (∃ sig, u.SignOutUser lib env now =
      some (lib.EncodeHeader SigningMethodHS256 ++ "." ++
        lib.EncodeClaims (.mapClaims (GenerateExpiredTokenClaims now)) ++ "." ++ sig)) ∧
    GenerateExpiredTokenClaims now = [("exp", .int now.Unix), ("iat", .int now.Unix)] ∧
    (GenerateExpiredTokenClaims now).get "exp" = (GenerateExpiredTokenClaims now).get "iat" ∧
    (GenerateExpiredTokenClaims now).get "sub" = none ∧
    (GenerateExpiredTokenClaims now).get "user" = none ∧
    (GenerateExpiredTokenClaims now).get "role" = none ∧
    (∀ later : Instant, now.unixNano ≤ later.unixNano →
      now.Unix ≤ later.Unix ∧ now.Unix * 1000000000 ≤ later.unixNano) := by
  refine ⟨⟨lib.HMACSign "HS256" (lib.EncodeHeader SigningMethodHS256 ++ "." ++
      lib.EncodeClaims (.mapClaims (GenerateExpiredTokenClaims now))) (env "JWT_SECRET"), ?_⟩,
    rfl, ?_, ?_, ?_, ?_, ?_⟩
  · simp only [userService.SignOutUser, GenerateExpiredToken, SignedString_HS256]
  · simp [GenerateExpiredTokenClaims, MapClaims.get, List.find?]
  · simp [GenerateExpiredTokenClaims, MapClaims.get, List.find?]
  · simp [GenerateExpiredTokenClaims, MapClaims.get, List.find?]
  · simp [GenerateExpiredTokenClaims, MapClaims.get, List.find?]
  · intro later hle
    simp only [Instant.Unix]
    constructor <;> omega

/-! ## Status codes of the read, update and delete paths -/

theorem GetUser_status {σ : Type} (u : userService σ) (id : Int) (s : σ) :
    (∀ x err s1, u.userRepo.FindByID id s = ((x, some err), s1) →
      u.GetUser id s = some ((UserDTO.zero, 500, some err), s1)) ∧
    (∀ x s1, u.userRepo.FindByID id s = ((x, none), s1) →
      u.GetUser id s = some ((MapUserDTO x, 200, none), s1)) := by
  constructor
  · intro x err s1 h
    simp [userService.GetUser, h, StatusInternalServerError]
  · intro x s1 h
    simp [userService.GetUser, h, StatusOK, MapUserDTO]

theorem GetRole_status {σ : Type} (r : roleService σ) (id : Int) (s : σ) :
    (∀ x err s1, r.roleRepo.FindByID id s = ((x, some err), s1) →
      r.GetRole id s = some ((RoleDTO.zero, 500, some err), s1)) ∧
    (∀ x s1, r.roleRepo.FindByID id s = ((x, none), s1) →
      r.GetRole id s = some ((MapRoleDTO x, 200, none), s1)) := by
  constructor
  · intro x err s1 h
    simp [roleService.GetRole, h, StatusInternalServerError]
  · intro x s1 h
    simp [roleService.GetRole, h, StatusOK]

theorem GetItem_status {σ : Type} (p : itemService σ) (id : Int) (s : σ) :
    (∀ x err s1, p.ItemRepo.FindByID id s = ((x, some err), s1) →
      p.GetItem id s = some ((ItemDTO.zero, 404, some err), s1)) ∧
    (∀ x s1, p.ItemRepo.FindByID id s = ((x, none), s1) →
      p.GetItem id s = some ((MapItemDTO x, 200, none), s1)) := by
  constructor
  · intro x err s1 h
    simp [itemService.GetItem, h, StatusNotFound]
  · intro x s1 h
    simp [itemService.GetItem, h, StatusOK]

theorem GetTruck_status {σ : Type} (p : truckService σ) (id : Int) (s : σ) :
    (∀ x err s1, p.TruckRepo.FindByID id s = ((x, some err), s1) →
      p.GetTruck id s = some ((TruckDTO.zero, 404, some err), s1)) ∧
    (∀ x s1, p.TruckRepo.FindByID id s = ((x, none), s1) →
      p.GetTruck id s = some ((MapTruckDTO x, 200, none), s1)) := by
  constructor
  · intro x err s1 h
    simp [truckService.GetTruck, h, StatusNotFound]
  · intro x s1 h
    simp [truckService.GetTruck, h, StatusOK]

theorem GetOrder_status {σ : Type} (p : orderService σ) (id : Int) (s : σ) :
    (∀ x err s1, p.OrderRepo.FindByID id s = ((x, some err), s1) →
      p.GetOrder id s = some ((x, 500, some err), s1)) ∧
    (∀ x s1, p.OrderRepo.FindByID id s = ((x, none), s1) →
      p.GetOrder id s = some ((x, 200, none), s1)) := by
  constructor
  · intro x err s1 h
    simp [orderService.GetOrder, h, StatusInternalServerError]
  · intro x s1 h
    simp [orderService.GetOrder, h, StatusOK]

/-- C14 as stated fails. With a repository whose `FindByID` reports `record not found`,
`GetRole` and `GetOrder` answer 500, like `GetUser`; only `GetItem` and `GetTruck` answer
404. -/
theorem GetRole_GetOrder_missing_500 :
    outcome (roleService.GetRole ⟨failingRoleRepo "record not found"⟩ 1 ())
      = some (500, some "record not found") ∧
    outcome (orderService.GetOrder ⟨failingRepo Order.zero "record not found"⟩ 1 ())
      = some (500, some "record not found") ∧
    outcome (userService.GetUser
        ⟨failingUserRepo "record not found", failingRoleRepo "record not found"⟩ 1 ())
      = some (500, some "record not found") ∧
    outcome (itemService.GetItem ⟨failingItemRepo "record not found"⟩ 1 ())
      = some (404, some "record not found") ∧
    outcome (truckService.GetTruck ⟨failingRepo Truck.zero "record not found"⟩ 1 ())
      = some (404, some "record not found") := by
  decide

/-- C14, amended. When the repository's `FindByID` fails with `err`, `GetItem` and
`GetTruck` return status 404 with `err`, and `GetUser`, `GetRole` and `GetOrder` return
status 500 with `err`. -/
theorem Get_status_on_FindByID_error {σ₁ σ₂ σ₃ σ₄ σ₅ : Type} (u : userService σ₁)
    (r : roleService σ₂) (i : itemService σ₃) (t : truckService σ₄) (o : orderService σ₅)
    (id : Int) (err : Error) :
    (∀ s x s1, i.ItemRepo.FindByID id s = ((x, some err), s1) →
      outcome (i.GetItem id s) = some (404, some err)) ∧
    (∀ s x s1, t.TruckRepo.FindByID id s = ((x, some err), s1) →
      outcome (t.GetTruck id s) = some (404, some err)) ∧
    (∀ s x s1, u.userRepo.FindByID id s = ((x, some err), s1) →
      outcome (u.GetUser id s) = some (500, some err)) ∧
    (∀ s x s1, r.roleRepo.FindByID id s = ((x, some err), s1) →
      outcome (r.GetRole id s) = some (500, some err)) ∧
    (∀ s x s1, o.OrderRepo.FindByID id s = ((x, some err), s1) →
      outcome (o.GetOrder id s) = some (500, some err)) := by
  refine ⟨?_, ?_, ?_, ?_, ?_⟩
  · intro s x s1 h
    rw [(GetItem_status i id s).1 x err s1 h]; rfl
  · intro s x s1 h
    rw [(GetTruck_status t id s).1 x err s1 h]; rfl
  · intro s x s1 h
    rw [(GetUser_status u id s).1 x err s1 h]; rfl
  · intro s x s1 h
    rw [(GetRole_status r id s).1 x err s1 h]; rfl
  · intro s x s1 h
    rw [(GetOrder_status o id s).1 x err s1 h]; rfl

/-! ### Update and delete, service by service -/

theorem UpdateUser_status {σ : Type} (p : userService σ) (id : Int) (patch : User) (s : σ) :
    (∀ x err s1, p.userRepo.FindByID id s = ((x, some err), s1) →
      p.UpdateUser id patch s = some ((UserDTO.zero, 404, some err), s1)) ∧
    (∀ x s1, p.userRepo.FindByID id s = ((x, none), s1) →
      ∃ m, CopyNonEmptyFields x patch = some m ∧
        (∀ y err s2, p.userRepo.Update m s1 = ((y, some err), s2) →
          p.UpdateUser id patch s = some ((UserDTO.zero, 500, some err), s2)) ∧
        (∀ y s2, p.userRepo.Update m s1 = ((y, none), s2) →
          p.UpdateUser id patch s = some ((MapUserDTO y, 200, none), s2))) := by
  constructor
  · intro x err s1 h
    simp [userService.UpdateUser, h, StatusNotFound]
  · intro x s1 h
    refine ⟨_, CopyNonEmptyFields_User x patch, ?_, ?_⟩
    · intro y err s2 h2
      simp [userService.UpdateUser, h, CopyNonEmptyFields_User, h2, StatusInternalServerError]
    · intro y s2 h2
      simp [userService.UpdateUser, h, CopyNonEmptyFields_User, h2, StatusOK]

theorem DeleteUser_status {σ : Type} (p : userService σ) (id : Int) (s : σ) :
    (∀ x err s1, p.userRepo.FindByID id s = ((x, some err), s1) →
      p.DeleteUser id s = some ((UserDTO.zero, 404, some err), s1)) ∧
    (∀ x s1, p.userRepo.FindByID id s = ((x, none), s1) →
      (∀ err s2, p.userRepo.Delete x s1 = (some err, s2) →
        p.DeleteUser id s = some ((UserDTO.zero, 500, some err), s2)) ∧
      (∀ s2, p.userRepo.Delete x s1 = (none, s2) →
        p.DeleteUser id s = some ((MapUserDTO x, 200, none), s2))) := by
  constructor
  · intro x err s1 h
    simp [userService.DeleteUser, h, StatusNotFound]
  · intro x s1 h
    constructor
    · intro err s2 h2
      simp [userService.DeleteUser, h, h2, StatusInternalServerError]
    · intro s2 h2
      simp [userService.DeleteUser, h, h2, StatusOK]

theorem UpdateRole_status {σ : Type} (p : roleService σ) (id : Int) (patch : Role) (s : σ) :
    (∀ x err s1, p.roleRepo.FindByID id s = ((x, some err), s1) →
      p.UpdateRole id patch s = some ((RoleDTO.zero, 404, some err), s1)) ∧
    (∀ x s1, p.roleRepo.FindByID id s = ((x, none), s1) →
      ∃ m, CopyNonEmptyFields x patch = some m ∧
        (∀ y err s2, p.roleRepo.Update patch s1 = ((y, some err), s2) →
          p.UpdateRole id patch s = some ((RoleDTO.zero, 500, some err), s2)) ∧
        (∀ y s2, p.roleRepo.Update patch s1 = ((y, none), s2) →
          p.UpdateRole id patch s = some ((MapRoleDTO y, 200, none), s2))) := by
  constructor
  · intro x err s1 h
    simp [roleService.UpdateRole, h, StatusNotFound]
  · intro x s1 h
    refine ⟨_, CopyNonEmptyFields_Role x patch, ?_, ?_⟩
    · intro y err s2 h2
      simp [roleService.UpdateRole, h, CopyNonEmptyFields_Role, h2, StatusInternalServerError]
    · intro y s2 h2
      simp [roleService.UpdateRole, h, CopyNonEmptyFields_Role, h2, StatusOK]

theorem DeleteRole_status {σ : Type} (p : roleService σ) (id : Int) (s : σ) :
    (∀ x err s1, p.roleRepo.FindByID id s = ((x, some err), s1) →
      p.DeleteRole id s = some ((RoleDTO.zero, 404, some err), s1)) ∧
    (∀ x s1, p.roleRepo.FindByID id s = ((x, none), s1) →
      (∀ err s2, p.roleRepo.Delete x s1 = (some err, s2) →
        p.DeleteRole id s = some ((RoleDTO.zero, 500, some err), s2)) ∧
      (∀ s2, p.roleRepo.Delete x s1 = (none, s2) →
        p.DeleteRole id s = some ((MapRoleDTO x, 200, none), s2))) := by
  constructor
  · intro x err s1 h
    simp [roleService.DeleteRole, h, StatusNotFound]
  · intro x s1 h
    constructor
    · intro err s2 h2
      simp [roleService.DeleteRole, h, h2, StatusInternalServerError]
    · intro s2 h2
      simp [roleService.DeleteRole, h, h2, StatusOK]

theorem UpdateItem_status {σ : Type} (p : itemService σ) (id : Int) (patch : Item) (s : σ) :
    (∀ x err s1, p.ItemRepo.FindByID id s = ((x, some err), s1) →
      p.UpdateItem id patch s = some ((ItemDTO.zero, 404, some err), s1)) ∧
    (∀ x s1, p.ItemRepo.FindByID id s = ((x, none), s1) →
      ∃ m, CopyNonEmptyFields x patch = some m ∧
        (∀ y err s2, p.ItemRepo.Update m s1 = ((y, some err), s2) →
          p.UpdateItem id patch s = some ((ItemDTO.zero, 500, some err), s2)) ∧
        (∀ y s2, p.ItemRepo.Update m s1 = ((y, none), s2) →
          p.UpdateItem id patch s = some ((MapItemDTO y, 200, none), s2))) := by
  constructor
  · intro x err s1 h
    simp [itemService.UpdateItem, h, StatusNotFound]
  · intro x s1 h
    refine ⟨_, CopyNonEmptyFields_Item x patch, ?_, ?_⟩
    · intro y err s2 h2
      simp [itemService.UpdateItem, h, CopyNonEmptyFields_Item, h2, StatusInternalServerError]
    · intro y s2 h2
      simp [itemService.UpdateItem, h, CopyNonEmptyFields_Item, h2, StatusOK]

theorem DeleteItem_status {σ : Type} (p : itemService σ) (id : Int) (s : σ) :
    (∀ x err s1, p.ItemRepo.FindByID id s = ((x, some err), s1) →
      p.DeleteItem id s = some ((ItemDTO.zero, 404, some err), s1)) ∧
    (∀ x s1, p.ItemRepo.FindByID id s = ((x, none), s1) →
      (∀ err s2, p.ItemRepo.Delete x s1 = (some err, s2) →
        p.DeleteItem id s = some ((ItemDTO.zero, 500, some err), s2)) ∧
      (∀ s2, p.ItemRepo.Delete x s1 = (none, s2) →
        p.DeleteItem id s = some ((MapItemDTO x, 200, none), s2))) := by
  constructor
  · intro x err s1 h
    simp [itemService.DeleteItem, h, StatusNotFound]
  · intro x s1 h
    constructor
    · intro err s2 h2
      simp [itemService.DeleteItem, h, h2, StatusInternalServerError]
    · intro s2 h2
      simp [itemService.DeleteItem, h, h2, StatusOK]

theorem UpdateTruck_status {σ : Type} (p : truckService σ) (id : Int) (patch : Truck) (s : σ) :
    (∀ x err s1, p.TruckRepo.FindByID id s = ((x, some err), s1) →
      p.UpdateTruck id patch s = some ((TruckDTO.zero, 404, some err), s1)) ∧
    (∀ x s1, p.TruckRepo.FindByID id s = ((x, none), s1) →
      ∃ m, CopyNonEmptyFields x patch = some m ∧
        (∀ y err s2, p.TruckRepo.Update m s1 = ((y, some err), s2) →
          p.UpdateTruck id patch s = some ((TruckDTO.zero, 500, some err), s2)) ∧
        (∀ y s2, p.TruckRepo.Update m s1 = ((y, none), s2) →
          p.UpdateTruck id patch s = some ((MapTruckDTO y, 200, none), s2))) := by
  constructor
  · intro x err s1 h
    simp [truckService.UpdateTruck, h, StatusNotFound]
  · intro x s1 h
    refine ⟨_, CopyNonEmptyFields_Truck x patch, ?_, ?_⟩
    · intro y err s2 h2
      simp [truckService.UpdateTruck, h, CopyNonEmptyFields_Truck, h2, StatusInternalServerError]
    · intro y s2 h2
      simp [truckService.UpdateTruck, h, CopyNonEmptyFields_Truck, h2, StatusOK]

theorem DeleteTruck_status {σ : Type} (p : truckService σ) (id : Int) (s : σ) :
    (∀ x err s1, p.TruckRepo.FindByID id s = ((x, some err), s1) →
      p.DeleteTruck id s = some ((TruckDTO.zero, 404, some err), s1)) ∧
    (∀ x s1, p.TruckRepo.FindByID id s = ((x, none), s1) →
      (∀ err s2, p.TruckRepo.Delete x s1 = (some err, s2) →
        p.DeleteTruck id s = some ((TruckDTO.zero, 500, some err), s2)) ∧
      (∀ s2, p.TruckRepo.Delete x s1 = (none, s2) →
        p.DeleteTruck id s = some ((MapTruckDTO x, 200, none), s2))) := by
  constructor
  · intro x err s1 h
    simp [truckService.DeleteTruck, h, StatusNotFound]
  · intro x s1 h
    constructor
    · intro err s2 h2
      simp [truckService.DeleteTruck, h, h2, StatusInternalServerError]
    · intro s2 h2
      simp [truckService.DeleteTruck, h, h2, StatusOK]

theorem UpdateOrder_status {σ : Type} (p : orderService σ) (id : Int) (patch : Order) (s : σ) :
    (∀ x err s1, p.OrderRepo.FindByID id s = ((x, some err), s1) →
      p.UpdateOrder id patch s = some ((x, 404, some err), s1)) ∧
    (∀ x s1, p.OrderRepo.FindByID id s = ((x, none), s1) →
      ∃ m, CopyNonEmptyFields x patch = some m ∧
        (∀ y err s2, p.OrderRepo.Update m s1 = ((y, some err), s2) →
          p.UpdateOrder id patch s = some ((y, 500, some err), s2)) ∧
        (∀ y s2, p.OrderRepo.Update m s1 = ((y, none), s2) →
          p.UpdateOrder id patch s = some ((y, 200, none), s2))) := by
  constructor
  · intro x err s1 h
    simp [orderService.UpdateOrder, h, StatusNotFound]
  · intro x s1 h
    refine ⟨_, CopyNonEmptyFields_Order x patch, ?_, ?_⟩
    · intro y err s2 h2
      simp [orderService.UpdateOrder, h, CopyNonEmptyFields_Order, h2, StatusInternalServerError]
    · intro y s2 h2
      simp [orderService.UpdateOrder, h, CopyNonEmptyFields_Order, h2, StatusOK]

theorem DeleteOrder_status {σ : Type} (p : orderService σ) (id : Int) (s : σ) :
    (∀ x err s1, p.OrderRepo.FindByID id s = ((x, some err), s1) →
      p.DeleteOrder id s = some ((x, 404, some err), s1)) ∧
    (∀ x s1, p.OrderRepo.FindByID id s = ((x, none), s1) →
      (∀ err s2, p.OrderRepo.Delete x s1 = (some err, s2) →
        p.DeleteOrder id s = some ((x, 500, some err), s2)) ∧
      (∀ s2, p.OrderRepo.Delete x s1 = (none, s2) →
        p.DeleteOrder id s = some ((x, 200, none), s2))) := by
  constructor
  · intro x err s1 h
    simp [orderService.DeleteOrder, h, StatusNotFound]
  · intro x s1 h
    constructor
    · intro err s2 h2
      simp [orderService.DeleteOrder, h, h2, StatusInternalServerError]
    · intro s2 h2
      simp [orderService.DeleteOrder, h, h2, StatusOK]

/-- C15. For each of the five services: `Update(id, patch)` and `Delete(id)` return status
404 with the repository's error when `FindByID` fails; when `FindByID` succeeds they
return status 500 with the repository's error if the repository's `Update` (resp.
`Delete`) fails, and status 200 with a nil error if it succeeds. The record given to
`Update` is the merge `m` of the patch into the loaded record (for `UpdateRole`, the
patch itself); the merge never panics. -/
theorem Update_Delete_status {σ₁ σ₂ σ₃ σ₄ σ₅ : Type} (u : userService σ₁)
    (r : roleService σ₂) (i : itemService σ₃) (t : truckService σ₄) (o : orderService σ₅)
    (id : Int) :
    (∀ (patch : User) s,
      (∀ x err s1, u.userRepo.FindByID id s = ((x, some err), s1) →
        outcome (u.UpdateUser id patch s) = some (404, some err)) ∧
      (∀ x s1, u.userRepo.FindByID id s = ((x, none), s1) →
        ∃ m, CopyNonEmptyFields x patch = some m ∧
          (∀ y err s2, u.userRepo.Update m s1 = ((y, some err), s2) →
            outcome (u.UpdateUser id patch s) = some (500, some err)) ∧
          (∀ y s2, u.userRepo.Update m s1 = ((y, none), s2) →
            outcome (u.UpdateUser id patch s) = some (200, none)))) ∧
    (∀ (patch : Role) s,
      (∀ x err s1, r.roleRepo.FindByID id s = ((x, some err), s1) →
        outcome (r.UpdateRole id patch s) = some (404, some err)) ∧
      (∀ x s1, r.roleRepo.FindByID id s = ((x, none), s1) →
        ∃ m, CopyNonEmptyFields x patch = some m ∧
          (∀ y err s2, r.roleRepo.Update patch s1 = ((y, some err), s2) →
            outcome (r.UpdateRole id patch s) = some (500, some err)) ∧
          (∀ y s2, r.roleRepo.Update patch s1 = ((y, none), s2) →
            outcome (r.UpdateRole id patch s) = some (200, none)))) ∧
    (∀ (patch : Item) s,
      (∀ x err s1, i.ItemRepo.FindByID id s = ((x, some err), s1) →
        outcome (i.UpdateItem id patch s) = some (404, some err)) ∧
      (∀ x s1, i.ItemRepo.FindByID id s = ((x, none), s1) →
        ∃ m, CopyNonEmptyFields x patch = some m ∧
          (∀ y err s2, i.ItemRepo.Update m s1 = ((y, some err), s2) →
            outcome (i.UpdateItem id patch s) = some (500, some err)) ∧
          (∀ y s2, i.ItemRepo.Update m s1 = ((y, none), s2) →
            outcome (i.UpdateItem id patch s) = some (200, none)))) ∧
    (∀ (patch : Truck) s,
      (∀ x err s1, t.TruckRepo.FindByID id s = ((x, some err), s1) →
        outcome (t.UpdateTruck id patch s) = some (404, some err)) ∧
      (∀ x s1, t.TruckRepo.FindByID id s = ((x, none), s1) →
        ∃ m, CopyNonEmptyFields x patch = some m ∧
          (∀ y err s2, t.TruckRepo.Update m s1 = ((y, some err), s2) →
            outcome (t.UpdateTruck id patch s) = some (500, some err)) ∧
          (∀ y s2, t.TruckRepo.Update m s1 = ((y, none), s2) →
            outcome (t.UpdateTruck id patch s) = some (200, none)))) ∧
    (∀ (patch : Order) s,
      (∀ x err s1, o.OrderRepo.FindByID id s = ((x, some err), s1) →
        outcome (o.UpdateOrder id patch s) = some (404, some err)) ∧
      (∀ x s1, o.OrderRepo.FindByID id s = ((x, none), s1) →
        ∃ m, CopyNonEmptyFields x patch = some m ∧
          (∀ y err s2, o.OrderRepo.Update m s1 = ((y, some err), s2) →
            outcome (o.UpdateOrder id patch s) = some (500, some err)) ∧
          (∀ y s2, o.OrderRepo.Update m s1 = ((y, none), s2) →
            outcome (o.UpdateOrder id patch s) = some (200, none)))) ∧
    (∀ s,
      (∀ x err s1, u.userRepo.FindByID id s = ((x, some err), s1) →
        outcome (u.DeleteUser id s) = some (404, some err)) ∧
      (∀ x s1, u.userRepo.FindByID id s = ((x, none), s1) →
        (∀ err s2, u.userRepo.Delete x s1 = (some err, s2) →
          outcome (u.DeleteUser id s) = some (500, some err)) ∧
        (∀ s2, u.userRepo.Delete x s1 = (none, s2) →
          outcome (u.DeleteUser id s) = some (200, none)))) ∧
    (∀ s,
      (∀ x err s1, r.roleRepo.FindByID id s = ((x, some err), s1) →
        outcome (r.DeleteRole id s) = some (404, some err)) ∧
      (∀ x s1, r.roleRepo.FindByID id s = ((x, none), s1) →
        (∀ err s2, r.roleRepo.Delete x s1 = (some err, s2) →
          outcome (r.DeleteRole id s) = some (500, some err)) ∧
        (∀ s2, r.roleRepo.Delete x s1 = (none, s2) →
          outcome (r.DeleteRole id s) = some (200, none)))) ∧
    (∀ s,
      (∀ x err s1, i.ItemRepo.FindByID id s = ((x, some err), s1) →
        outcome (i.DeleteItem id s) = some (404, some err)) ∧
      (∀ x s1, i.ItemRepo.FindByID id s = ((x, none), s1) →
        (∀ err s2, i.ItemRepo.Delete x s1 = (some err, s2) →
          outcome (i.DeleteItem id s) = some (500, some err)) ∧
        (∀ s2, i.ItemRepo.Delete x s1 = (none, s2) →
          outcome (i.DeleteItem id s) = some (200, none)))) ∧
    (∀ s,
      (∀ x err s1, t.TruckRepo.FindByID id s = ((x, some err), s1) →
        outcome (t.DeleteTruck id s) = some (404, some err)) ∧
      (∀ x s1, t.TruckRepo.FindByID id s = ((x, none), s1) →
        (∀ err s2, t.TruckRepo.Delete x s1 = (some err, s2) →
          outcome (t.DeleteTruck id s) = some (500, some err)) ∧
        (∀ s2, t.TruckRepo.Delete x s1 = (none, s2) →
          outcome (t.DeleteTruck id s) = some (200, none)))) ∧
    (∀ s,
      (∀ x err s1, o.OrderRepo.FindByID id s = ((x, some err), s1) →
        outcome (o.DeleteOrder id s) = some (404, some err)) ∧
      (∀ x s1, o.OrderRepo.FindByID id s = ((x, none), s1) →
        (∀ err s2, o.OrderRepo.Delete x s1 = (some err, s2) →
          outcome (o.DeleteOrder id s) = some (500, some err)) ∧
        (∀ s2, o.OrderRepo.Delete x s1 = (none, s2) →
          outcome (o.DeleteOrder id s) = some (200, none)))) := by
  refine ⟨?_, ?_, ?_, ?_, ?_, ?_, ?_, ?_, ?_, ?_⟩
  · intro patch s
    obtain ⟨h1, h2⟩ := UpdateUser_status u id patch s
    refine ⟨fun x err s1 h => by rw [h1 x err s1 h]; rfl, fun x s1 h => ?_⟩
    obtain ⟨m, hm, h500, h200⟩ := h2 x s1 h
    exact ⟨m, hm, fun y err s2 h' => by rw [h500 y err s2 h']; rfl,
      fun y s2 h' => by rw [h200 y s2 h']; rfl⟩
  · intro patch s
    obtain ⟨h1, h2⟩ := UpdateRole_status r id patch s
    refine ⟨fun x err s1 h => by rw [h1 x err s1 h]; rfl, fun x s1 h => ?_⟩
    obtain ⟨m, hm, h500, h200⟩ := h2 x s1 h
    exact ⟨m, hm, fun y err s2 h' => by rw [h500 y err s2 h']; rfl,
      fun y s2 h' => by rw [h200 y s2 h']; rfl⟩
  · intro patch s
    obtain ⟨h1, h2⟩ := UpdateItem_status i id patch s
    refine ⟨fun x err s1 h => by rw [h1 x err s1 h]; rfl, fun x s1 h => ?_⟩
    obtain ⟨m, hm, h500, h200⟩ := h2 x s1 h
    exact ⟨m, hm, fun y err s2 h' => by rw [h500 y err s2 h']; rfl,
      fun y s2 h' => by rw [h200 y s2 h']; rfl⟩
  · intro patch s
    obtain ⟨h1, h2⟩ := UpdateTruck_status t id patch s
    refine ⟨fun x err s1 h => by rw [h1 x err s1 h]; rfl, fun x s1 h => ?_⟩
    obtain ⟨m, hm, h500, h200⟩ := h2 x s1 h
    exact ⟨m, hm, fun y err s2 h' => by rw [h500 y err s2 h']; rfl,
      fun y s2 h' => by rw [h200 y s2 h']; rfl⟩
  · intro patch s
    obtain ⟨h1, h2⟩ := UpdateOrder_status o id patch s
    refine ⟨fun x err s1 h => by rw [h1 x err s1 h]; rfl, fun x s1 h => ?_⟩
    obtain ⟨m, hm, h500, h200⟩ := h2 x s1 h
    exact ⟨m, hm, fun y err s2 h' => by rw [h500 y err s2 h']; rfl,
      fun y s2 h' => by rw [h200 y s2 h']; rfl⟩
  · intro s
    obtain ⟨h1, h2⟩ := DeleteUser_status u id s
    refine ⟨fun x err s1 h => by rw [h1 x err s1 h]; rfl, fun x s1 h => ?_⟩
    obtain ⟨h500, h200⟩ := h2 x s1 h
    exact ⟨fun err s2 h' => by rw [h500 err s2 h']; rfl,
      fun s2 h' => by rw [h200 s2 h']; rfl⟩
  · intro s
    obtain ⟨h1, h2⟩ := DeleteRole_status r id s
    refine ⟨fun x err s1 h => by rw [h1 x err s1 h]; rfl, fun x s1 h => ?_⟩
    obtain ⟨h500, h200⟩ := h2 x s1 h
    exact ⟨fun err s2 h' => by rw [h500 err s2 h']; rfl,
      fun s2 h' => by rw [h200 s2 h']; rfl⟩
  · intro s
    obtain ⟨h1, h2⟩ := DeleteItem_status i id s
    refine ⟨fun x err s1 h => by rw [h1 x err s1 h]; rfl, fun x s1 h => ?_⟩
    obtain ⟨h500, h200⟩ := h2 x s1 h
    exact ⟨fun err s2 h' => by rw [h500 err s2 h']; rfl,
      fun s2 h' => by rw [h200 s2 h']; rfl⟩
  · intro s
    obtain ⟨h1, h2⟩ := DeleteTruck_status t id s
    refine ⟨fun x err s1 h => by rw [h1 x err s1 h]; rfl, fun x s1 h => ?_⟩
    obtain ⟨h500, h200⟩ := h2 x s1 h
    exact ⟨fun err s2 h' => by rw [h500 err s2 h']; rfl,
      fun s2 h' => by rw [h200 s2 h']; rfl⟩
  · intro s
    obtain ⟨h1, h2⟩ := DeleteOrder_status o id s
    refine ⟨fun x err s1 h => by rw [h1 x err s1 h]; rfl, fun x s1 h => ?_⟩
    obtain ⟨h500, h200⟩ := h2 x s1 h
    exact ⟨fun err s2 h' => by rw [h500 err s2 h']; rfl,
      fun s2 h' => by rw [h200 s2 h']; rfl⟩

/-- C16 as stated fails. With a repository whose `FindByID` fails with
`driver: bad connection`, an error that is not record-not-found, `UpdateTruck`,
`DeleteTruck`, `UpdateUser` and `DeleteUser` answer 404, not 500. -/
theorem Update_Delete_storage_error_404 :
    outcome (truckService.UpdateTruck ⟨failingRepo Truck.zero "driver: bad connection"⟩ 1
        { Truck.zero with LicensePlate := "AA123BB" } ())
      = some (404, some "driver: bad connection") ∧
    outcome (truckService.DeleteTruck ⟨failingRepo Truck.zero "driver: bad connection"⟩ 1 ())
      = some (404, some "driver: bad connection") ∧
    outcome (userService.UpdateUser
        ⟨failingUserRepo "driver: bad connection", failingRoleRepo "driver: bad connection"⟩ 1
        { User.zero with FirstName := "Test" } ())
      = some (404, some "driver: bad connection") ∧
    outcome (userService.DeleteUser
        ⟨failingUserRepo "driver: bad connection", failingRoleRepo "driver: bad connection"⟩ 1
        ())
      = some (404, some "driver: bad connection") := by
  decide

/-- C16, amended. For each of the five services, `Update` and `Delete` return status 404
with the repository's error whenever `FindByID` fails, whatever the error is: a missing
row and any other storage error are not told apart. -/
theorem Update_Delete_404_on_any_FindByID_error {σ₁ σ₂ σ₃ σ₄ σ₅ : Type} (u : userService σ₁)
    (r : roleService σ₂) (i : itemService σ₃) (t : truckService σ₄) (o : orderService σ₅)
    (id : Int) (err : Error) :
    (∀ (patch : User) s x s1, u.userRepo.FindByID id s = ((x, some err), s1) →
      outcome (u.UpdateUser id patch s) = some (404, some err)) ∧
    (∀ (patch : Role) s x s1, r.roleRepo.FindByID id s = ((x, some err), s1) →
      outcome (r.UpdateRole id patch s) = some (404, some err)) ∧
    (∀ (patch : Item) s x s1, i.ItemRepo.FindByID id s = ((x, some err), s1) →
      outcome (i.UpdateItem id patch s) = some (404, some err)) ∧
    (∀ (patch : Truck) s x s1, t.TruckRepo.FindByID id s = ((x, some err), s1) →
      outcome (t.UpdateTruck id patch s) = some (404, some err)) ∧
    (∀ (patch : Order) s x s1, o.OrderRepo.FindByID id s = ((x, some err), s1) →
      outcome (o.UpdateOrder id patch s) = some (404, some err)) ∧
    (∀ s x s1, u.userRepo.FindByID id s = ((x, some err), s1) →
      outcome (u.DeleteUser id s) = some (404, some err)) ∧
    (∀ s x s1, r.roleRepo.FindByID id s = ((x, some err), s1) →
      outcome (r.DeleteRole id s) = some (404, some err)) ∧
    (∀ s x s1, i.ItemRepo.FindByID id s = ((x, some err), s1) →
      outcome (i.DeleteItem id s) = some (404, some err)) ∧
    (∀ s x s1, t.TruckRepo.FindByID id s = ((x, some err), s1) →
      outcome (t.DeleteTruck id s) = some (404, some err)) ∧
    (∀ s x s1, o.OrderRepo.FindByID id s = ((x, some err), s1) →
      outcome (o.DeleteOrder id s) = some (404, some err)) := by
  refine ⟨?_, ?_, ?_, ?_, ?_, ?_, ?_, ?_, ?_, ?_⟩
  · intro patch s x s1 h
    rw [(UpdateUser_status u id patch s).1 x err s1 h]; rfl
  · intro patch s x s1 h
    rw [(UpdateRole_status r id patch s).1 x err s1 h]; rfl
  · intro patch s x s1 h
    rw [(UpdateItem_status i id patch s).1 x err s1 h]; rfl
  · intro patch s x s1 h
    rw [(UpdateTruck_status t id patch s).1 x err s1 h]; rfl
  · intro patch s x s1 h
    rw [(UpdateOrder_status o id patch s).1 x err s1 h]; rfl
  · intro s x s1 h
    rw [(DeleteUser_status u id s).1 x err s1 h]; rfl
  · intro s x s1 h
    rw [(DeleteRole_status r id s).1 x err s1 h]; rfl
  · intro s x s1 h
    rw [(DeleteItem_status i id s).1 x err s1 h]; rfl
  · intro s x s1 h
    rw [(DeleteTruck_status t id s).1 x err s1 h]; rfl
  · intro s x s1 h
    rw [(DeleteOrder_status o id s).1 x err s1 h]; rfl

/-! ## Repeating an update -/

theorem ite_absorb {α : Type} (c : Prop) [Decidable c] (a b : α) :
    (if c then (if c then a else b) else b) = if c then a else b := by
  split <;> rfl

theorem ite_absorb_else {α : Type} (c : Prop) [Decidable c] (a b : α) :
    (if c then a else (if c then a else b)) = if c then a else b := by
  split <;> rfl

theorem CopyNonEmptyFields_User_twice (x patch m : User)
    (h : CopyNonEmptyFields x patch = some m) : CopyNonEmptyFields m patch = some m := by
  rw [CopyNonEmptyFields_User] at h
  simp only [Option.some.injEq] at h
  subst h
  rw [CopyNonEmptyFields_User]
  simp only [ite_absorb, ite_absorb_else]

/-- One run of `UpdateUser` against a repository whose `FindByID` and `Update` succeed. -/
theorem UpdateUser_run {σ : Type} (p : userService σ) (id : Int) (patch x m : User) (s : σ)
    (hfind : (p.userRepo.FindByID id s).1 = (x, none))
    (hm : CopyNonEmptyFields x patch = some m)
    (hup : (p.userRepo.Update m (p.userRepo.FindByID id s).2).1 = (m, none)) :
    p.UpdateUser id patch s =
      some ((MapUserDTO m, 200, none), (p.userRepo.Update m (p.userRepo.FindByID id s).2).2) := by
  rcases hfs : p.userRepo.FindByID id s with ⟨⟨a, e⟩, s1⟩
  rw [hfs] at hfind hup
  simp only [Prod.mk.injEq] at hfind
  obtain ⟨rfl, rfl⟩ := hfind
  rcases hus : p.userRepo.Update m s1 with ⟨⟨b, e2⟩, s2⟩
  rw [hus] at hup
  simp only [Prod.mk.injEq] at hup
  obtain ⟨rfl, rfl⟩ := hup
  simp [userService.UpdateUser, hfs, hm, hus, StatusOK]

theorem UpdateUser_twice {σ : Type} (p : userService σ) (id : Int) (patch x : User) (s : σ)
    (hfind : (p.userRepo.FindByID id s).1 = (x, none))
    (hst : StoresUpdates p.userRepo.FindByID p.userRepo.Update id) :
    ∃ dto sA sB, p.UpdateUser id patch s = some ((dto, 200, none), sA) ∧
      p.UpdateUser id patch sA = some ((dto, 200, none), sB) := by
  obtain ⟨m, hm⟩ : ∃ m, CopyNonEmptyFields x patch = some m :=
    ⟨_, CopyNonEmptyFields_User x patch⟩
  have hm2 := CopyNonEmptyFields_User_twice x patch m hm
  have h1 := UpdateUser_run p id patch x m s hfind hm (hst m _).1
  have h2 := UpdateUser_run p id patch m m _ (hst m (p.userRepo.FindByID id s).2).2 hm2
    (hst m _).1
  exact ⟨_, _, _, h1, h2⟩

theorem CopyNonEmptyFields_Item_twice (x patch m : Item)
    (h : CopyNonEmptyFields x patch = some m) : CopyNonEmptyFields m patch = some m := by
  rw [CopyNonEmptyFields_Item] at h
  simp only [Option.some.injEq] at h
  subst h
  rw [CopyNonEmptyFields_Item]
  simp only [ite_absorb, ite_absorb_else]

/-- One run of `UpdateItem` against a repository whose `FindByID` and `Update` succeed. -/
theorem UpdateItem_run {σ : Type} (p : itemService σ) (id : Int) (patch x m : Item) (s : σ)
    (hfind : (p.ItemRepo.FindByID id s).1 = (x, none))
    (hm : CopyNonEmptyFields x patch = some m)
    (hup : (p.ItemRepo.Update m (p.ItemRepo.FindByID id s).2).1 = (m, none)) :
    p.UpdateItem id patch s =
      some ((MapItemDTO m, 200, none), (p.ItemRepo.Update m (p.ItemRepo.FindByID id s).2).2) := by
  rcases hfs : p.ItemRepo.FindByID id s with ⟨⟨a, e⟩, s1⟩
  rw [hfs] at hfind hup
  simp only [Prod.mk.injEq] at hfind
  obtain ⟨rfl, rfl⟩ := hfind
  rcases hus : p.ItemRepo.Update m s1 with ⟨⟨b, e2⟩, s2⟩
  rw [hus] at hup
  simp only [Prod.mk.injEq] at hup
  obtain ⟨rfl, rfl⟩ := hup
  simp [itemService.UpdateItem, hfs, hm, hus, StatusOK]

theorem UpdateItem_twice {σ : Type} (p : itemService σ) (id : Int) (patch x : Item) (s : σ)
    (hfind : (p.ItemRepo.FindByID id s).1 = (x, none))
    (hst : StoresUpdates p.ItemRepo.FindByID p.ItemRepo.Update id) :
    ∃ dto sA sB, p.UpdateItem id patch s = some ((dto, 200, none), sA) ∧
      p.UpdateItem id patch sA = some ((dto, 200, none), sB) := by
  obtain ⟨m, hm⟩ : ∃ m, CopyNonEmptyFields x patch = some m :=
    ⟨_, CopyNonEmptyFields_Item x patch⟩
  have hm2 := CopyNonEmptyFields_Item_twice x patch m hm
  have h1 := UpdateItem_run p id patch x m s hfind hm (hst m _).1
  have h2 := UpdateItem_run p id patch m m _ (hst m (p.ItemRepo.FindByID id s).2).2 hm2
    (hst m _).1
  exact ⟨_, _, _, h1, h2⟩

theorem CopyNonEmptyFields_Truck_twice (x patch m : Truck)
    (h : CopyNonEmptyFields x patch = some m) : CopyNonEmptyFields m patch = some m := by
  rw [CopyNonEmptyFields_Truck] at h
  simp only [Option.some.injEq] at h
  subst h
  rw [CopyNonEmptyFields_Truck]
  simp only [ite_absorb, ite_absorb_else]

/-- One run of `UpdateTruck` against a repository whose `FindByID` and `Update` succeed. -/
theorem UpdateTruck_run {σ : Type} (p : truckService σ) (id : Int) (patch x m : Truck) (s : σ)
    (hfind : (p.TruckRepo.FindByID id s).1 = (x, none))
    (hm : CopyNonEmptyFields x patch = some m)
    (hup : (p.TruckRepo.Update m (p.TruckRepo.FindByID id s).2).1 = (m, none)) :
    p.UpdateTruck id patch s =
      some ((MapTruckDTO m, 200, none), (p.TruckRepo.Update m (p.TruckRepo.FindByID id s).2).2) := by
  rcases hfs : p.TruckRepo.FindByID id s with ⟨⟨a, e⟩, s1⟩
  rw [hfs] at hfind hup
  simp only [Prod.mk.injEq] at hfind
  obtain ⟨rfl, rfl⟩ := hfind
  rcases hus : p.TruckRepo.Update m s1 with ⟨⟨b, e2⟩, s2⟩
  rw [hus] at hup
  simp only [Prod.mk.injEq] at hup
  obtain ⟨rfl, rfl⟩ := hup
  simp [truckService.UpdateTruck, hfs, hm, hus, StatusOK]

theorem UpdateTruck_twice {σ : Type} (p : truckService σ) (id : Int) (patch x : Truck) (s : σ)
    (hfind : (p.TruckRepo.FindByID id s).1 = (x, none))
    (hst : StoresUpdates p.TruckRepo.FindByID p.TruckRepo.Update id) :
    ∃ dto sA sB, p.UpdateTruck id patch s = some ((dto, 200, none), sA) ∧
      p.UpdateTruck id patch sA = some ((dto, 200, none), sB) := by
  obtain ⟨m, hm⟩ : ∃ m, CopyNonEmptyFields x patch = some m :=
    ⟨_, CopyNonEmptyFields_Truck x patch⟩
  have hm2 := CopyNonEmptyFields_Truck_twice x patch m hm
  have h1 := UpdateTruck_run p id patch x m s hfind hm (hst m _).1
  have h2 := UpdateTruck_run p id patch m m _ (hst m (p.TruckRepo.FindByID id s).2).2 hm2
    (hst m _).1
  exact ⟨_, _, _, h1, h2⟩

theorem CopyNonEmptyFields_Order_twice (x patch m : Order)
    (h : CopyNonEmptyFields x patch = some m) : CopyNonEmptyFields m patch = some m := by
  rw [CopyNonEmptyFields_Order] at h
  simp only [Option.some.injEq] at h
  subst h
  rw [CopyNonEmptyFields_Order]
  simp only [ite_absorb, ite_absorb_else]

/-- One run of `UpdateOrder` against a repository whose `FindByID` and `Update` succeed. -/
theorem UpdateOrder_run {σ : Type} (p : orderService σ) (id : Int) (patch x m : Order) (s : σ)
    (hfind : (p.OrderRepo.FindByID id s).1 = (x, none))
    (hm : CopyNonEmptyFields x patch = some m)
    (hup : (p.OrderRepo.Update m (p.OrderRepo.FindByID id s).2).1 = (m, none)) :
    p.UpdateOrder id patch s =
      some ((m, 200, none), (p.OrderRepo.Update m (p.OrderRepo.FindByID id s).2).2) := by
  rcases hfs : p.OrderRepo.FindByID id s with ⟨⟨a, e⟩, s1⟩
  rw [hfs] at hfind hup
  simp only [Prod.mk.injEq] at hfind
  obtain ⟨rfl, rfl⟩ := hfind
  rcases hus : p.OrderRepo.Update m s1 with ⟨⟨b, e2⟩, s2⟩
  rw [hus] at hup
  simp only [Prod.mk.injEq] at hup
  obtain ⟨rfl, rfl⟩ := hup
  simp [orderService.UpdateOrder, hfs, hm, hus, StatusOK]

theorem UpdateOrder_twice {σ : Type} (p : orderService σ) (id : Int) (patch x : Order) (s : σ)
    (hfind : (p.OrderRepo.FindByID id s).1 = (x, none))
    (hst : StoresUpdates p.OrderRepo.FindByID p.OrderRepo.Update id) :
    ∃ dto sA sB, p.UpdateOrder id patch s = some ((dto, 200, none), sA) ∧
      p.UpdateOrder id patch sA = some ((dto, 200, none), sB) := by
  obtain ⟨m, hm⟩ : ∃ m, CopyNonEmptyFields x patch = some m :=
    ⟨_, CopyNonEmptyFields_Order x patch⟩
  have hm2 := CopyNonEmptyFields_Order_twice x patch m hm
  have h1 := UpdateOrder_run p id patch x m s hfind hm (hst m _).1
  have h2 := UpdateOrder_run p id patch m m _ (hst m (p.OrderRepo.FindByID id s).2).2 hm2
    (hst m _).1
  exact ⟨_, _, _, h1, h2⟩

/-- One run of `UpdateRole` against a repository whose `FindByID` and `Update` succeed:
the result is the projection of the request body. -/
theorem UpdateRole_run {σ : Type} (p : roleService σ) (id : Int) (patch x : Role) (s : σ)
    (hfind : (p.roleRepo.FindByID id s).1 = (x, none))
    (hup : (p.roleRepo.Update patch (p.roleRepo.FindByID id s).2).1 = (patch, none)) :
    p.UpdateRole id patch s =
      some ((MapRoleDTO patch, 200, none),
        (p.roleRepo.Update patch (p.roleRepo.FindByID id s).2).2) := by
  rcases hfs : p.roleRepo.FindByID id s with ⟨⟨a, e⟩, s1⟩
  rw [hfs] at hfind hup
  simp only [Prod.mk.injEq] at hfind
  obtain ⟨rfl, rfl⟩ := hfind
  rcases hus : p.roleRepo.Update patch s1 with ⟨⟨b, e2⟩, s2⟩
  rw [hus] at hup
  simp only [Prod.mk.injEq] at hup
  obtain ⟨rfl, rfl⟩ := hup
  simp [roleService.UpdateRole, hfs, CopyNonEmptyFields_Role, hus, StatusOK]

theorem UpdateRole_twice {σ : Type} (p : roleService σ) (id : Int) (patch x : Role) (s : σ)
    (hfind : (p.roleRepo.FindByID id s).1 = (x, none))
    (hst : StoresUpdates p.roleRepo.FindByID p.roleRepo.Update id) :
    ∃ dto sA sB, p.UpdateRole id patch s = some ((dto, 200, none), sA) ∧
      p.UpdateRole id patch sA = some ((dto, 200, none), sB) := by
  have h1 := UpdateRole_run p id patch x s hfind (hst patch _).1
  have h2 := UpdateRole_run p id patch patch _ (hst patch (p.roleRepo.FindByID id s).2).2
    (hst patch _).1
  exact ⟨_, _, _, h1, h2⟩

/-- C17. For each of the five services and every patch `P`: against a repository whose
`FindByID` finds a record, and whose `Update` stores the record it is given and returns it
from the next `FindByID`, `Update(id, P)` followed by `Update(id, P)` returns status 200
and the same DTO both times (for orders, the same order). -/
theorem Update_twice_same_DTO {σ₁ σ₂ σ₃ σ₄ σ₅ : Type} (u : userService σ₁)
    (r : roleService σ₂) (i : itemService σ₃) (t : truckService σ₄) (o : orderService σ₅)
    (id : Int) :
    (∀ (P x : User) s, (u.userRepo.FindByID id s).1 = (x, none) →
      StoresUpdates u.userRepo.FindByID u.userRepo.Update id →
      ∃ dto sA sB, u.UpdateUser id P s = some ((dto, 200, none), sA) ∧
        u.UpdateUser id P sA = some ((dto, 200, none), sB)) ∧
    (∀ (P x : Role) s, (r.roleRepo.FindByID id s).1 = (x, none) →
      StoresUpdates r.roleRepo.FindByID r.roleRepo.Update id →
      ∃ dto sA sB, r.UpdateRole id P s = some ((dto, 200, none), sA) ∧
        r.UpdateRole id P sA = some ((dto, 200, none), sB)) ∧
    (∀ (P x : Item) s, (i.ItemRepo.FindByID id s).1 = (x, none) →
      StoresUpdates i.ItemRepo.FindByID i.ItemRepo.Update id →
      ∃ dto sA sB, i.UpdateItem id P s = some ((dto, 200, none), sA) ∧
        i.UpdateItem id P sA = some ((dto, 200, none), sB)) ∧
    (∀ (P x : Truck) s, (t.TruckRepo.FindByID id s).1 = (x, none) →
      StoresUpdates t.TruckRepo.FindByID t.TruckRepo.Update id →
      ∃ dto sA sB, t.UpdateTruck id P s = some ((dto, 200, none), sA) ∧
        t.UpdateTruck id P sA = some ((dto, 200, none), sB)) ∧
    (∀ (P x : Order) s, (o.OrderRepo.FindByID id s).1 = (x, none) →
      StoresUpdates o.OrderRepo.FindByID o.OrderRepo.Update id →
      ∃ dto sA sB, o.UpdateOrder id P s = some ((dto, 200, none), sA) ∧
        o.UpdateOrder id P sA = some ((dto, 200, none), sB)) :=
  ⟨fun P x s hf hs => UpdateUser_twice u id P x s hf hs,
   fun P x s hf hs => UpdateRole_twice r id P x s hf hs,
   fun P x s hf hs => UpdateItem_twice i id P x s hf hs,
   fun P x s hf hs => UpdateTruck_twice t id P x s hf hs,
   fun P x s hf hs => UpdateOrder_twice o id P x s hf hs⟩

/-- C17 on the repository that is one stored record, item 1, with the patch
`{"price": 12.5}` (the bit pattern of 12.5), and on the role repository of the same kind
with the patch `{"name": "Boss"}`. -/
theorem Update_twice_same_DTO_witness :
    (∃ dto sA sB,
      itemService.UpdateItem ⟨cellItemRepo⟩ 1 { Item.zero with Price := 4623226492472524800 }
          sampleItem = some ((dto, 200, none), sA) ∧
        itemService.UpdateItem ⟨cellItemRepo⟩ 1
          { Item.zero with Price := 4623226492472524800 } sA = some ((dto, 200, none), sB)) ∧
    (∃ dto sA sB,
      roleService.UpdateRole ⟨cellRoleRepo⟩ 1 { Role.zero with Name := "Boss" } sampleRole
          = some ((dto, 200, none), sA) ∧
        roleService.UpdateRole ⟨cellRoleRepo⟩ 1 { Role.zero with Name := "Boss" } sA
          = some ((dto, 200, none), sB)) :=
  ⟨(Update_twice_same_DTO (⟨stubUserRepo sampleUser, stubRoleRepo sampleRole⟩ : userService Unit)
      (⟨cellRoleRepo⟩ : roleService Role) (⟨cellItemRepo⟩ : itemService Item)
      (⟨cellRepo⟩ : truckService Truck) (⟨cellRepo⟩ : orderService Order) 1).2.2.1
      _ sampleItem sampleItem rfl (fun _ _ => ⟨rfl, rfl⟩),
   (Update_twice_same_DTO (⟨stubUserRepo sampleUser, stubRoleRepo sampleRole⟩ : userService Unit)
      (⟨cellRoleRepo⟩ : roleService Role) (⟨cellItemRepo⟩ : itemService Item)
      (⟨cellRepo⟩ : truckService Truck) (⟨cellRepo⟩ : orderService Order) 1).2.1
      _ sampleRole sampleRole rfl (fun _ _ => ⟨rfl, rfl⟩)⟩

/-! ## Token validation -/

theorem GetClaimsFromToken_of_error (lib : JWTLib) (env : Env) (now : Instant) (tok : String)
    (err : Error) (h : (ValidateToken lib env now tok).2 = some err) :
    GetClaimsFromToken lib env now tok = (none, some err) := by
  rcases hv : ValidateToken lib env now tok with ⟨t, e⟩
  rw [hv] at h
  simp only at h
  subst h
  simp [GetClaimsFromToken, hv]

theorem MapClaims_Valid_expired (codec : JWTCodec) (claims : MapClaims) (now : Int)
    (bits : Nat) (hget : claims.get "exp" = some (.float bits))
    (hne : codec.Int64 bits ≠ 0) (hlt : codec.Int64 bits < now) :
    ∃ err, claims.Valid codec now = some err := by
  have h1 : claims.VerifyExpiresAt codec now false = false := by
    simp only [MapClaims.VerifyExpiresAt, hget, verifyExp, hne, if_false]
    simp only [decide_eq_false_iff_not, not_le]
    exact hlt
  simp only [MapClaims.Valid, h1, if_true]
  split
  · exact ⟨_, rfl⟩
  · split
    · exact ⟨_, rfl⟩
    · exact ⟨_, rfl⟩

/-- Whatever the key function, `Parse` returns an error for a token string whose `exp`,
as validation reads it, is not 0 and lies before the clock reading. -/
theorem Parse_expired (codec : JWTCodec) (keyFunc : Token → Option String × Option Error)
    (now : Instant) (tok : String) (e : Int) (hexp : expOf codec tok = some e) (hne : e ≠ 0)
    (hlt : e < now.Unix) : ∃ err, (Parse codec tok keyFunc now).2 = some err := by
  unfold expOf at hexp
  unfold Parse
  rcases hs : Split tok '.' with _ | ⟨p0, _ | ⟨p1, _ | ⟨p2, _ | ⟨p3, rest⟩⟩⟩⟩
  · simp [hs] at hexp
  · simp [hs] at hexp
  · simp [hs] at hexp
  · rw [hs] at hexp
    simp only at hexp ⊢
    rcases hc : codec.DecodeClaims p1 with ⟨claims, _ | cerr⟩
    · rw [hc] at hexp
      simp only at hexp
      rcases hh : codec.DecodeHeader p0 with ⟨header, _ | herr⟩
      · simp only
        cases header with
        | none => exact ⟨_, rfl⟩
        | some alg =>
          simp only
          cases hm : GetSigningMethod alg with
          | none => exact ⟨_, rfl⟩
          | some method =>
            simp only
            split
            · exact ⟨_, rfl⟩
            · cases hg : claims.get "exp" with
              | none => simp [hg] at hexp
              | some v =>
                cases v with
                | float bits =>
                  rw [hg] at hexp
                  simp only [Option.some.injEq] at hexp
                  subst hexp
                  obtain ⟨verr, hverr⟩ :=
                    MapClaims_Valid_expired codec claims now.Unix bits hg hne hlt
                  rw [hverr]
                  cases codec.Verify method (p0 ++ "." ++ p1) p2 _ with
                  | none => exact ⟨_, rfl⟩
                  | some serr => exact ⟨_, rfl⟩
                | int i => simp [hg] at hexp
                | uint n => simp [hg] at hexp
                | str s => simp [hg] at hexp
      · exact ⟨_, rfl⟩
    · simp [hc] at hexp
  · simp [hs] at hexp

/-- C11 as stated fails. A token whose `exp` is 100 validates without error, and
`GetClaimsFromToken` returns its claims, at a clock reading of 100 s (and 5 ns): `exp = now`
is accepted, the library's check being `now <= exp`. One second later it is refused. -/
theorem ValidateToken_accepts_exp_eq_now :
    expOf toyCodec "HS256.100.secret" = some 100 ∧
    Instant.Unix ⟨100000000005⟩ = 100 ∧
    ValidateToken (jwtGo toyCodec) toyEnv ⟨100000000005⟩ "HS256.100.secret" =
      ({ Raw := "HS256.100.secret", Method := .HMAC "HS256",
         Claims := .mapClaims [("exp", .float 100), ("iat", .float 100)],
         Signature := "secret", Valid := true }, none) ∧
    GetClaimsFromToken (jwtGo toyCodec) toyEnv ⟨100000000005⟩ "HS256.100.secret" =
      (some [("exp", .float 100), ("iat", .float 100)], none) ∧
    (ValidateToken (jwtGo toyCodec) toyEnv ⟨101000000005⟩ "HS256.100.secret").2 =
      some "Token is expired" := by
  decide

/-- C11, amended. For every token string and every validation instant `now`: when the
token's `exp` claim, as validation reads it, is not 0 and is less than `now` in epoch
seconds, `ValidateToken` returns an error and `GetClaimsFromToken` returns nil claims with
that error. (A token with `exp = now` passes the check `now <= exp`, and an `exp` of 0
counts as absent.) -/
theorem ValidateToken_rejects_expired (codec : JWTCodec) (env : Env) (now : Instant)
    (tok : String) (e : Int) (hexp : expOf codec tok = some e) (hne : e ≠ 0)
    (hlt : e < now.Unix) :
    ∃ err, (ValidateToken (jwtGo codec) env now tok).2 = some err ∧
      GetClaimsFromToken (jwtGo codec) env now tok = (none, some err) := by
  obtain ⟨err, herr⟩ := Parse_expired codec (ValidateTokenKeyfunc env) now tok e hexp hne hlt
  have hv : (ValidateToken (jwtGo codec) env now tok).2 = some err := herr
  exact ⟨err, hv, GetClaimsFromToken_of_error _ env now tok err hv⟩

/-- C11, amended, at the token with `exp = 100` validated at 101 s. -/
theorem ValidateToken_rejects_expired_witness :
    ∃ err, (ValidateToken (jwtGo toyCodec) toyEnv ⟨101000000005⟩ "HS256.100.secret").2
        = some err ∧
      GetClaimsFromToken (jwtGo toyCodec) toyEnv ⟨101000000005⟩ "HS256.100.secret"
        = (none, some err) :=
  ValidateToken_rejects_expired toyCodec toyEnv ⟨101000000005⟩ "HS256.100.secret" 100
    (by decide) (by decide) (by decide)

theorem GetSigningMethod_other (alg a : String) (h : GetSigningMethod alg = some (.other a)) :
    a = alg := by
  unfold GetSigningMethod at h
  split at h
  · simp at h
  · split at h
    · simpa using h.symm
    · simp at h

theorem GetSigningMethod_HMAC (alg a : String) (h : GetSigningMethod alg = some (.HMAC a)) :
    a = alg ∧ (alg = "HS256" ∨ alg = "HS384" ∨ alg = "HS512") := by
  unfold GetSigningMethod at h
  split at h
  · rename_i hc
    exact ⟨by simpa using h.symm, hc⟩
  · split at h
    · simp at h
    · simp at h

/-- A token string whose header names a registered method that is not an HMAC method is
refused by `Parse` under the key function of `ValidateToken`. -/
theorem Parse_non_HMAC (codec : JWTCodec) (env : Env) (now : Instant) (tok p0 p1 p2 : String)
    (alg : String) (hs : Split tok '.' = [p0, p1, p2])
    (hh : codec.DecodeHeader p0 = (some alg, none))
    (hm : GetSigningMethod alg = some (.other alg)) :
    ∃ err, (Parse codec tok (ValidateTokenKeyfunc env) now).2 = some err := by
  unfold Parse
  simp only [hs, hh]
  rcases hc : codec.DecodeClaims p1 with ⟨claims, _ | cerr⟩
  · simp only [hm, ValidateTokenKeyfunc]
    exact ⟨_, rfl⟩
  · exact ⟨_, rfl⟩

/-- A token `Parse` accepts under the key function of `ValidateToken` has an HMAC
method. -/
theorem Parse_ok_HMAC (codec : JWTCodec) (env : Env) (now : Instant) (tok : String)
    (h : (Parse codec tok (ValidateTokenKeyfunc env) now).2 = none) :
    ∃ alg, (Parse codec tok (ValidateTokenKeyfunc env) now).1.Method = .HMAC alg ∧
      (alg = "HS256" ∨ alg = "HS384" ∨ alg = "HS512") := by
  unfold Parse at h ⊢
  rcases hs : Split tok '.' with _ | ⟨p0, _ | ⟨p1, _ | ⟨p2, _ | ⟨p3, rest⟩⟩⟩⟩
  · simp [hs] at h
  · simp [hs] at h
  · simp [hs] at h
  · rw [hs] at h
    simp only at h ⊢
    rcases hh : codec.DecodeHeader p0 with ⟨header, _ | herr⟩
    · rw [hh] at h
      simp only at h ⊢
      rcases hc : codec.DecodeClaims p1 with ⟨claims, _ | cerr⟩
      · rw [hc] at h
        simp only at h ⊢
        cases header with
        | none => simp at h
        | some alg =>
          simp only at h ⊢
          cases hm : GetSigningMethod alg with
          | none => simp [hm] at h
          | some method =>
            rw [hm] at h
            simp only at h ⊢
            cases method with
            | other a => simp [ValidateTokenKeyfunc] at h
            | HMAC a =>
              obtain ⟨rfl, halg⟩ := GetSigningMethod_HMAC alg a hm
              simp only [ValidateTokenKeyfunc] at h ⊢
              refine ⟨a, ?_, halg⟩
              split <;> rfl
      · simp [hc] at h
    · simp [hh] at h
  · simp [hs] at h

/-- C12. The key function of `ValidateToken` answers a token whose method is not an HMAC
method with no key and the error `unexpected signing method: <alg>`; the secret is in
neither. `none` and the asymmetric algorithms are such methods. Hence a token string whose
header names one of them makes `ValidateToken` return an error and `GetClaimsFromToken`
return nil claims with that error; and whenever `ValidateToken` returns no error the
token's method is HS256, HS384 or HS512. -/
theorem ValidateToken_rejects_non_HMAC (codec : JWTCodec) (env : Env) (now : Instant) :
    (∀ (token : Token) (alg : String), token.Method = .other alg →
      ValidateTokenKeyfunc env token = (none, some ("unexpected signing method: " ++ alg))) ∧
    (GetSigningMethod "none" = some (.other "none") ∧
      GetSigningMethod "RS256" = some (.other "RS256") ∧
      GetSigningMethod "PS256" = some (.other "PS256") ∧
      GetSigningMethod "ES256" = some (.other "ES256")) ∧
    (∀ (tok p0 p1 p2 alg : String), Split tok '.' = [p0, p1, p2] →
      codec.DecodeHeader p0 = (some alg, none) → GetSigningMethod alg = some (.other alg) →
      ∃ err, (ValidateToken (jwtGo codec) env now tok).2 = some err ∧
        GetClaimsFromToken (jwtGo codec) env now tok = (none, some err)) ∧
    (∀ tok : String, (ValidateToken (jwtGo codec) env now tok).2 = none →
      ∃ alg, (ValidateToken (jwtGo codec) env now tok).1.Method = .HMAC alg ∧
        (alg = "HS256" ∨ alg = "HS384" ∨ alg = "HS512")) := by
  refine ⟨?_, by decide, ?_, ?_⟩
  · intro token alg h
    simp [ValidateTokenKeyfunc, h]
  · intro tok p0 p1 p2 alg hs hh hm
    obtain ⟨err, herr⟩ := Parse_non_HMAC codec env now tok p0 p1 p2 alg hs hh hm
    have hv : (ValidateToken (jwtGo codec) env now tok).2 = some err := herr
    exact ⟨err, hv, GetClaimsFromToken_of_error _ env now tok err hv⟩
  · intro tok h
    exact Parse_ok_HMAC codec env now tok h

/-- C12 at the token strings `none.100.` and `RS256.100.secret`: both are refused with the
error of the key function, and no claims come out. -/
theorem ValidateToken_rejects_non_HMAC_witness :
    (∃ err, (ValidateToken (jwtGo toyCodec) toyEnv ⟨50000000000⟩ "none.100.").2 = some err ∧
      GetClaimsFromToken (jwtGo toyCodec) toyEnv ⟨50000000000⟩ "none.100." = (none, some err)) ∧
    (∃ err, (ValidateToken (jwtGo toyCodec) toyEnv ⟨50000000000⟩ "RS256.100.secret").2
        = some err ∧
      GetClaimsFromToken (jwtGo toyCodec) toyEnv ⟨50000000000⟩ "RS256.100.secret"
        = (none, some err)) ∧
    (ValidateToken (jwtGo toyCodec) toyEnv ⟨50000000000⟩ "none.100.").2
      = some "unexpected signing method: none" :=
  ⟨(ValidateToken_rejects_non_HMAC toyCodec toyEnv ⟨50000000000⟩).2.2.1
      "none.100." "none" "100" "" "none" (by decide) rfl (by decide),
   (ValidateToken_rejects_non_HMAC toyCodec toyEnv ⟨50000000000⟩).2.2.1
      "RS256.100.secret" "RS256" "100" "secret" "RS256" (by decide) rfl (by decide),
   by decide⟩

/-! ## Password hashing -/

/-- C13, counterexample. With a bcrypt that refuses passwords of more than 72 bytes (as
`golang.org/x/crypto/bcrypt` does since v0.4.0), `GetHashPassword` and `HashPassword`
fail (panic) on a password of 73 bytes, so there is no hash to compare with. The same
library hashes the password `password` of the tests. -/
theorem HashPassword_fails_on_long_password :
    password73.utf8ByteSize = 73 ∧
    GetHashPassword longRefusingBcrypt "salt" password73 = none ∧
    HashPassword longRefusingBcrypt "salt" password73 = none ∧
    GetHashPassword longRefusingBcrypt "salt" "password" = some "$2a$password" := by
  decide

/-- C13, amended. `GetHashPassword` and `HashPassword` fail (panic) exactly when
`bcrypt.GenerateFromPassword` returns an error for the password; when it returns a hash
`hp` without error, both produce `hp`, and `ComparePassword hp p` is true provided the
library accepts `hp` for `p`. -/
theorem HashPassword_then_ComparePassword (bc : BcryptLib) (rand p : String) :
    (∀ hp, bc.GenerateFromPassword rand p DefaultCost = (hp, none) →
      GetHashPassword bc rand p = some hp ∧ HashPassword bc rand p = some hp ∧
      (bc.CompareHashAndPassword hp p = none → ComparePassword bc hp p = true)) ∧
    (∀ hp err, bc.GenerateFromPassword rand p DefaultCost = (hp, some err) →
      GetHashPassword bc rand p = none ∧ HashPassword bc rand p = none) ∧
    (∀ hp, (GetHashPassword bc rand p = some hp ∨ HashPassword bc rand p = some hp) →
      bc.GenerateFromPassword rand p DefaultCost = (hp, none)) := by
  refine ⟨?_, ?_, ?_⟩
  · intro hp h
    refine ⟨by simp [GetHashPassword, h], by simp [HashPassword, h], ?_⟩
    intro hc
    simp [ComparePassword, hc]
  · intro hp err h
    exact ⟨by simp [GetHashPassword, h], by simp [HashPassword, h]⟩
  · intro hp h
    rcases hg : bc.GenerateFromPassword rand p DefaultCost with ⟨x, _ | e⟩
    · simp [GetHashPassword, HashPassword, hg] at h
      rw [h]
    · simp [GetHashPassword, HashPassword, hg] at h

/-! ## Paginated listing -/

theorem wrapInt64_of_IsGoInt (x : Int) (h : IsGoInt x) : wrapInt64 x = x := by
  unfold IsGoInt at h
  unfold wrapInt64
  have h1 : (x + 2 ^ 63) % 2 ^ 64 = x + 2 ^ 63 :=
    Int.emod_eq_of_lt (by omega) (by omega)
  omega

/-- The offset `FindAll` computes is `(k - 1) * n` as long as that product is a Go `int`. -/
theorem offset_in_range (k n : Int) (hk : 0 < k) (hk2 : IsGoInt k)
    (h : IsGoInt ((k - 1) * n)) : mulInt (subInt k 1) n = (k - 1) * n := by
  have h1 : subInt k 1 = k - 1 := by
    unfold subInt
    apply wrapInt64_of_IsGoInt
    unfold IsGoInt at hk2 ⊢
    omega
  rw [h1]
  exact wrapInt64_of_IsGoInt _ h

theorem mulInt_farPage : mulInt (subInt farPage.Page 1) farPage.Limit = 0 := by
  decide

theorem Statement_select_unpaged {E : Type} (rows : List E) (pre : List String) :
    Statement.select ⟨none, none, pre⟩ rows = rows := by
  simp [Statement.select]

theorem Statement_select_paged {E : Type} (rows : List E) (o n : Int) (pre : List String)
    (ho : 0 ≤ o) (hn : 0 < n) :
    Statement.select ⟨some o, some n, pre⟩ rows = (rows.drop o.toNat).take n.toNat := by
  simp only [Statement.select, hn, if_true]
  by_cases h : o > 0
  · simp [h]
  · have : o = 0 := by omega
    subst this
    simp

/-- With page 0 or limit 0 the statement of each `FindAll` has neither offset nor limit,
and on a table the full set comes back. -/
theorem FindAll_unpaged (pg : Pagination) (h : pg.Page = 0 ∨ pg.Limit = 0) :
    (∀ rows : List User, userRepo.FindAll ⟨tableDB User⟩ pg rows = ((some rows, none), rows)) ∧
    (∀ rows : List Item, itemRepo.FindAll ⟨tableDB Item⟩ pg rows = ((some rows, none), rows)) ∧
    (∀ rows : List Truck,
      truckRepo.FindAll ⟨tableDB Truck⟩ pg rows = ((some rows, none), rows)) ∧
    (∀ rows : List Order,
      orderRepo.FindAll ⟨tableDB Order⟩ pg rows = ((some rows, none), rows)) := by
  have h2 : pg.Limit = 0 ∨ pg.Page = 0 := h.symm
  refine ⟨?_, ?_, ?_, ?_⟩ <;> intro rows
  · simp [userRepo.FindAll, h2, tableDB, Statement.select]
  · simp [itemRepo.FindAll, h2, tableDB, Statement.select]
  · simp [truckRepo.FindAll, h2, tableDB, Statement.select]
  · simp [orderRepo.FindAll, h2, tableDB, Statement.select, Statement.Preload]

/-- With page `k > 0` and limit `n > 0` whose offset `(k - 1) * n` is a Go `int`, each
`FindAll` on a table skips the first `(k - 1) * n` rows and returns at most `n`. -/
theorem FindAll_paged (k n : Int) (hk : 0 < k) (hn : 0 < n) (hk2 : IsGoInt k)
    (h : IsGoInt ((k - 1) * n)) :
    (∀ rows : List User, userRepo.FindAll ⟨tableDB User⟩ ⟨k, n⟩ rows
      = ((some ((rows.drop ((k - 1) * n).toNat).take n.toNat), none), rows)) ∧
    (∀ rows : List Item, itemRepo.FindAll ⟨tableDB Item⟩ ⟨k, n⟩ rows
      = ((some ((rows.drop ((k - 1) * n).toNat).take n.toNat), none), rows)) ∧
    (∀ rows : List Truck, truckRepo.FindAll ⟨tableDB Truck⟩ ⟨k, n⟩ rows
      = ((some ((rows.drop ((k - 1) * n).toNat).take n.toNat), none), rows)) ∧
    (∀ rows : List Order, orderRepo.FindAll ⟨tableDB Order⟩ ⟨k, n⟩ rows
      = ((some ((rows.drop ((k - 1) * n).toNat).take n.toNat), none), rows)) := by
  have hoff := offset_in_range k n hk hk2 h
  have hpos : 0 ≤ (k - 1) * n := Int.mul_nonneg (by omega) (by omega)
  have hc : ¬ (n = 0 ∨ k = 0) := by omega
  refine ⟨?_, ?_, ?_, ?_⟩ <;> intro rows
  · simp only [userRepo.FindAll, hc, if_false, tableDB, hoff, Statement.Offset,
      Statement.Limit]
    rw [Statement_select_paged rows _ _ _ hpos hn]
  · simp only [itemRepo.FindAll, hc, if_false, tableDB, hoff, Statement.Offset,
      Statement.Limit]
    rw [Statement_select_paged rows _ _ _ hpos hn]
  · simp only [truckRepo.FindAll, hc, if_false, tableDB, hoff, Statement.Offset,
      Statement.Limit]
    rw [Statement_select_paged rows _ _ _ hpos hn]
  · simp only [orderRepo.FindAll, hc, if_false, tableDB, hoff, Statement.Offset,
      Statement.Limit, Statement.Preload]
    rw [Statement_select_paged rows _ _ _ hpos hn]

/-- C18, at the pagination page `2^62 + 1`, limit 4. The offset `(page - 1) * limit` is
`2^64`, which a Go `int` holds as 0: for every database, each `FindAll` does what it does
for page 1 (offset 0, limit 4); on a table of six items the first four come back, where
skipping `2^64` rows leaves none. -/
theorem FindAll_offset_wraps :
    (farPage.Page - 1) * farPage.Limit = 2 ^ 64 ∧
    mulInt (subInt farPage.Page 1) farPage.Limit = 0 ∧
    (∀ (σ : Type) (db : GormDB User σ) (s : σ),
      userRepo.FindAll ⟨db⟩ farPage s = userRepo.FindAll ⟨db⟩ ⟨1, 4⟩ s) ∧
    (∀ (σ : Type) (db : GormDB Item σ) (s : σ),
      itemRepo.FindAll ⟨db⟩ farPage s = itemRepo.FindAll ⟨db⟩ ⟨1, 4⟩ s) ∧
    (∀ (σ : Type) (db : GormDB Truck σ) (s : σ),
      truckRepo.FindAll ⟨db⟩ farPage s = truckRepo.FindAll ⟨db⟩ ⟨1, 4⟩ s) ∧
    (∀ (σ : Type) (db : GormDB Order σ) (s : σ),
      orderRepo.FindAll ⟨db⟩ farPage s = orderRepo.FindAll ⟨db⟩ ⟨1, 4⟩ s) ∧
    (itemRepo.FindAll ⟨tableDB Item⟩ farPage sixItems).1
      = (some [itemNo 1, itemNo 2, itemNo 3, itemNo 4], none) ∧
    (sixItems.drop (2 ^ 64)).take 4 = [] := by
  have h0 : mulInt (subInt farPage.Page 1) farPage.Limit = 0 := by decide
  have h0a : mulInt (subInt 4611686018427387905 1) 4 = 0 := by decide
  have h1 : mulInt (subInt 1 1) 4 = 0 := by decide
  refine ⟨by decide, h0, ?_, ?_, ?_, ?_, ?_, ?_⟩
  · intro σ db s
    simp [userRepo.FindAll, farPage, h0a, h1]
  · intro σ db s
    simp [itemRepo.FindAll, farPage, h0a, h1]
  · intro σ db s
    simp [truckRepo.FindAll, farPage, h0a, h1]
  · intro σ db s
    simp [orderRepo.FindAll, farPage, h0a, h1]
  · simp only [itemRepo.FindAll, farPage, h0a]
    rfl
  · simp [sixItems]

/-! ## Number parsing -/

theorem ParseUint_loop_ok (cs : List Char) :
    ∀ n, (ParseUint.loop cs n).2 = none → cs.all isDecimalDigit = true := by
  induction cs with
  | nil => intro n _; rfl
  | cons c cs ih =>
    intro n h
    unfold ParseUint.loop at h
    by_cases hd : isDecimalDigit c = true
    · simp only [hd, if_true] at h
      split at h
      · simp at h
      · split at h
        · simp at h
        · simp [List.all_cons, hd, ih _ h]
    · simp [hd] at h

theorem ParseUint_loop_range (cs : List Char) :
    ∀ n, (ParseUint.loop cs n).2 = some .range →
      (ParseUint.loop cs n).1 = 18446744073709551615 := by
  induction cs with
  | nil => intro n h; simp [ParseUint.loop] at h
  | cons c cs ih =>
    intro n h
    unfold ParseUint.loop at h ⊢
    by_cases hd : isDecimalDigit c = true
    · simp only [hd, if_true] at h ⊢
      split
      · rfl
      · rename_i h1
        simp only [h1, if_false] at h
        split
        · rfl
        · rename_i h2
          simp only [h2, if_false] at h
          exact ih _ h
    · simp [hd] at h

theorem ParseUint_loop_digits (cs : List Char) (hall : cs.all isDecimalDigit = true) :
    ∀ n, (ParseUint.loop cs n).2 ≠ some .invalid := by
  induction cs with
  | nil => intro n; simp [ParseUint.loop]
  | cons c cs ih =>
    intro n
    simp only [List.all_cons, Bool.and_eq_true] at hall
    unfold ParseUint.loop
    simp only [hall.1, if_true]
    split
    · simp
    · split
      · simp
      · exact ih hall.2 _

theorem ParseUint_ok (cs : List Char) (h : (ParseUint cs).2 = none) :
    cs ≠ [] ∧ cs.all isDecimalDigit = true := by
  cases cs with
  | nil => simp [ParseUint] at h
  | cons c cs => exact ⟨by simp, ParseUint_loop_ok _ 0 (by simpa [ParseUint] using h)⟩

theorem ParseUint_range (cs : List Char) (h : (ParseUint cs).2 = some .range) :
    (ParseUint cs).1 = 18446744073709551615 := by
  cases cs with
  | nil => simp [ParseUint] at h
  | cons c cs =>
    simp only [ParseUint] at h ⊢
    exact ParseUint_loop_range _ 0 h

theorem ParseUint_digits (cs : List Char) (hne : cs ≠ [])
    (hall : cs.all isDecimalDigit = true) : (ParseUint cs).2 ≠ some .invalid := by
  cases cs with
  | nil => exact absurd rfl hne
  | cons c cs =>
    simp only [ParseUint]
    exact ParseUint_loop_digits _ hall 0

/-- The text `ParseInt` accepts is a decimal integer. -/
theorem ParseInt_ok_decimal (s : String) (h : (ParseInt s).2 = none) :
    IsDecimalInteger s = true := by
  unfold ParseInt at h
  unfold IsDecimalInteger
  simp only [String.toList] at h ⊢
  cases hs : s.data with
  | nil => simp [hs] at h
  | cons c cs =>
    rw [hs] at h
    simp only at h ⊢
    rcases hp : ParseUint (if c = '+' ∨ c = '-' then cs else c :: cs) with ⟨un, _ | e⟩
    · have hok := ParseUint_ok _ (by rw [hp])
      by_cases hsign : c = '+' ∨ c = '-'
      · simp only [hsign, if_true] at hok ⊢
        cases cs with
        | nil => exact absurd rfl hok.1
        | cons d ds => simpa using hok.2
      · simp only [hsign, if_false] at hok ⊢
        exact hok.2
    · cases e with
      | invalid => simp [hp] at h
      | range =>
        have hr := ParseUint_range _ (by rw [hp])
        rw [hp] at hr h
        simp only at hr
        subst hr
        simp only at h
        by_cases hneg : c = '-'
        · simp [hneg] at h
        · simp [hneg] at h

/-- On a decimal integer `ParseInt` finds no syntax error (it may find the value out of
range). -/
theorem ParseInt_decimal (s : String) (h : IsDecimalInteger s = true) :
    (ParseInt s).2 ≠ some .invalid := by
  unfold IsDecimalInteger at h
  unfold ParseInt
  simp only [String.toList] at h ⊢
  cases hs : s.data with
  | nil => simp [hs] at h
  | cons c cs =>
    rw [hs] at h
    simp only at h ⊢
    have hd : (ParseUint (if c = '+' ∨ c = '-' then cs else c :: cs)).2 ≠ some .invalid := by
      by_cases hsign : c = '+' ∨ c = '-'
      · simp only [hsign, if_true] at h ⊢
        simp only [Bool.and_eq_true, Bool.not_eq_true', List.isEmpty_eq_false] at h
        exact ParseUint_digits _ (by simpa using h.1) h.2
      · simp only [hsign, if_false] at h ⊢
        exact ParseUint_digits _ (by simp) h
    rcases hp : ParseUint (if c = '+' ∨ c = '-' then cs else c :: cs) with ⟨un, _ | e⟩
    · simp only
      split <;> [simp; (split <;> simp)]
    · cases e with
      | invalid => rw [hp] at hd; exact absurd rfl hd
      | range =>
        simp only
        split <;> [simp; (split <;> simp)]

/-- `Atoi` fails on every text that is not a decimal integer. -/
theorem Atoi_not_decimal (libs : HandlerLibs) (s : String) (h : IsDecimalInteger s = false) :
    ∃ msg, (Atoi libs s).2 = some msg := by
  unfold Atoi
  rcases hp : ParseInt s with ⟨i, _ | e⟩
  · have := ParseInt_ok_decimal s (by rw [hp])
    rw [this] at h
    exact absurd h (by simp)
  · exact ⟨_, rfl⟩

/-! ## Handlers: path identifiers and pagination -/

theorem JSON_written (ctx : Context) (code : Int) (obj : Body) (w : Int × Body)
    (hw : w ∈ (ctx.JSON code obj).Written) : w ∈ ctx.Written ∨ w.1 = code := by
  simp only [Context.JSON, List.mem_append, List.mem_singleton] at hw
  rcases hw with hw | hw
  · exact Or.inl hw
  · exact Or.inr (by rw [hw])

theorem FailedResponse_written (ctx : Context) (status : Int) (message : String)
    (data : Option Data) (w : Int × Body)
    (hw : w ∈ (FailedResponse ctx status message data).Written) :
    w ∈ ctx.Written ∨ w.1 = status := by
  unfold FailedResponse at hw
  split_ifs at hw
  all_goals first
    | exact JSON_written _ _ _ _ hw
    | exact Or.inl hw

theorem SuccessResponse_written (ctx : Context) (data : Data) (w : Int × Body)
    (hw : w ∈ (SuccessResponse ctx data).Written) : w ∈ ctx.Written ∨ w.1 = 200 := by
  unfold SuccessResponse at hw
  exact JSON_written _ _ _ _ hw

theorem FailedResponse_400 (ctx : Context) (message : String) (data : Option Data) :
    FailedResponse ctx StatusBadRequest message data
      = ctx.JSON 400 (.envelope ⟨400, message, data⟩) := by
  simp [FailedResponse, StatusBadRequest]

/-- C20. For a path parameter `id` that is not a decimal integer, each of the fifteen
handlers that take an id (Get, Update and Delete of users, roles, items, trucks and orders)
answers, whatever its service is, with the one response 400 that carries the error text
of `strconv.Atoi` (in the envelope for users, roles and trucks; as `error` entry for items
and orders) and leaves the store as it was: the service is not called. -/
theorem handlers_reject_non_decimal_id (libs : HandlerLibs) (ctx : Context)
    (h : IsDecimalInteger (ctx.Param "id") = false) :
    ∃ msg, (Atoi libs (ctx.Param "id")).2 = some msg ∧
      (∀ (σ : Type) (u : userHandler σ) (s : σ),
        u.GetUser libs ctx s = some (ctx.JSON 400 (.envelope ⟨400, msg, none⟩), s) ∧
        u.UpdateUser libs ctx s = some (ctx.JSON 400 (.envelope ⟨400, msg, none⟩), s) ∧
        u.DeleteUser libs ctx s = some (ctx.JSON 400 (.envelope ⟨400, msg, none⟩), s) ∧
        u.GetRole libs ctx s = some (ctx.JSON 400 (.envelope ⟨400, msg, none⟩), s) ∧
        u.UpdateRole libs ctx s = some (ctx.JSON 400 (.envelope ⟨400, msg, none⟩), s) ∧
        u.DeleteRole libs ctx s = some (ctx.JSON 400 (.envelope ⟨400, msg, none⟩), s)) ∧
      (∀ (σ : Type) (p : itemHandler σ) (s : σ),
        p.GetItem libs ctx s = some (ctx.JSON 400 (.raw (.H [("error", msg)])), s) ∧
        p.UpdateItem libs ctx s = some (ctx.JSON 400 (.raw (.H [("error", msg)])), s) ∧
        p.DeleteItem libs ctx s = some (ctx.JSON 400 (.raw (.H [("error", msg)])), s)) ∧
      (∀ (σ : Type) (p : truckHandler σ) (s : σ),
        p.GetTruck libs ctx s = some (ctx.JSON 400 (.envelope ⟨400, msg, none⟩), s) ∧
        p.UpdateTruck libs ctx s = some (ctx.JSON 400 (.envelope ⟨400, msg, none⟩), s) ∧
        p.DeleteTruck libs ctx s = some (ctx.JSON 400 (.envelope ⟨400, msg, none⟩), s)) ∧
      (∀ (σ : Type) (p : orderHandler σ) (s : σ),
        p.GetOrder libs ctx s = some (ctx.JSON 400 (.raw (.H [("error", msg)])), s) ∧
        p.UpdateOrder libs ctx s = some (ctx.JSON 400 (.raw (.H [("error", msg)])), s) ∧
        p.DeleteOrder libs ctx s = some (ctx.JSON 400 (.raw (.H [("error", msg)])), s)) := by
  obtain ⟨msg, hmsg⟩ := Atoi_not_decimal libs (ctx.Param "id") h
  rcases hA : Atoi libs (ctx.Param "id") with ⟨i, e⟩
  rw [hA] at hmsg
  simp only at hmsg
  subst hmsg
  refine ⟨msg, rfl, ?_, ?_, ?_, ?_⟩
  · intro σ u s
    refine ⟨?_, ?_, ?_, ?_, ?_, ?_⟩
    · simp only [userHandler.GetUser, hA, FailedResponse_400]
    · simp only [userHandler.UpdateUser, hA, FailedResponse_400]
    · simp only [userHandler.DeleteUser, hA, FailedResponse_400]
    · simp only [userHandler.GetRole, hA, FailedResponse_400]
    · simp only [userHandler.UpdateRole, hA, FailedResponse_400]
    · simp only [userHandler.DeleteRole, hA, FailedResponse_400]
  · intro σ p s
    refine ⟨?_, ?_, ?_⟩
    · simp only [itemHandler.GetItem, hA, StatusBadRequest]
    · simp only [itemHandler.UpdateItem, hA, StatusBadRequest]
    · simp only [itemHandler.DeleteItem, hA, StatusBadRequest]
  · intro σ p s
    refine ⟨?_, ?_, ?_⟩
    · simp only [truckHandler.GetTruck, hA, FailedResponse_400]
    · simp only [truckHandler.UpdateTruck, hA, FailedResponse_400]
    · simp only [truckHandler.DeleteTruck, hA, FailedResponse_400]
  · intro σ p s
    refine ⟨?_, ?_, ?_⟩
    · simp only [orderHandler.GetOrder, hA, StatusBadRequest]
    · simp only [orderHandler.UpdateOrder, hA, StatusBadRequest]
    · simp only [orderHandler.DeleteOrder, hA, StatusBadRequest]

/-- C20 at the requests of `TestGetItem_InvalidIDError` and `TestGetUser_InvalidIDError`,
whose path id is `invalid`, with services that panic on every call: `GetItem` and
`GetUser` answer 400 with the error `strconv.Atoi: parsing "invalid": invalid syntax`. -/
theorem handlers_reject_non_decimal_id_witness :
    IsDecimalInteger ((paramRequest "invalid").Param "id") = false ∧
    Atoi toyLibs "invalid" = (0, some "strconv.Atoi: parsing \"invalid\": invalid syntax") ∧
    (∃ msg, (Atoi toyLibs ((paramRequest "invalid").Param "id")).2 = some msg ∧
      itemHandler.GetItem ⟨panickingItemService Unit⟩ toyLibs (paramRequest "invalid") ()
        = some ((paramRequest "invalid").JSON 400 (.raw (.H [("error", msg)])), ()) ∧
      userHandler.GetUser ⟨panickingUserService Unit, panickingRoleService Unit⟩ toyLibs
          (paramRequest "invalid") ()
        = some ((paramRequest "invalid").JSON 400 (.envelope ⟨400, msg, none⟩), ())) := by
  refine ⟨by decide, by decide, ?_⟩
  obtain ⟨msg, hmsg, hu, hi, _, _⟩ :=
    handlers_reject_non_decimal_id toyLibs (paramRequest "invalid") (by decide)
  exact ⟨msg, hmsg, (hi Unit ⟨panickingItemService Unit⟩ ()).1,
    (hu Unit ⟨panickingUserService Unit, panickingRoleService Unit⟩ ()).1⟩

theorem not_decimal_ParseInt (s : String) (h : IsDecimalInteger s = false) :
    ∃ e, (ParseInt s).2 = some e := by
  rcases hp : ParseInt s with ⟨i, _ | e⟩
  · have := ParseInt_ok_decimal s (by rw [hp])
    rw [this] at h
    exact absurd h (by simp)
  · exact ⟨e, rfl⟩

/-- The form mapping of an `int` field fails on a first value that, trimmed, is not empty
and not a decimal integer. -/
theorem setIntByForm_not_decimal (libs : HandlerLibs) (c : Context) (key : String)
    (field : Int) (hne : TrimSpace (c.Query key) ≠ "")
    (h : IsDecimalInteger (TrimSpace (c.Query key)) = false) :
    ∃ err, (setIntByForm libs (c.QueryValues key) field).2 = some err := by
  have hval : ∀ v : String, TrimSpace v ≠ "" → IsDecimalInteger (TrimSpace v) = false →
      ∃ err, (setIntByForm libs (some [v]) field).2 = some err := by
    intro v hv hd
    simp only [setIntByForm, hv, if_false]
    obtain ⟨e, he⟩ := not_decimal_ParseInt (TrimSpace v) hd
    rcases hp : ParseInt (TrimSpace v) with ⟨i, e2⟩
    rw [hp] at he
    simp only at he
    subst he
    exact ⟨_, rfl⟩
  have hempty : TrimSpace "" = "" := by decide
  unfold Context.Query at hne h
  cases hq : c.QueryValues key with
  | none =>
    rw [hq] at hne
    exact absurd hempty hne
  | some vs =>
    cases vs with
    | nil =>
      rw [hq] at hne
      exact absurd hempty hne
    | cons v rest =>
      simp only [hq] at hne h
      exact hval v hne h

/-- The form mapping of an `int` field that starts at 0 leaves 0 for a key that is
missing or whose first value is empty or white space. -/
theorem setIntByForm_empty (libs : HandlerLibs) (c : Context) (key : String)
    (h : TrimSpace (c.Query key) = "") :
    setIntByForm libs (c.QueryValues key) 0 = (0, none) := by
  unfold Context.Query at h
  unfold setIntByForm
  have h0 : ParseInt "0" = (0, none) := by decide
  have hempty : TrimSpace "" = "" := by decide
  cases hq : c.QueryValues key with
  | none => rfl
  | some vs =>
    cases vs with
    | nil => simp [h0, hempty]
    | cons v rest =>
      simp only [hq] at h
      simp [h, h0]

/-- C19 (the code departs from it). The request `GET /trucks?Page=abc` has no `page` and
no `limit` parameter, yet `GetAllTrucks` answers 400 with the error of
`strconv.ParseInt` and does not call the service (its journal of calls stays empty): the
handler binds the query strictly, and under the keys `Page` and `Limit`. On
`GET /trucks?page=2&limit=5` it calls the service with page 0 and limit 0, and on
`GET /trucks?Page=%207` with page 7. `GetAllUsers`, the sibling, calls its service with
page 0 and limit 0 on `GET /users?page=abc&Page=abc` and answers 200. -/
theorem GetAllTrucks_fails_request :
    (queryRequest [("Page", ["abc"])]).QueryValues "page" = none ∧
    (queryRequest [("Page", ["abc"])]).QueryValues "limit" = none ∧
    truckHandler.GetAllTrucks ⟨recordingTruckService⟩ toyLibs
        (queryRequest [("Page", ["abc"])]) []
      = some ((queryRequest [("Page", ["abc"])]).JSON 400
          (.envelope ⟨400, "strconv.ParseInt: parsing \"abc\": invalid syntax", none⟩), []) ∧
    truckHandler.GetAllTrucks ⟨recordingTruckService⟩ toyLibs
        (queryRequest [("page", ["2"]), ("limit", ["5"])]) []
      = some ((queryRequest [("page", ["2"]), ("limit", ["5"])]).JSON 200
          (.envelope ⟨200, "Success", some (.trucks (some []))⟩), [⟨0, 0⟩]) ∧
    truckHandler.GetAllTrucks ⟨recordingTruckService⟩ toyLibs
        (queryRequest [("Page", [" 7"])]) []
      = some ((queryRequest [("Page", [" 7"])]).JSON 200
          (.envelope ⟨200, "Success", some (.trucks (some []))⟩), [⟨7, 0⟩]) ∧
    userHandler.GetAllUsers ⟨recordingUserService, panickingRoleService _⟩ toyLibs
        (queryRequest [("page", ["abc"]), ("Page", ["abc"])]) []
      = some ((queryRequest [("page", ["abc"]), ("Page", ["abc"])]).JSON 200
          (.envelope ⟨200, "Success", some (.users (some []))⟩), [⟨0, 0⟩]) :=
  ⟨by decide, by decide, rfl, rfl, rfl, rfl⟩

/-- The list handlers, one by one. `GetAllUsers`, `GetAllItems` and `GetAllOrders` call
their service once, with a pagination whose `Page` is 0 when the `page` parameter is
missing or not a decimal integer and whose `Limit` is 0 when `limit` is; the response
depends on the service's answer only and is a 400 only if the service's status is 400.
`GetAllTrucks` binds the pagination with `ShouldBindQuery`, from the keys `Page` and
`Limit`: when the binding fails it answers 400 with the binding's error and does not call
the service, and it fails when either value, trimmed of white space, is non-empty and not
a decimal integer; when both are missing, empty or white space the binding gives page 0
and limit 0; when the binding succeeds the service is called once with the bound
pagination. -/
theorem GetAll_pagination (libs : HandlerLibs) (ctx : Context) :
    (∃ (pg : Pagination)
        (ku : Option (List UserDTO) × Int × Option Error → Context)
        (ki : Option (List ItemDTO) × Int × Option Error → Context)
        (ko : Option (List Order) × Int × Option Error → Context),
      (IsDecimalInteger (ctx.Query "page") = false → pg.Page = 0) ∧
      (IsDecimalInteger (ctx.Query "limit") = false → pg.Limit = 0) ∧
      (∀ (σ : Type) (u : userHandler σ) (s : σ), u.GetAllUsers libs ctx s
        = (u.userService.GetAllUsers pg s).map (fun r => (ku r.1, r.2))) ∧
      (∀ (σ : Type) (p : itemHandler σ) (s : σ), p.GetAllItems libs ctx s
        = (p.itemService.GetAllItems pg s).map (fun r => (ki r.1, r.2))) ∧
      (∀ (σ : Type) (p : orderHandler σ) (s : σ), p.GetAllOrders libs ctx s
        = (p.orderService.GetAllOrders pg s).map (fun r => (ko r.1, r.2))) ∧
      (∀ r w, r.2.1 ≠ 400 → w ∈ (ku r).Written → w ∈ ctx.Written ∨ w.1 ≠ 400) ∧
      (∀ r w, r.2.1 ≠ 400 → w ∈ (ki r).Written → w ∈ ctx.Written ∨ w.1 ≠ 400) ∧
      (∀ r w, r.2.1 ≠ 400 → w ∈ (ko r).Written → w ∈ ctx.Written ∨ w.1 ≠ 400)) ∧
    (∀ (pg : Pagination) (err : Error), ctx.ShouldBindQuery libs ⟨0, 0⟩ = (pg, some err) →
      ∀ (σ : Type) (p : truckHandler σ) (s : σ), p.GetAllTrucks libs ctx s
        = some (ctx.JSON 400 (.envelope ⟨400, err, none⟩), s)) ∧
    ((TrimSpace (ctx.Query "Page") ≠ "" ∧
          IsDecimalInteger (TrimSpace (ctx.Query "Page")) = false) ∨
        (TrimSpace (ctx.Query "Limit") ≠ "" ∧
          IsDecimalInteger (TrimSpace (ctx.Query "Limit")) = false) →
      ∃ err, (ctx.ShouldBindQuery libs ⟨0, 0⟩).2 = some err) ∧
    (TrimSpace (ctx.Query "Page") = "" → TrimSpace (ctx.Query "Limit") = "" →
      ctx.ShouldBindQuery libs ⟨0, 0⟩ = (⟨0, 0⟩, none)) ∧
    (∀ pg : Pagination, ctx.ShouldBindQuery libs ⟨0, 0⟩ = (pg, none) →
      ∃ kt : Option (List TruckDTO) × Int × Option Error → Context,
        (∀ (σ : Type) (p : truckHandler σ) (s : σ), p.GetAllTrucks libs ctx s
          = (p.truckService.GetAllTrucks pg s).map (fun r => (kt r.1, r.2))) ∧
        (∀ r w, r.2.1 ≠ 400 → w ∈ (kt r).Written → w ∈ ctx.Written ∨ w.1 ≠ 400)) := by
  refine ⟨?_, ?_, ?_, ?_, ?_⟩
  · refine ⟨⟨if (Atoi libs (ctx.Query "page")).2 = none then (Atoi libs (ctx.Query "page")).1
        else 0,
      if (Atoi libs (ctx.Query "limit")).2 = none then (Atoi libs (ctx.Query "limit")).1
        else 0⟩,
      (fun r => match r with
        | (_, status, some err) => FailedResponse ctx status err none
        | (users, _, none) => SuccessResponse ctx (.users (libs.MapUserDTOs users))),
      (fun r => match r with
        | (_, status, some err) => ctx.JSON status (.raw (.H [("error", err)]))
        | (itemsDTO, status, none) => ctx.JSON status (.raw (.items itemsDTO))),
      (fun r => match r with
        | (_, status, some err) => ctx.JSON status (.raw (.H [("error", err)]))
        | (orders, status, none) => ctx.JSON status (.raw (.orders orders))),
      ?_, ?_, ?_, ?_, ?_, ?_, ?_, ?_⟩
    · intro h
      obtain ⟨msg, hmsg⟩ := Atoi_not_decimal libs _ h
      simp [hmsg]
    · intro h
      obtain ⟨msg, hmsg⟩ := Atoi_not_decimal libs _ h
      simp [hmsg]
    · intro σ u s
      rcases hA : Atoi libs (ctx.Query "page") with ⟨i, _ | e1⟩ <;>
      rcases hB : Atoi libs (ctx.Query "limit") with ⟨j, _ | e2⟩ <;>
      simp only [userHandler.GetAllUsers, hA, hB] <;>
      simp only [reduceCtorEq, if_true, if_false] <;>
      rcases u.userService.GetAllUsers _ s with _ | ⟨⟨x, st, _ | e⟩, s1⟩ <;> rfl
    · intro σ p s
      rcases hA : Atoi libs (ctx.Query "page") with ⟨i, _ | e1⟩ <;>
      rcases hB : Atoi libs (ctx.Query "limit") with ⟨j, _ | e2⟩ <;>
      simp only [itemHandler.GetAllItems, hA, hB] <;>
      simp only [reduceCtorEq, if_true, if_false] <;>
      rcases p.itemService.GetAllItems _ s with _ | ⟨⟨x, st, _ | e⟩, s1⟩ <;> rfl
    · intro σ p s
      rcases hA : Atoi libs (ctx.Query "page") with ⟨i, _ | e1⟩ <;>
      rcases hB : Atoi libs (ctx.Query "limit") with ⟨j, _ | e2⟩ <;>
      simp only [orderHandler.GetAllOrders, hA, hB] <;>
      simp only [reduceCtorEq, if_true, if_false] <;>
      rcases p.orderService.GetAllOrders _ s with _ | ⟨⟨x, st, _ | e⟩, s1⟩ <;> rfl
    · rintro ⟨x, st, _ | e⟩ w hst hw
      · rcases SuccessResponse_written _ _ _ hw with h | h
        · exact Or.inl h
        · exact Or.inr (by rw [h]; decide)
      · rcases FailedResponse_written _ _ _ _ _ hw with h | h
        · exact Or.inl h
        · exact Or.inr (by rw [h]; exact hst)
    · rintro ⟨x, st, _ | e⟩ w hst hw
      · rcases JSON_written _ _ _ _ hw with h | h
        · exact Or.inl h
        · exact Or.inr (by rw [h]; exact hst)
      · rcases JSON_written _ _ _ _ hw with h | h
        · exact Or.inl h
        · exact Or.inr (by rw [h]; exact hst)
    · rintro ⟨x, st, _ | e⟩ w hst hw
      · rcases JSON_written _ _ _ _ hw with h | h
        · exact Or.inl h
        · exact Or.inr (by rw [h]; exact hst)
      · rcases JSON_written _ _ _ _ hw with h | h
        · exact Or.inl h
        · exact Or.inr (by rw [h]; exact hst)
  · intro pg err hb σ p s
    simp only [truckHandler.GetAllTrucks, hb, FailedResponse_400]
  · intro h
    unfold Context.ShouldBindQuery
    rcases hp : setIntByForm libs (ctx.QueryValues "Page") 0 with ⟨page, _ | e⟩
    · rcases h with ⟨hne, hnd⟩ | ⟨hne, hnd⟩
      · obtain ⟨err, herr⟩ := setIntByForm_not_decimal libs ctx "Page" 0 hne hnd
        rw [hp] at herr
        simp at herr
      · obtain ⟨err, herr⟩ := setIntByForm_not_decimal libs ctx "Limit" 0 hne hnd
        exact ⟨err, herr⟩
    · exact ⟨e, rfl⟩
  · intro hp hl
    unfold Context.ShouldBindQuery
    simp only [setIntByForm_empty libs ctx "Page" hp, setIntByForm_empty libs ctx "Limit" hl]
  · intro pg hb
    refine ⟨(fun r => match r with
        | (_, status, some err) => FailedResponse ctx status err none
        | (trucksDTO, _, none) => SuccessResponse ctx (.trucks trucksDTO)), ?_, ?_⟩
    · intro σ p s
      simp only [truckHandler.GetAllTrucks, hb]
      rcases p.truckService.GetAllTrucks _ s with _ | ⟨⟨x, st, _ | e⟩, s1⟩ <;> rfl
    · rintro ⟨x, st, _ | e⟩ w hst hw
      · rcases SuccessResponse_written _ _ _ hw with h | h
        · exact Or.inl h
        · exact Or.inr (by rw [h]; decide)
      · rcases FailedResponse_written _ _ _ _ _ hw with h | h
        · exact Or.inl h
        · exact Or.inr (by rw [h]; exact hst)


/-! ## The failure envelope -/

/-- On its five status codes `FailedResponse` writes the envelope with that code. -/
theorem FailedResponse_five (ctx : Context) (c : Int) (m : String) (data : Option Data)
    (h : c = 400 ∨ c = 401 ∨ c = 403 ∨ c = 404 ∨ c = 500) :
    FailedResponse ctx c m data = ctx.JSON c (.envelope ⟨c, m, data⟩) := by
  rcases h with h | h | h | h | h <;> subst h <;>
    simp [FailedResponse, StatusBadRequest, StatusNotFound, StatusUnauthorized,
      StatusForbidden, StatusInternalServerError]

/-- Outside its five status codes `FailedResponse` leaves the context as it is. -/
theorem FailedResponse_other (ctx : Context) (c : Int) (m : String) (data : Option Data)
    (h400 : c ≠ 400) (h401 : c ≠ 401) (h403 : c ≠ 403) (h404 : c ≠ 404) (h500 : c ≠ 500) :
    FailedResponse ctx c m data = ctx := by
  simp [FailedResponse, StatusBadRequest, StatusNotFound, StatusUnauthorized,
    StatusForbidden, StatusInternalServerError, h400, h401, h403, h404, h500]

/-- C22, counterexample. `FailedResponse(ctx, 409, "conflict", nil)` on a fresh request
writes no response, and neither does it for 422 (with data) and for 503: the `switch`
has the cases 400, 404, 401, 403 and 500 and no other. -/
theorem FailedResponse_409_writes_nothing :
    (FailedResponse (requestWith "") 409 "conflict" none).Written = [] ∧
    (FailedResponse (requestWith "") 422 "unprocessable" (some (.str "detail"))).Written = [] ∧
    (FailedResponse (requestWith "") 503 "unavailable" none).Written = [] :=
  ⟨rfl, rfl, rfl⟩

/-- C22, amended. For each of the statuses 400, 401, 403, 404 and 500 and every message
`m`, `FailedResponse(ctx, c, m, data)` writes one response, with HTTP status `c`, whose
body is the envelope with `code = c`, `message = m` and the data given; nothing else of
the context changes. -/
theorem FailedResponse_envelope (ctx : Context) (c : Int) (m : String) (data : Option Data)
    (h : c = 400 ∨ c = 401 ∨ c = 403 ∨ c = 404 ∨ c = 500) :
    FailedResponse ctx c m data = ctx.JSON c (.envelope ⟨c, m, data⟩) ∧
    (FailedResponse ctx c m data).Written = ctx.Written ++ [(c, .envelope ⟨c, m, data⟩)] ∧
    (FailedResponse ctx c m data).Aborted = ctx.Aborted ∧
    (FailedResponse ctx c m data).NextCalled = ctx.NextCalled := by
  rw [FailedResponse_five ctx c m data h]
  exact ⟨rfl, rfl, rfl, rfl⟩

/-- C22 at the status 404 with the message `record not found`, on a fresh request. -/
theorem FailedResponse_envelope_witness :
    (FailedResponse (requestWith "") 404 "record not found" none).Written
      = [(404, .envelope ⟨404, "record not found", none⟩)] :=
  (FailedResponse_envelope (requestWith "") 404 "record not found" none
    (by decide)).2.1

/-! ## Role names -/

/-- C23. `GetRoleName` maps 1 to `User`, 2 to `Admin`, 3 to `SysAdmin` and every other
integer to `No Role`; it is injective on 1, 2, 3, and for an id other than these it
returns none of the three role names. -/
theorem GetRoleName_table :
    GetRoleName 1 = "User" ∧ GetRoleName 2 = "Admin" ∧ GetRoleName 3 = "SysAdmin" ∧
    (GetRoleName RoleUser = "User" ∧ GetRoleName RoleAdmin = "Admin" ∧
      GetRoleName RoleSysAdmin = "SysAdmin") ∧
    (∀ role : Int, role ≠ 1 → role ≠ 2 → role ≠ 3 → GetRoleName role = "No Role") ∧
    (∀ a b : Int, (a = 1 ∨ a = 2 ∨ a = 3) → (b = 1 ∨ b = 2 ∨ b = 3) →
      GetRoleName a = GetRoleName b → a = b) ∧
    (∀ role : Int, role ≠ 1 → role ≠ 2 → role ≠ 3 →
      GetRoleName role ≠ "User" ∧ GetRoleName role ≠ "Admin" ∧
        GetRoleName role ≠ "SysAdmin") := by
  have hother : ∀ role : Int, role ≠ 1 → role ≠ 2 → role ≠ 3 →
      GetRoleName role = "No Role" := by
    intro role h1 h2 h3
    simp [GetRoleName, h1, h2, h3]
  refine ⟨by decide, by decide, by decide, by decide, hother, ?_, ?_⟩
  · intro a b ha hb h
    rcases ha with rfl | rfl | rfl <;> rcases hb with rfl | rfl | rfl <;>
      first
        | rfl
        | exact absurd h (by decide)
  · intro role h1 h2 h3
    rw [hother role h1 h2 h3]
    exact ⟨by decide, by decide, by decide⟩

/-! ## Configuration and the signing key -/

/-- When `LoadEnvVariables` succeeds, the `SecretKey` it returns is the value of the
variable `SECRET_KEY`. -/
theorem LoadEnvVariables_SecretKey (file : Option (List (String × String))) (e : Environ)
    (vars : Vars) (loaded : Environ) (h : LoadEnvVariables file e = some (vars, loaded)) :
    loaded "SECRET_KEY" = some vars.SecretKey := by
  unfold LoadEnvVariables at h
  split at h
  · simp at h
  · rename_i l hl
    split at h
    · simp at h
    · rename_i v hv
      simp only [Option.some.injEq, Prod.mk.injEq] at h
      obtain ⟨rfl, rfl⟩ := h
      unfold envParse at hv
      split at hv
      · rename_i h1 h2 h3 h4 h5 h6 h7 h8
        simp only [Option.some.injEq] at hv
        subst hv
        exact h6
      · simp at hv

/-- C24, at the environment of `TestLoadEnvVariables`: nothing set but the eight
variables of the file, `SECRET_KEY=secret` among them, and no `JWT_SECRET`. Loading
succeeds with `SecretKey = "secret"`, yet the key `GenerateToken` and
`GenerateExpiredToken` sign with and `ValidateToken` verifies with is
`os.Getenv("JWT_SECRET")`, here the empty key. -/
theorem LoadEnvVariables_ok_without_JWT_SECRET :
    (∃ vars loaded, LoadEnvVariables (some testEnvFile) emptyEnviron = some (vars, loaded) ∧
      vars.SecretKey = "secret" ∧ loaded "JWT_SECRET" = none ∧
      loaded.Getenv "JWT_SECRET" = "" ∧
      (∀ (lib : JWTLib) (now1 now2 : Instant) (user : User) (role : String),
        GenerateToken lib loaded.Getenv now1 now2 user role =
          some ((NewWithClaims SigningMethodHS256
              (.mapClaims (GenerateTokenClaims now1 now2 user role))).SigningString lib ++ "." ++
            lib.HMACSign "HS256" ((NewWithClaims SigningMethodHS256
              (.mapClaims (GenerateTokenClaims now1 now2 user role))).SigningString lib) "")) ∧
      (∀ (lib : JWTLib) (now : Instant),
        GenerateExpiredToken lib loaded.Getenv now =
          some ((NewWithClaims SigningMethodHS256
              (.mapClaims (GenerateExpiredTokenClaims now))).SigningString lib ++ "." ++
            lib.HMACSign "HS256" ((NewWithClaims SigningMethodHS256
              (.mapClaims (GenerateExpiredTokenClaims now))).SigningString lib) "")) ∧
      (∀ (token : Token) (alg : String), token.Method = .HMAC alg →
        ValidateTokenKeyfunc loaded.Getenv token = (some "", none))) ∧
    LoadEnvVariables (some [("JWT_SECRET", "secret")]) emptyEnviron = none := by
  refine ⟨⟨_, _, rfl, rfl, rfl, rfl, ?_, ?_, ?_⟩, rfl⟩
  · intro lib now1 now2 user role
    rfl
  · intro lib now
    rfl
  · intro token alg h
    simp only [ValidateTokenKeyfunc, h]
    rfl

/-! ## A token validated in the second it was issued -/

theorem splitChars_no_sep (sep : Char) (cs : List Char) (h : sep ∉ cs) :
    splitChars sep cs = [cs] := by
  induction cs with
  | nil => rfl
  | cons c cs ih =>
    simp only [List.mem_cons, not_or] at h
    have hc : ¬ c = sep := fun e => h.1 e.symm
    simp [splitChars, hc, ih h.2]

theorem splitChars_append_sep (sep : Char) (xs ys : List Char) (h : sep ∉ xs) :
    splitChars sep (xs ++ sep :: ys) = xs :: splitChars sep ys := by
  induction xs with
  | nil => simp [splitChars]
  | cons c cs ih =>
    simp only [List.mem_cons, not_or] at h
    have hc : ¬ c = sep := fun e => h.1 e.symm
    simp [splitChars, hc, ih h.2]

/-- Three pieces without a dot, joined by dots, split into those three pieces. -/
theorem Split_three (a b c : String) (ha : '.' ∉ a.toList) (hb : '.' ∉ b.toList)
    (hc : '.' ∉ c.toList) : Split (a ++ "." ++ b ++ "." ++ c) '.' = [a, b, c] := by
  have hl : (a ++ "." ++ b ++ "." ++ c).toList
      = a.toList ++ '.' :: (b.toList ++ '.' :: c.toList) := by
    simp [String.toList]
  simp only [Split, hl, splitChars_append_sep _ _ _ ha, splitChars_append_sep _ _ _ hb,
    splitChars_no_sep _ _ hc]
  simp [String.toList]

/-- A piece without a space splits, on the space, into itself alone. -/
theorem Split_no_space (t : String) (h : ' ' ∉ t.toList) : Split t ' ' = [t] := by
  simp only [Split, splitChars_no_sep _ _ h]
  simp [String.toList]

/-- C25. A token that `GenerateExpiredToken` issues is accepted when it is validated at a
clock reading within the second of its issuance: `ValidateToken` returns a token and no
error, and `GetClaimsFromToken` returns no error and claims that hold `exp` and `iat`.
The codecs of jwt-go are taken to be sound on that token: its three segments hold no dot,
the header decodes to its `alg`, the claims decode to numbers whose integer value is the
issuance second (and to no `nbf`), and the HMAC signature verifies under its key. -/
theorem GenerateExpiredToken_accepted_in_its_second (codec : JWTCodec) (env : Env)
    (issued now : Instant) (decoded : MapClaims) (be bi : Nat)
    (hsame : now.Unix = issued.Unix)
    (hdot1 : '.' ∉ (codec.EncodeHeader SigningMethodHS256).toList)
    (hdot2 : '.' ∉ (codec.EncodeClaims
      (.mapClaims (GenerateExpiredTokenClaims issued))).toList)
    (hdot3 : ∀ ss, '.' ∉ (codec.HMACSign "HS256" ss (env "JWT_SECRET")).toList)
    (hheader : codec.DecodeHeader (codec.EncodeHeader SigningMethodHS256)
      = (some "HS256", none))
    (hclaims : codec.DecodeClaims (codec.EncodeClaims
      (.mapClaims (GenerateExpiredTokenClaims issued))) = (decoded, none))
    (hexp : decoded.get "exp" = some (.float be) ∧ codec.Int64 be = issued.Unix)
    (hiat : decoded.get "iat" = some (.float bi) ∧ codec.Int64 bi = issued.Unix)
    (hnbf : decoded.get "nbf" = none)
    (hverify : ∀ ss key,
      codec.Verify (.HMAC "HS256") ss (codec.HMACSign "HS256" ss key) (some key) = none) :
    ∃ t tok, GenerateExpiredToken (jwtGo codec) env issued = some t ∧
      ValidateToken (jwtGo codec) env now t = (tok, none) ∧ tok.Valid = true ∧
      GetClaimsFromToken (jwtGo codec) env now t = (some decoded, none) ∧
      (decoded.get "exp").isSome = true ∧ (decoded.get "iat").isSome = true := by
  have hvalid : MapClaims.Valid codec decoded now.Unix = none := by
    simp only [MapClaims.Valid, MapClaims.VerifyExpiresAt, MapClaims.VerifyIssuedAt,
      MapClaims.VerifyNotBefore, hexp.1, hexp.2, hiat.1, hiat.2, hnbf, hsame, verifyExp,
      verifyIat]
    by_cases h0 : issued.Unix = 0 <;> simp [h0]
  have hparse : Parse codec
      (codec.EncodeHeader SigningMethodHS256 ++ "." ++
        codec.EncodeClaims (.mapClaims (GenerateExpiredTokenClaims issued)) ++ "." ++
        codec.HMACSign "HS256" (codec.EncodeHeader SigningMethodHS256 ++ "." ++
          codec.EncodeClaims (.mapClaims (GenerateExpiredTokenClaims issued)))
          (env "JWT_SECRET"))
      (ValidateTokenKeyfunc env) now =
      ({ Raw := codec.EncodeHeader SigningMethodHS256 ++ "." ++
          codec.EncodeClaims (.mapClaims (GenerateExpiredTokenClaims issued)) ++ "." ++
          codec.HMACSign "HS256" (codec.EncodeHeader SigningMethodHS256 ++ "." ++
            codec.EncodeClaims (.mapClaims (GenerateExpiredTokenClaims issued)))
            (env "JWT_SECRET"),
         Method := .HMAC "HS256", Claims := .mapClaims decoded,
         Signature := codec.HMACSign "HS256" (codec.EncodeHeader SigningMethodHS256 ++ "." ++
            codec.EncodeClaims (.mapClaims (GenerateExpiredTokenClaims issued)))
            (env "JWT_SECRET"),
         Valid := true }, none) := by
    have hm : GetSigningMethod "HS256" = some (.HMAC "HS256") := by decide
    simp only [Parse, Split_three _ _ _ hdot1 hdot2 (hdot3 _), hheader, hclaims, hm,
      ValidateTokenKeyfunc, hvalid, hverify]
  have hgen : GenerateExpiredToken (jwtGo codec) env issued =
      some (codec.EncodeHeader SigningMethodHS256 ++ "." ++
        codec.EncodeClaims (.mapClaims (GenerateExpiredTokenClaims issued)) ++ "." ++
        codec.HMACSign "HS256" (codec.EncodeHeader SigningMethodHS256 ++ "." ++
          codec.EncodeClaims (.mapClaims (GenerateExpiredTokenClaims issued)))
          (env "JWT_SECRET")) := by
    simp only [GenerateExpiredToken, SignedString_HS256, jwtGo]
  refine ⟨_, _, hgen, hparse, rfl, ?_, ?_, ?_⟩
  · simp only [GetClaimsFromToken, ValidateToken, jwtGo, hparse]
  · rw [hexp.1]; rfl
  · rw [hiat.1]; rfl

/-- C25 with the stand-in codec, for the token issued at 100.000000005 s and validated at
100.999999999 s after the epoch. -/
theorem GenerateExpiredToken_accepted_in_its_second_witness :
    ∃ t tok, GenerateExpiredToken (jwtGo toyCodec) toyEnv ⟨100000000005⟩ = some t ∧
      ValidateToken (jwtGo toyCodec) toyEnv ⟨100999999999⟩ t = (tok, none) ∧
      tok.Valid = true ∧
      GetClaimsFromToken (jwtGo toyCodec) toyEnv ⟨100999999999⟩ t
        = (some [("exp", .float 100), ("iat", .float 100)], none) ∧
      (MapClaims.get [("exp", .float 100), ("iat", .float 100)] "exp").isSome = true ∧
      (MapClaims.get [("exp", .float 100), ("iat", .float 100)] "iat").isSome = true :=
  GenerateExpiredToken_accepted_in_its_second toyCodec toyEnv ⟨100000000005⟩
    ⟨100999999999⟩ [("exp", .float 100), ("iat", .float 100)] 100 100
    (by decide) (by decide) (by decide)
    (fun _ => (by decide : '.' ∉ ("secret" : String).toList)) rfl (by decide)
    ⟨by decide, by decide⟩ ⟨by decide, by decide⟩ (by decide)
    (fun ss key => by simp [toyCodec])

/-! ## The middleware, outcome by outcome -/

/-- What `authorizeToken` does, by cases on the validated token. -/
theorem authorizeToken_cases (roles : List String) (c : Context) (tok : Token)
    (verr : Option Error) :
    (∃ claims role, verr = none ∧ tok.Valid = true ∧ tok.Claims = .mapClaims claims ∧
        claims.get "role" = some (.str role) ∧ (roles = [] ∨ role ∈ roles) ∧
        authorizeToken roles c (tok, verr) = c.Next) ∨
    (∃ msg data, authorizeToken roles c (tok, verr)
        = (c.JSON 401 (.envelope ⟨401, msg, data⟩)).Abort) ∨
    (∃ claims role, verr = none ∧ tok.Valid = true ∧ tok.Claims = .mapClaims claims ∧
        claims.get "role" = some (.str role) ∧ roles ≠ [] ∧ role ∉ roles ∧
        authorizeToken roles c (tok, verr)
          = (c.JSON 403 (.envelope ⟨403, "forbidden", none⟩)).Abort) := by
  have h401 : ∀ msg data, FailedResponse c StatusUnauthorized msg data
      = c.JSON 401 (.envelope ⟨401, msg, data⟩) := fun msg data =>
    FailedResponse_five c 401 msg data (by decide)
  cases verr with
  | some err =>
    exact Or.inr (Or.inl ⟨"invalid token", some (.str err), by
      simp only [authorizeToken, h401]⟩)
  | none =>
    cases hcl : tok.Claims with
    | other =>
      exact Or.inr (Or.inl ⟨"invalid token", none, by
        simp only [authorizeToken, hcl, h401]⟩)
    | mapClaims claims =>
      cases hv : tok.Valid with
      | false =>
        exact Or.inr (Or.inl ⟨"invalid token", none, by
          simp only [authorizeToken, hcl, hv, h401]⟩)
      | true =>
        cases hr : claims.get "role" with
        | none =>
          exact Or.inr (Or.inl ⟨"missing role claim", none, by
            simp only [authorizeToken, hcl, hv, hr, h401]⟩)
        | some v =>
          cases v with
          | int i =>
            exact Or.inr (Or.inl ⟨"missing role claim", none, by
              simp only [authorizeToken, hcl, hv, hr, h401]⟩)
          | uint n =>
            exact Or.inr (Or.inl ⟨"missing role claim", none, by
              simp only [authorizeToken, hcl, hv, hr, h401]⟩)
          | float b =>
            exact Or.inr (Or.inl ⟨"missing role claim", none, by
              simp only [authorizeToken, hcl, hv, hr, h401]⟩)
          | str role =>
            have hrun := authorizeToken_valid roles c tok claims role hv hcl hr
            by_cases hok : roles = [] ∨ role ∈ roles
            · rw [if_pos hok] at hrun
              exact Or.inl ⟨claims, role, rfl, rfl, rfl, hr, hok, hrun⟩
            · rw [if_neg hok] at hrun
              refine Or.inr (Or.inr ⟨claims, role, rfl, rfl, rfl, hr, ?_, ?_, ?_⟩)
              · exact fun h => hok (Or.inl h)
              · exact fun h => hok (Or.inr h)
              · rw [hrun]
                rfl

/-- C28. `AuthMiddleware` ends in one of three ways. It calls `Next`, writing nothing,
and then the header was not empty and split on the space into exactly two parts,
`ValidateToken` returned no error for the second, the token is marked valid, its claims
are a map whose `role` is a string, and that role passed the role-set check (the set is
empty or holds it). Or it writes one 401 envelope and aborts. Or it writes the one 403
envelope `forbidden` and aborts, and then the token passed validation as above and only
the role-set check failed. Writing a response and aborting leaves `NextCalled` as it
was: the protected handler does not run. -/
theorem AuthMiddleware_outcomes (lib : JWTLib) (env : Env) (now : Instant)
    (roles : List String) (c : Context) :
    ((∃ scheme bearer tok claims role,
        c.GetHeader "Authorization" ≠ "" ∧
        Split (c.GetHeader "Authorization") ' ' = [scheme, bearer] ∧
        ValidateToken lib env now bearer = (tok, none) ∧ tok.Valid = true ∧
        tok.Claims = .mapClaims claims ∧ claims.get "role" = some (.str role) ∧
        (roles = [] ∨ role ∈ roles) ∧
        AuthMiddleware lib env now roles c = c.Next) ∨
      (∃ msg data, AuthMiddleware lib env now roles c
        = (c.JSON 401 (.envelope ⟨401, msg, data⟩)).Abort) ∨
      (∃ scheme bearer tok claims role,
        c.GetHeader "Authorization" ≠ "" ∧
        Split (c.GetHeader "Authorization") ' ' = [scheme, bearer] ∧
        ValidateToken lib env now bearer = (tok, none) ∧ tok.Valid = true ∧
        tok.Claims = .mapClaims claims ∧ claims.get "role" = some (.str role) ∧
        roles ≠ [] ∧ role ∉ roles ∧
        AuthMiddleware lib env now roles c
          = (c.JSON 403 (.envelope ⟨403, "forbidden", none⟩)).Abort)) ∧
    (c.Next.Written = c.Written ∧ c.Next.Aborted = c.Aborted ∧ c.Next.NextCalled = true) ∧
    (∀ (code : Int) (body : Body),
      (c.JSON code body).Abort.Written = c.Written ++ [(code, body)] ∧
      (c.JSON code body).Abort.Aborted = true ∧
      (c.JSON code body).Abort.NextCalled = c.NextCalled) := by
  refine ⟨?_, ⟨rfl, rfl, rfl⟩, fun code body => ⟨rfl, rfl, rfl⟩⟩
  have h401 : ∀ msg data, FailedResponse c StatusUnauthorized msg data
      = c.JSON 401 (.envelope ⟨401, msg, data⟩) := fun msg data =>
    FailedResponse_five c 401 msg data (by decide)
  by_cases hh : c.GetHeader "Authorization" = ""
  · exact Or.inr (Or.inl ⟨"missing authorization header", none, by
      simp only [AuthMiddleware, hh, if_true, h401]⟩)
  · rcases hs : Split (c.GetHeader "Authorization") ' ' with
      _ | ⟨p0, _ | ⟨p1, _ | ⟨p2, rest⟩⟩⟩
    · exact Or.inr (Or.inl ⟨"invalid token", none, by
        simp only [AuthMiddleware, hh, if_false, hs, h401]⟩)
    · exact Or.inr (Or.inl ⟨"invalid token", none, by
        simp only [AuthMiddleware, hh, if_false, hs, h401]⟩)
    · have hrun : AuthMiddleware lib env now roles c
          = authorizeToken roles c (ValidateToken lib env now p1) := by
        simp only [AuthMiddleware, hh, if_false, hs]
      rcases hv : ValidateToken lib env now p1 with ⟨tok, verr⟩
      rw [hv] at hrun
      rcases authorizeToken_cases roles c tok verr with
        ⟨claims, role, rfl, h1, h2, h3, h4, h5⟩ | ⟨msg, data, h⟩ |
        ⟨claims, role, rfl, h1, h2, h3, h4, h5, h6⟩
      · exact Or.inl ⟨p0, p1, tok, claims, role, hh, rfl, hv, h1, h2, h3, h4,
          hrun.trans h5⟩
      · exact Or.inr (Or.inl ⟨msg, data, hrun.trans h⟩)
      · exact Or.inr (Or.inr ⟨p0, p1, tok, claims, role, hh, rfl, hv, h1, h2, h3, h4, h5,
          hrun.trans h6⟩)
    · exact Or.inr (Or.inl ⟨"invalid token", none, by
        simp only [AuthMiddleware, hh, if_false, hs, h401]⟩)

/-- Either the header splits into two parts or `AuthMiddleware` writes a response and
aborts. -/
theorem AuthMiddleware_next_or_abort (lib : JWTLib) (env : Env) (now : Instant)
    (roles : List String) (c : Context) :
    (∃ scheme bearer, Split (c.GetHeader "Authorization") ' ' = [scheme, bearer]) ∨
    (∃ code body, AuthMiddleware lib env now roles c = (c.JSON code body).Abort) := by
  have h401 : ∀ msg data, FailedResponse c StatusUnauthorized msg data
      = c.JSON 401 (.envelope ⟨401, msg, data⟩) := fun msg data =>
    FailedResponse_five c 401 msg data (by decide)
  by_cases hh : c.GetHeader "Authorization" = ""
  · exact Or.inr ⟨401, .envelope ⟨401, "missing authorization header", none⟩, by
      simp only [AuthMiddleware, hh, if_true, h401]⟩
  · rcases hs : Split (c.GetHeader "Authorization") ' ' with
      _ | ⟨p0, _ | ⟨p1, _ | ⟨p2, rest⟩⟩⟩
    · exact Or.inr ⟨401, .envelope ⟨401, "invalid token", none⟩, by
        simp only [AuthMiddleware, hh, if_false, hs, h401]⟩
    · exact Or.inr ⟨401, .envelope ⟨401, "invalid token", none⟩, by
        simp only [AuthMiddleware, hh, if_false, hs, h401]⟩
    · exact Or.inl ⟨p0, p1, rfl⟩
    · exact Or.inr ⟨401, .envelope ⟨401, "invalid token", none⟩, by
        simp only [AuthMiddleware, hh, if_false, hs, h401]⟩

/-! ## The bare token of sign-in and sign-out -/

/-- What `SignInUser` returns when it returns: a non-empty token with status 200 and no
error, or the empty token with status 401 or 404 and an error. -/
theorem SignInUser_result {σ : Type} (u : userService σ) (bc : BcryptLib)
    (lib : JWTLib) (env : Env) (now1 now2 : Instant) (loginUser : Login) (s s1 : σ)
    (t : String) (status : Int) (err : Option Error)
    (h : u.SignInUser bc lib env now1 now2 loginUser s = some ((t, status, err), s1)) :
    (t ≠ "" ∧ status = 200 ∧ err = none) ∨
      (t = "" ∧ (status = 401 ∨ status = 404) ∧ err ≠ none) := by
  unfold userService.SignInUser at h
  rcases hf : u.userRepo.FindByUsername loginUser.Username s with ⟨⟨userDb, _ | e⟩, sa⟩
  · rw [hf] at h
    simp only at h
    cases hc : ComparePassword bc userDb.Password loginUser.Password with
    | false =>
      simp only [hc, Bool.not_false, if_true, Option.some.injEq, Prod.mk.injEq] at h
      obtain ⟨⟨rfl, rfl, rfl⟩, _⟩ := h
      exact Or.inr ⟨rfl, Or.inl rfl, by simp⟩
    | true =>
      simp only [hc, Bool.not_true, Bool.false_eq_true, if_false] at h
      rcases hr : u.roleRepo.FindByID userDb.RoleID sa with ⟨⟨role, _ | e⟩, sb⟩
      · rw [hr] at h
        simp only at h
        obtain ⟨tok, htok, hne, _⟩ := GenerateToken_eq lib env now1 now2 userDb role.Name
        rw [htok] at h
        simp only [Option.some.injEq, Prod.mk.injEq] at h
        obtain ⟨⟨rfl, rfl, rfl⟩, _⟩ := h
        exact Or.inl ⟨hne, rfl, rfl⟩
      · rw [hr] at h
        simp only [Option.some.injEq, Prod.mk.injEq] at h
        obtain ⟨⟨rfl, rfl, rfl⟩, _⟩ := h
        exact Or.inr ⟨rfl, Or.inr rfl, by simp⟩
  · rw [hf] at h
    simp only [Option.some.injEq, Prod.mk.injEq] at h
    obtain ⟨⟨rfl, rfl, rfl⟩, _⟩ := h
    exact Or.inr ⟨rfl, Or.inr rfl, by simp⟩

/-- A token `SignInUser` returns without an error is not empty. -/
theorem SignInUser_token_ne_empty {σ : Type} (u : userService σ) (bc : BcryptLib)
    (lib : JWTLib) (env : Env) (now1 now2 : Instant) (loginUser : Login) (s s1 : σ)
    (t : String) (status : Int)
    (h : u.SignInUser bc lib env now1 now2 loginUser s = some ((t, status, none), s1)) :
    t ≠ "" := by
  rcases SignInUser_result u bc lib env now1 now2 loginUser s s1 t status none h with
    ⟨hne, _, _⟩ | ⟨_, _, hn⟩
  · exact hne
  · exact absurd rfl hn

/-- A token `SignOutUser` returns is not empty. -/
theorem SignOutUser_token_ne_empty {σ : Type} (u : userService σ) (lib : JWTLib) (env : Env)
    (now : Instant) (t : String) (h : u.SignOutUser lib env now = some t) : t ≠ "" := by
  simp only [userService.SignOutUser, GenerateExpiredToken, SignedString_HS256,
    Option.some.injEq] at h
  rw [← h]
  exact dotted_ne_empty _ _ _

/-- C27. Let `t` be a token `SignInUser` or `SignOutUser` issued, without a space in it.
The sign-in and sign-out handlers put the token their service returns into the
`Authorization` header of the response as it is, without a scheme. A request whose
`Authorization` header is `t` is answered by `AuthMiddleware`, for every role set, with
the 401 envelope `invalid token`, and the chain is aborted. Whenever `AuthMiddleware`
calls `Next`, the header is `scheme ++ " " ++ bearer` for some `scheme` and `bearer`. -/
theorem AuthMiddleware_rejects_bare_token {σ : Type} (u : userService σ) (bc : BcryptLib)
    (lib : JWTLib) (env : Env) (now1 now2 now3 : Instant) (loginUser : Login) (s s1 : σ)
    (status : Int) (t : String)
    (hissued : u.SignInUser bc lib env now1 now2 loginUser s = some ((t, status, none), s1) ∨
      u.SignOutUser lib env now3 = some t)
    (hcompact : ' ' ∉ t.toList) :
    (∀ (τ : Type) (h : userHandler τ) (libs : HandlerLibs) (ctx : Context) (x x1 : τ)
        (login : Login) (tok : String) (st : Int),
      libs.BindLogin ctx.RequestBody = (login, none) →
      h.userService.SignInUser login x = some ((tok, st, none), x1) →
      ∃ ctx1, h.SignInUser libs ctx x = some (ctx1, x1) ∧
        ctx1.ResponseHeader "Authorization" = tok) ∧
    (∀ (τ : Type) (h : userHandler τ) (libs : HandlerLibs) (ctx : Context) (x x1 : τ)
        (tok : String),
      h.userService.SignOutUser x = some (tok, x1) →
      ∃ ctx1, h.SignOutUser libs ctx x = some (ctx1, x1) ∧
        ctx1.ResponseHeader "Authorization" = tok) ∧
    (∀ (lib1 : JWTLib) (env1 : Env) (now : Instant) (roles : List String) (c : Context),
      c.GetHeader "Authorization" = t →
      AuthMiddleware lib1 env1 now roles c
        = (c.JSON 401 (.envelope ⟨401, "invalid token", none⟩)).Abort) ∧
    (∀ (lib1 : JWTLib) (env1 : Env) (now : Instant) (roles : List String) (c : Context),
      AuthMiddleware lib1 env1 now roles c = c.Next →
      ∃ scheme bearer, c.GetHeader "Authorization" = scheme ++ " " ++ bearer) := by
  have hne : t ≠ "" := by
    rcases hissued with h | h
    · exact SignInUser_token_ne_empty u bc lib env now1 now2 loginUser s s1 t status h
    · exact SignOutUser_token_ne_empty u lib env now3 t h
  refine ⟨?_, ?_, ?_, ?_⟩
  · intro τ h libs ctx x x1 login tok st hb hs
    refine ⟨SuccessResponseNoData (ctx.Header "Authorization" tok), ?_, ?_⟩
    · simp only [userHandler.SignInUser, hb, hs]
    · simp [SuccessResponseNoData, Context.JSON, Context.Header]
  · intro τ h libs ctx x x1 tok hs
    refine ⟨SuccessResponse (ctx.Header "Authorization" tok)
      (.H [("message", "User logged out successfully")]), ?_, ?_⟩
    · simp only [userHandler.SignOutUser, hs]
    · simp [SuccessResponse, Context.JSON, Context.Header]
  · intro lib1 env1 now roles c hhdr
    have h401 : ∀ msg data, FailedResponse c StatusUnauthorized msg data
        = c.JSON 401 (.envelope ⟨401, msg, data⟩) := fun msg data =>
      FailedResponse_five c 401 msg data (by decide)
    simp only [AuthMiddleware, hhdr, hne, if_false, Split_no_space t hcompact, h401]
  · intro lib1 env1 now roles c hnext
    have hno : ∀ (code : Int) (body : Body),
        AuthMiddleware lib1 env1 now roles c ≠ (c.JSON code body).Abort := by
      intro code body h
      have hw := congrArg Context.Written (hnext.symm.trans h)
      have hl := congrArg List.length hw
      simp [Context.Next, Context.JSON, Context.Abort] at hl
    rcases AuthMiddleware_next_or_abort lib1 env1 now roles c with
      ⟨scheme, bearer, hs⟩ | ⟨code, body, h⟩
    · refine ⟨scheme, bearer, ?_⟩
      have := Split_two _ _ _ _ hs
      rw [this]
      rfl
    · exact absurd h (hno code body)

/-- C27 at the token `SignOutUser` issues with the stand-in library at second 100, which
has no space in it: a request that carries it bare in `Authorization` is answered 401
`invalid token` by the middleware built for `SysAdmin`. -/
theorem AuthMiddleware_rejects_bare_token_witness :
    userService.SignOutUser (⟨stubUserRepo sampleUser, stubRoleRepo sampleRole⟩ :
        userService Unit) toyJWT toyEnv ⟨100000000005⟩ = some "HS256.exp=100,iat=100.secret" ∧
    AuthMiddleware toyJWT toyEnv ⟨100000000007⟩ ["SysAdmin"]
        (requestWith "HS256.exp=100,iat=100.secret")
      = ((requestWith "HS256.exp=100,iat=100.secret").JSON 401
          (.envelope ⟨401, "invalid token", none⟩)).Abort :=
  ⟨by decide,
    (AuthMiddleware_rejects_bare_token
      (⟨stubUserRepo sampleUser, stubRoleRepo sampleRole⟩ : userService Unit) toyBcrypt toyJWT
      toyEnv ⟨0⟩ ⟨0⟩ ⟨100000000005⟩ ⟨"", ""⟩ () () 200 "HS256.exp=100,iat=100.secret"
      (Or.inr (by decide)) (by decide)).2.2.1 toyJWT toyEnv ⟨100000000007⟩ ["SysAdmin"]
      (requestWith "HS256.exp=100,iat=100.secret") rfl⟩

/-! ## Status, error and value of every service method -/

theorem ResultShape_status {σ R : Type} (P : R → Prop)
    (out : Option ((R × Int × Option Error) × σ)) (h : ResultShape P out) :
    StatusMatchesError (outcome out) := by
  intro status err ho
  rcases h with h | ⟨v, s1, h⟩ | ⟨v, c, e, s1, _, hc, h⟩
  · simp [h, outcome] at ho
  · simp only [h, outcome, Option.map_some', Option.some.injEq, Prod.mk.injEq] at ho
    obtain ⟨rfl, rfl⟩ := ho
    simp
  · simp only [h, outcome, Option.map_some', Option.some.injEq, Prod.mk.injEq] at ho
    obtain ⟨rfl, rfl⟩ := ho
    rcases hc with rfl | rfl | rfl <;> simp

theorem ResultShape_zero {σ R : Type} (zero : R)
    (out : Option ((R × Int × Option Error) × σ)) (h : ResultShape (fun v => v = zero) out) :
    ZeroOnError zero out := by
  intro v status err s1 ho
  rcases h with h | ⟨v2, s2, h⟩ | ⟨v2, c, e, s2, hz, _, h⟩
  · simp [h] at ho
  · simp [h] at ho
  · simp only [h, Option.some.injEq, Prod.mk.injEq] at ho
    rw [← ho.1.1]
    exact hz

theorem CreateUser_shape {σ : Type} (u : userService σ) (bc : BcryptLib) (rand : String)
    (user : User) (s : σ) :
    ResultShape (fun v => v = UserDTO.zero) (u.CreateUser bc rand user s) := by
  cases hp : GetHashPassword bc rand user.Password with
  | none => simp [ResultShape, userService.CreateUser, hp]
  | some password =>
    rcases h : u.userRepo.Save { user with Password := password } s with ⟨⟨x, _ | e⟩, s1⟩ <;>
      simp [ResultShape, userService.CreateUser, hp, h, StatusOK, StatusInternalServerError]

theorem SignInUser_shape {σ : Type} (u : userService σ) (bc : BcryptLib) (lib : JWTLib)
    (env : Env) (now1 now2 : Instant) (loginUser : Login) (s : σ) :
    ResultShape (fun v => v = "") (u.SignInUser bc lib env now1 now2 loginUser s) := by
  rcases h : u.SignInUser bc lib env now1 now2 loginUser s with _ | ⟨⟨t, status, err⟩, s1⟩
  · exact Or.inl rfl
  · rcases SignInUser_result u bc lib env now1 now2 loginUser s s1 t status err h with
      ⟨_, rfl, rfl⟩ | ⟨rfl, hst, herr⟩
    · exact Or.inr (Or.inl ⟨t, s1, rfl⟩)
    · cases err with
      | none => exact absurd rfl herr
      | some e =>
        refine Or.inr (Or.inr ⟨"", status, e, s1, rfl, ?_, rfl⟩)
        rcases hst with h1 | h1
        · exact Or.inl h1
        · exact Or.inr (Or.inl h1)

theorem GetUser_shape {σ : Type} (p : userService σ) (id : Int) (s : σ) :
    ResultShape (fun v => v = UserDTO.zero) (p.GetUser id s) := by
  rcases h : p.userRepo.FindByID id s with ⟨⟨x, _ | e⟩, s1⟩ <;>
    simp [ResultShape, userService.GetUser, h, StatusOK, StatusNotFound, StatusInternalServerError]

theorem GetAllUsers_shape {σ : Type} (p : userService σ) (pg : Pagination) (s : σ) :
    ResultShape (fun v => v = some []) (p.GetAllUsers pg s) := by
  rcases h : p.userRepo.FindAll pg s with ⟨⟨x, _ | e⟩, s1⟩ <;>
    simp [ResultShape, userService.GetAllUsers, h, StatusOK, StatusNotFound, StatusInternalServerError]

theorem UpdateUser_shape {σ : Type} (p : userService σ) (id : Int) (patch : User) (s : σ) :
    ResultShape (fun v => v = UserDTO.zero) (p.UpdateUser id patch s) := by
  rcases h : p.userRepo.FindByID id s with ⟨⟨x, _ | e⟩, s1⟩
  · obtain ⟨m, _, hfail, hok⟩ := (UpdateUser_status p id patch s).2 x s1 h
    rcases hu : p.userRepo.Update m s1 with ⟨⟨y, _ | e2⟩, s2⟩
    · rw [hok y s2 hu]; simp [ResultShape]
    · rw [hfail y e2 s2 hu]; simp [ResultShape]
  · rw [(UpdateUser_status p id patch s).1 x e s1 h]; simp [ResultShape]

theorem DeleteUser_shape {σ : Type} (p : userService σ) (id : Int) (s : σ) :
    ResultShape (fun v => v = UserDTO.zero) (p.DeleteUser id s) := by
  rcases h : p.userRepo.FindByID id s with ⟨⟨x, _ | e⟩, s1⟩
  · rcases hd : p.userRepo.Delete x s1 with ⟨_ | e2, s2⟩
    · rw [((DeleteUser_status p id s).2 x s1 h).2 s2 hd]; simp [ResultShape]
    · rw [((DeleteUser_status p id s).2 x s1 h).1 e2 s2 hd]; simp [ResultShape]
  · rw [(DeleteUser_status p id s).1 x e s1 h]; simp [ResultShape]

theorem CreateRole_shape {σ : Type} (p : roleService σ) (x : Role) (s : σ) :
    ResultShape (fun v => v = RoleDTO.zero) (p.CreateRole x s) := by
  rcases h : p.roleRepo.Save x s with ⟨⟨y, _ | e⟩, s1⟩ <;>
    simp [ResultShape, roleService.CreateRole, h, StatusOK, StatusNotFound, StatusInternalServerError]

theorem GetRole_shape {σ : Type} (p : roleService σ) (id : Int) (s : σ) :
    ResultShape (fun v => v = RoleDTO.zero) (p.GetRole id s) := by
  rcases h : p.roleRepo.FindByID id s with ⟨⟨x, _ | e⟩, s1⟩ <;>
    simp [ResultShape, roleService.GetRole, h, StatusOK, StatusNotFound, StatusInternalServerError]

theorem GetAllRoles_shape {σ : Type} (p : roleService σ) (s : σ) :
    ResultShape (fun v => v = some []) (p.GetAllRoles s) := by
  rcases h : p.roleRepo.FindAll s with ⟨⟨x, _ | e⟩, s1⟩ <;>
    simp [ResultShape, roleService.GetAllRoles, h, StatusOK, StatusNotFound, StatusInternalServerError]

theorem UpdateRole_shape {σ : Type} (p : roleService σ) (id : Int) (patch : Role) (s : σ) :
    ResultShape (fun v => v = RoleDTO.zero) (p.UpdateRole id patch s) := by
  rcases h : p.roleRepo.FindByID id s with ⟨⟨x, _ | e⟩, s1⟩
  · obtain ⟨m, _, hfail, hok⟩ := (UpdateRole_status p id patch s).2 x s1 h
    rcases hu : p.roleRepo.Update patch s1 with ⟨⟨y, _ | e2⟩, s2⟩
    · rw [hok y s2 hu]; simp [ResultShape]
    · rw [hfail y e2 s2 hu]; simp [ResultShape]
  · rw [(UpdateRole_status p id patch s).1 x e s1 h]; simp [ResultShape]

theorem DeleteRole_shape {σ : Type} (p : roleService σ) (id : Int) (s : σ) :
    ResultShape (fun v => v = RoleDTO.zero) (p.DeleteRole id s) := by
  rcases h : p.roleRepo.FindByID id s with ⟨⟨x, _ | e⟩, s1⟩
  · rcases hd : p.roleRepo.Delete x s1 with ⟨_ | e2, s2⟩
    · rw [((DeleteRole_status p id s).2 x s1 h).2 s2 hd]; simp [ResultShape]
    · rw [((DeleteRole_status p id s).2 x s1 h).1 e2 s2 hd]; simp [ResultShape]
  · rw [(DeleteRole_status p id s).1 x e s1 h]; simp [ResultShape]

theorem CreateItem_shape {σ : Type} (p : itemService σ) (x : Item) (s : σ) :
    ResultShape (fun v => v = ItemDTO.zero) (p.CreateItem x s) := by
  rcases h : p.ItemRepo.Save x s with ⟨⟨y, _ | e⟩, s1⟩ <;>
    simp [ResultShape, itemService.CreateItem, h, StatusOK, StatusNotFound, StatusInternalServerError]

theorem GetItem_shape {σ : Type} (p : itemService σ) (id : Int) (s : σ) :
    ResultShape (fun v => v = ItemDTO.zero) (p.GetItem id s) := by
  rcases h : p.ItemRepo.FindByID id s with ⟨⟨x, _ | e⟩, s1⟩ <;>
    simp [ResultShape, itemService.GetItem, h, StatusOK, StatusNotFound, StatusInternalServerError]

theorem GetAllItems_shape {σ : Type} (p : itemService σ) (pg : Pagination) (s : σ) :
    ResultShape (fun v => v = some []) (p.GetAllItems pg s) := by
  rcases h : p.ItemRepo.FindAll pg s with ⟨⟨x, _ | e⟩, s1⟩ <;>
    simp [ResultShape, itemService.GetAllItems, h, StatusOK, StatusNotFound, StatusInternalServerError]

theorem UpdateItem_shape {σ : Type} (p : itemService σ) (id : Int) (patch : Item) (s : σ) :
    ResultShape (fun v => v = ItemDTO.zero) (p.UpdateItem id patch s) := by
  rcases h : p.ItemRepo.FindByID id s with ⟨⟨x, _ | e⟩, s1⟩
  · obtain ⟨m, _, hfail, hok⟩ := (UpdateItem_status p id patch s).2 x s1 h
    rcases hu : p.ItemRepo.Update m s1 with ⟨⟨y, _ | e2⟩, s2⟩
    · rw [hok y s2 hu]; simp [ResultShape]
    · rw [hfail y e2 s2 hu]; simp [ResultShape]
  · rw [(UpdateItem_status p id patch s).1 x e s1 h]; simp [ResultShape]

theorem DeleteItem_shape {σ : Type} (p : itemService σ) (id : Int) (s : σ) :
    ResultShape (fun v => v = ItemDTO.zero) (p.DeleteItem id s) := by
  rcases h : p.ItemRepo.FindByID id s with ⟨⟨x, _ | e⟩, s1⟩
  · rcases hd : p.ItemRepo.Delete x s1 with ⟨_ | e2, s2⟩
    · rw [((DeleteItem_status p id s).2 x s1 h).2 s2 hd]; simp [ResultShape]
    · rw [((DeleteItem_status p id s).2 x s1 h).1 e2 s2 hd]; simp [ResultShape]
  · rw [(DeleteItem_status p id s).1 x e s1 h]; simp [ResultShape]

theorem CreateTruck_shape {σ : Type} (p : truckService σ) (x : Truck) (s : σ) :
    ResultShape (fun v => v = TruckDTO.zero) (p.CreateTruck x s) := by
  rcases h : p.TruckRepo.Save x s with ⟨⟨y, _ | e⟩, s1⟩ <;>
    simp [ResultShape, truckService.CreateTruck, h, StatusOK, StatusNotFound, StatusInternalServerError]

theorem GetTruck_shape {σ : Type} (p : truckService σ) (id : Int) (s : σ) :
    ResultShape (fun v => v = TruckDTO.zero) (p.GetTruck id s) := by
  rcases h : p.TruckRepo.FindByID id s with ⟨⟨x, _ | e⟩, s1⟩ <;>
    simp [ResultShape, truckService.GetTruck, h, StatusOK, StatusNotFound, StatusInternalServerError]

theorem GetAllTrucks_shape {σ : Type} (p : truckService σ) (pg : Pagination) (s : σ) :
    ResultShape (fun v => v = some []) (p.GetAllTrucks pg s) := by
  rcases h : p.TruckRepo.FindAll pg s with ⟨⟨x, _ | e⟩, s1⟩ <;>
    simp [ResultShape, truckService.GetAllTrucks, h, StatusOK, StatusNotFound, StatusInternalServerError]

theorem UpdateTruck_shape {σ : Type} (p : truckService σ) (id : Int) (patch : Truck) (s : σ) :
    ResultShape (fun v => v = TruckDTO.zero) (p.UpdateTruck id patch s) := by
  rcases h : p.TruckRepo.FindByID id s with ⟨⟨x, _ | e⟩, s1⟩
  · obtain ⟨m, _, hfail, hok⟩ := (UpdateTruck_status p id patch s).2 x s1 h
    rcases hu : p.TruckRepo.Update m s1 with ⟨⟨y, _ | e2⟩, s2⟩
    · rw [hok y s2 hu]; simp [ResultShape]
    · rw [hfail y e2 s2 hu]; simp [ResultShape]
  · rw [(UpdateTruck_status p id patch s).1 x e s1 h]; simp [ResultShape]

theorem DeleteTruck_shape {σ : Type} (p : truckService σ) (id : Int) (s : σ) :
    ResultShape (fun v => v = TruckDTO.zero) (p.DeleteTruck id s) := by
  rcases h : p.TruckRepo.FindByID id s with ⟨⟨x, _ | e⟩, s1⟩
  · rcases hd : p.TruckRepo.Delete x s1 with ⟨_ | e2, s2⟩
    · rw [((DeleteTruck_status p id s).2 x s1 h).2 s2 hd]; simp [ResultShape]
    · rw [((DeleteTruck_status p id s).2 x s1 h).1 e2 s2 hd]; simp [ResultShape]
  · rw [(DeleteTruck_status p id s).1 x e s1 h]; simp [ResultShape]

theorem CreateOrder_shape {σ : Type} (p : orderService σ) (x : Order) (s : σ) :
    ResultShape (fun _ => True) (p.CreateOrder x s) := by
  rcases h : p.OrderRepo.Save x s with ⟨⟨y, _ | e⟩, s1⟩ <;>
    simp [ResultShape, orderService.CreateOrder, h, StatusOK, StatusNotFound, StatusInternalServerError]

theorem GetOrder_shape {σ : Type} (p : orderService σ) (id : Int) (s : σ) :
    ResultShape (fun _ => True) (p.GetOrder id s) := by
  rcases h : p.OrderRepo.FindByID id s with ⟨⟨x, _ | e⟩, s1⟩ <;>
    simp [ResultShape, orderService.GetOrder, h, StatusOK, StatusNotFound, StatusInternalServerError]

theorem GetAllOrders_shape {σ : Type} (p : orderService σ) (pg : Pagination) (s : σ) :
    ResultShape (fun _ => True) (p.GetAllOrders pg s) := by
  rcases h : p.OrderRepo.FindAll pg s with ⟨⟨x, _ | e⟩, s1⟩ <;>
    simp [ResultShape, orderService.GetAllOrders, h, StatusOK, StatusNotFound, StatusInternalServerError]

theorem UpdateOrder_shape {σ : Type} (p : orderService σ) (id : Int) (patch : Order) (s : σ) :
    ResultShape (fun _ => True) (p.UpdateOrder id patch s) := by
  rcases h : p.OrderRepo.FindByID id s with ⟨⟨x, _ | e⟩, s1⟩
  · obtain ⟨m, _, hfail, hok⟩ := (UpdateOrder_status p id patch s).2 x s1 h
    rcases hu : p.OrderRepo.Update m s1 with ⟨⟨y, _ | e2⟩, s2⟩
    · rw [hok y s2 hu]; simp [ResultShape]
    · rw [hfail y e2 s2 hu]; simp [ResultShape]
  · rw [(UpdateOrder_status p id patch s).1 x e s1 h]; simp [ResultShape]

theorem DeleteOrder_shape {σ : Type} (p : orderService σ) (id : Int) (s : σ) :
    ResultShape (fun _ => True) (p.DeleteOrder id s) := by
  rcases h : p.OrderRepo.FindByID id s with ⟨⟨x, _ | e⟩, s1⟩
  · rcases hd : p.OrderRepo.Delete x s1 with ⟨_ | e2, s2⟩
    · rw [((DeleteOrder_status p id s).2 x s1 h).2 s2 hd]; simp [ResultShape]
    · rw [((DeleteOrder_status p id s).2 x s1 h).1 e2 s2 hd]; simp [ResultShape]
  · rw [(DeleteOrder_status p id s).1 x e s1 h]; simp [ResultShape]

/-- C29. For every method of the five services that returns a value, a status and an
error, and for every repository: whenever the call returns, the status is 200 if and only
if the error is nil, and a status other than 200 is 401, 404 or 500. -/
theorem services_status_matches_error {σ₁ σ₂ σ₃ σ₄ σ₅ : Type} (u : userService σ₁)
    (r : roleService σ₂) (i : itemService σ₃) (t : truckService σ₄) (o : orderService σ₅)
    (bc : BcryptLib) (rand : String) (lib : JWTLib) (env : Env) (now1 now2 : Instant) :
    (∀ (user : User) (s : σ₁), StatusMatchesError (outcome (u.CreateUser bc rand user s))) ∧
    (∀ (id : Int) (s : σ₁), StatusMatchesError (outcome (u.GetUser id s))) ∧
    (∀ (pg : Pagination) (s : σ₁), StatusMatchesError (outcome (u.GetAllUsers pg s))) ∧
    (∀ (login : Login) (s : σ₁), StatusMatchesError (outcome (u.SignInUser bc lib env now1 now2 login s))) ∧
    (∀ (id : Int) (patch : User) (s : σ₁), StatusMatchesError (outcome (u.UpdateUser id patch s))) ∧
    (∀ (id : Int) (s : σ₁), StatusMatchesError (outcome (u.DeleteUser id s))) ∧
    (∀ (x : Role) (s : σ₂), StatusMatchesError (outcome (r.CreateRole x s))) ∧
    (∀ (id : Int) (s : σ₂), StatusMatchesError (outcome (r.GetRole id s))) ∧
    (∀ (s : σ₂), StatusMatchesError (outcome (r.GetAllRoles s))) ∧
    (∀ (id : Int) (patch : Role) (s : σ₂), StatusMatchesError (outcome (r.UpdateRole id patch s))) ∧
    (∀ (id : Int) (s : σ₂), StatusMatchesError (outcome (r.DeleteRole id s))) ∧
    (∀ (x : Item) (s : σ₃), StatusMatchesError (outcome (i.CreateItem x s))) ∧
    (∀ (id : Int) (s : σ₃), StatusMatchesError (outcome (i.GetItem id s))) ∧
    (∀ (pg : Pagination) (s : σ₃), StatusMatchesError (outcome (i.GetAllItems pg s))) ∧
    (∀ (id : Int) (patch : Item) (s : σ₃), StatusMatchesError (outcome (i.UpdateItem id patch s))) ∧
    (∀ (id : Int) (s : σ₃), StatusMatchesError (outcome (i.DeleteItem id s))) ∧
    (∀ (x : Truck) (s : σ₄), StatusMatchesError (outcome (t.CreateTruck x s))) ∧
    (∀ (id : Int) (s : σ₄), StatusMatchesError (outcome (t.GetTruck id s))) ∧
    (∀ (pg : Pagination) (s : σ₄), StatusMatchesError (outcome (t.GetAllTrucks pg s))) ∧
    (∀ (id : Int) (patch : Truck) (s : σ₄), StatusMatchesError (outcome (t.UpdateTruck id patch s))) ∧
    (∀ (id : Int) (s : σ₄), StatusMatchesError (outcome (t.DeleteTruck id s))) ∧
    (∀ (x : Order) (s : σ₅), StatusMatchesError (outcome (o.CreateOrder x s))) ∧
    (∀ (id : Int) (s : σ₅), StatusMatchesError (outcome (o.GetOrder id s))) ∧
    (∀ (pg : Pagination) (s : σ₅), StatusMatchesError (outcome (o.GetAllOrders pg s))) ∧
    (∀ (id : Int) (patch : Order) (s : σ₅), StatusMatchesError (outcome (o.UpdateOrder id patch s))) ∧
    (∀ (id : Int) (s : σ₅), StatusMatchesError (outcome (o.DeleteOrder id s))) := by
  refine ⟨?_, ?_, ?_, ?_, ?_, ?_, ?_, ?_, ?_, ?_, ?_, ?_, ?_, ?_, ?_, ?_, ?_, ?_, ?_, ?_, ?_, ?_, ?_, ?_, ?_, ?_⟩
  · intro user s
    exact ResultShape_status _ _ (CreateUser_shape u bc rand user s)
  · intro id s
    exact ResultShape_status _ _ (GetUser_shape u id s)
  · intro pg s
    exact ResultShape_status _ _ (GetAllUsers_shape u pg s)
  · intro login s
    exact ResultShape_status _ _ (SignInUser_shape u bc lib env now1 now2 login s)
  · intro id patch s
    exact ResultShape_status _ _ (UpdateUser_shape u id patch s)
  · intro id s
    exact ResultShape_status _ _ (DeleteUser_shape u id s)
  · intro x s
    exact ResultShape_status _ _ (CreateRole_shape r x s)
  · intro id s
    exact ResultShape_status _ _ (GetRole_shape r id s)
  · intro s
    exact ResultShape_status _ _ (GetAllRoles_shape r s)
  · intro id patch s
    exact ResultShape_status _ _ (UpdateRole_shape r id patch s)
  · intro id s
    exact ResultShape_status _ _ (DeleteRole_shape r id s)
  · intro x s
    exact ResultShape_status _ _ (CreateItem_shape i x s)
  · intro id s
    exact ResultShape_status _ _ (GetItem_shape i id s)
  · intro pg s
    exact ResultShape_status _ _ (GetAllItems_shape i pg s)
  · intro id patch s
    exact ResultShape_status _ _ (UpdateItem_shape i id patch s)
  · intro id s
    exact ResultShape_status _ _ (DeleteItem_shape i id s)
  · intro x s
    exact ResultShape_status _ _ (CreateTruck_shape t x s)
  · intro id s
    exact ResultShape_status _ _ (GetTruck_shape t id s)
  · intro pg s
    exact ResultShape_status _ _ (GetAllTrucks_shape t pg s)
  · intro id patch s
    exact ResultShape_status _ _ (UpdateTruck_shape t id patch s)
  · intro id s
    exact ResultShape_status _ _ (DeleteTruck_shape t id s)
  · intro x s
    exact ResultShape_status _ _ (CreateOrder_shape o x s)
  · intro id s
    exact ResultShape_status _ _ (GetOrder_shape o id s)
  · intro pg s
    exact ResultShape_status _ _ (GetAllOrders_shape o pg s)
  · intro id patch s
    exact ResultShape_status _ _ (UpdateOrder_shape o id patch s)
  · intro id s
    exact ResultShape_status _ _ (DeleteOrder_shape o id s)

/-- C26. For the User, Role, Item and Truck services and every repository: a method call
that returns an error returns with it the zero-valued DTO (the empty token for
`SignInUser`; for the `GetAll` methods the empty list that is not nil). -/
theorem services_zero_value_on_error {σ₁ σ₂ σ₃ σ₄ : Type} (u : userService σ₁)
    (r : roleService σ₂) (i : itemService σ₃) (t : truckService σ₄)
    (bc : BcryptLib) (rand : String) (lib : JWTLib) (env : Env) (now1 now2 : Instant) :
    (∀ (user : User) (s : σ₁), ZeroOnError (UserDTO.zero) (u.CreateUser bc rand user s)) ∧
    (∀ (id : Int) (s : σ₁), ZeroOnError (UserDTO.zero) (u.GetUser id s)) ∧
    (∀ (pg : Pagination) (s : σ₁), ZeroOnError (some []) (u.GetAllUsers pg s)) ∧
    (∀ (login : Login) (s : σ₁), ZeroOnError ("") (u.SignInUser bc lib env now1 now2 login s)) ∧
    (∀ (id : Int) (patch : User) (s : σ₁), ZeroOnError (UserDTO.zero) (u.UpdateUser id patch s)) ∧
    (∀ (id : Int) (s : σ₁), ZeroOnError (UserDTO.zero) (u.DeleteUser id s)) ∧
    (∀ (x : Role) (s : σ₂), ZeroOnError (RoleDTO.zero) (r.CreateRole x s)) ∧
    (∀ (id : Int) (s : σ₂), ZeroOnError (RoleDTO.zero) (r.GetRole id s)) ∧
    (∀ (s : σ₂), ZeroOnError (some []) (r.GetAllRoles s)) ∧
    (∀ (id : Int) (patch : Role) (s : σ₂), ZeroOnError (RoleDTO.zero) (r.UpdateRole id patch s)) ∧
    (∀ (id : Int) (s : σ₂), ZeroOnError (RoleDTO.zero) (r.DeleteRole id s)) ∧
    (∀ (x : Item) (s : σ₃), ZeroOnError (ItemDTO.zero) (i.CreateItem x s)) ∧
    (∀ (id : Int) (s : σ₃), ZeroOnError (ItemDTO.zero) (i.GetItem id s)) ∧
    (∀ (pg : Pagination) (s : σ₃), ZeroOnError (some []) (i.GetAllItems pg s)) ∧
    (∀ (id : Int) (patch : Item) (s : σ₃), ZeroOnError (ItemDTO.zero) (i.UpdateItem id patch s)) ∧
    (∀ (id : Int) (s : σ₃), ZeroOnError (ItemDTO.zero) (i.DeleteItem id s)) ∧
    (∀ (x : Truck) (s : σ₄), ZeroOnError (TruckDTO.zero) (t.CreateTruck x s)) ∧
    (∀ (id : Int) (s : σ₄), ZeroOnError (TruckDTO.zero) (t.GetTruck id s)) ∧
    (∀ (pg : Pagination) (s : σ₄), ZeroOnError (some []) (t.GetAllTrucks pg s)) ∧
    (∀ (id : Int) (patch : Truck) (s : σ₄), ZeroOnError (TruckDTO.zero) (t.UpdateTruck id patch s)) ∧
    (∀ (id : Int) (s : σ₄), ZeroOnError (TruckDTO.zero) (t.DeleteTruck id s)) := by
  refine ⟨?_, ?_, ?_, ?_, ?_, ?_, ?_, ?_, ?_, ?_, ?_, ?_, ?_, ?_, ?_, ?_, ?_, ?_, ?_, ?_, ?_⟩
  · intro user s
    exact ResultShape_zero _ _ (CreateUser_shape u bc rand user s)
  · intro id s
    exact ResultShape_zero _ _ (GetUser_shape u id s)
  · intro pg s
    exact ResultShape_zero _ _ (GetAllUsers_shape u pg s)
  · intro login s
    exact ResultShape_zero _ _ (SignInUser_shape u bc lib env now1 now2 login s)
  · intro id patch s
    exact ResultShape_zero _ _ (UpdateUser_shape u id patch s)
  · intro id s
    exact ResultShape_zero _ _ (DeleteUser_shape u id s)
  · intro x s
    exact ResultShape_zero _ _ (CreateRole_shape r x s)
  · intro id s
    exact ResultShape_zero _ _ (GetRole_shape r id s)
  · intro s
    exact ResultShape_zero _ _ (GetAllRoles_shape r s)
  · intro id patch s
    exact ResultShape_zero _ _ (UpdateRole_shape r id patch s)
  · intro id s
    exact ResultShape_zero _ _ (DeleteRole_shape r id s)
  · intro x s
    exact ResultShape_zero _ _ (CreateItem_shape i x s)
  · intro id s
    exact ResultShape_zero _ _ (GetItem_shape i id s)
  · intro pg s
    exact ResultShape_zero _ _ (GetAllItems_shape i pg s)
  · intro id patch s
    exact ResultShape_zero _ _ (UpdateItem_shape i id patch s)
  · intro id s
    exact ResultShape_zero _ _ (DeleteItem_shape i id s)
  · intro x s
    exact ResultShape_zero _ _ (CreateTruck_shape t x s)
  · intro id s
    exact ResultShape_zero _ _ (GetTruck_shape t id s)
  · intro pg s
    exact ResultShape_zero _ _ (GetAllTrucks_shape t pg s)
  · intro id patch s
    exact ResultShape_zero _ _ (UpdateTruck_shape t id patch s)
  · intro id s
    exact ResultShape_zero _ _ (DeleteTruck_shape t id s)

/-! ## No write after a failed lookup -/

/-- C30. For each of the five services, over a repository with a journal of its calls:
when `FindByID` fails, `Update` and `Delete` return 404 with the repository's error, the
journal gains the call of `FindByID` and nothing else (the repository's `Update`,
`Delete` or any other method is not called), and the store is as `FindByID` left it. -/
theorem Update_Delete_no_write_after_failed_FindByID {σ₁ σ₂ σ₃ σ₄ σ₅ : Type}
    (ur : UserRepo σ₁) (rr : RoleRepo (σ₁ × List (Call User))) (rl : RoleRepo σ₂)
    (ir : ItemRepo σ₃) (tr : TruckRepo σ₄) (odr : OrderRepo σ₅) (id : Int) (err : Error) :
    (∀ (patch x : User) s s1 j, ur.FindByID id s = ((x, some err), s1) →
      userService.UpdateUser ⟨ur.traced, rr⟩ id patch (s, j)
        = some ((UserDTO.zero, 404, some err), (s1, j ++ [.FindByID id])) ∧
      userService.DeleteUser ⟨ur.traced, rr⟩ id (s, j)
        = some ((UserDTO.zero, 404, some err), (s1, j ++ [.FindByID id]))) ∧
    (∀ (patch x : Role) s s1 j, rl.FindByID id s = ((x, some err), s1) →
      roleService.UpdateRole ⟨rl.traced⟩ id patch (s, j)
        = some ((RoleDTO.zero, 404, some err), (s1, j ++ [.FindByID id])) ∧
      roleService.DeleteRole ⟨rl.traced⟩ id (s, j)
        = some ((RoleDTO.zero, 404, some err), (s1, j ++ [.FindByID id]))) ∧
    (∀ (patch x : Item) s s1 j, ir.FindByID id s = ((x, some err), s1) →
      itemService.UpdateItem ⟨ir.traced⟩ id patch (s, j)
        = some ((ItemDTO.zero, 404, some err), (s1, j ++ [.FindByID id])) ∧
      itemService.DeleteItem ⟨ir.traced⟩ id (s, j)
        = some ((ItemDTO.zero, 404, some err), (s1, j ++ [.FindByID id]))) ∧
    (∀ (patch x : Truck) s s1 j, tr.FindByID id s = ((x, some err), s1) →
      truckService.UpdateTruck ⟨tr.traced⟩ id patch (s, j)
        = some ((TruckDTO.zero, 404, some err), (s1, j ++ [.FindByID id])) ∧
      truckService.DeleteTruck ⟨tr.traced⟩ id (s, j)
        = some ((TruckDTO.zero, 404, some err), (s1, j ++ [.FindByID id]))) ∧
    (∀ (patch x : Order) s s1 j, odr.FindByID id s = ((x, some err), s1) →
      orderService.UpdateOrder ⟨odr.traced⟩ id patch (s, j)
        = some ((x, 404, some err), (s1, j ++ [.FindByID id])) ∧
      orderService.DeleteOrder ⟨odr.traced⟩ id (s, j)
        = some ((x, 404, some err), (s1, j ++ [.FindByID id]))) := by
  refine ⟨?_, ?_, ?_, ?_, ?_⟩
  · intro patch x s s1 j h
    have ht : (ur.traced).FindByID id (s, j) = ((x, some err), (s1, j ++ [.FindByID id])) := by
      simp [UserRepo.traced, Repo.traced, h]
    exact ⟨(UpdateUser_status ⟨ur.traced, rr⟩ id patch (s, j)).1 x err _ ht,
      (DeleteUser_status ⟨ur.traced, rr⟩ id (s, j)).1 x err _ ht⟩
  · intro patch x s s1 j h
    have ht : (rl.traced).FindByID id (s, j) = ((x, some err), (s1, j ++ [.FindByID id])) := by
      simp [RoleRepo.traced, h]
    exact ⟨(UpdateRole_status ⟨rl.traced⟩ id patch (s, j)).1 x err _ ht,
      (DeleteRole_status ⟨rl.traced⟩ id (s, j)).1 x err _ ht⟩
  · intro patch x s s1 j h
    have ht : (ir.traced).FindByID id (s, j) = ((x, some err), (s1, j ++ [.FindByID id])) := by
      simp [ItemRepo.traced, Repo.traced, h]
    exact ⟨(UpdateItem_status ⟨ir.traced⟩ id patch (s, j)).1 x err _ ht,
      (DeleteItem_status ⟨ir.traced⟩ id (s, j)).1 x err _ ht⟩
  · intro patch x s s1 j h
    have ht : (Repo.traced tr).FindByID id (s, j)
        = ((x, some err), (s1, j ++ [.FindByID id])) := by
      simp [Repo.traced, h]
    exact ⟨(UpdateTruck_status ⟨Repo.traced tr⟩ id patch (s, j)).1 x err _ ht,
      (DeleteTruck_status ⟨Repo.traced tr⟩ id (s, j)).1 x err _ ht⟩
  · intro patch x s s1 j h
    have ht : (Repo.traced odr).FindByID id (s, j)
        = ((x, some err), (s1, j ++ [.FindByID id])) := by
      simp [Repo.traced, h]
    exact ⟨(UpdateOrder_status ⟨Repo.traced odr⟩ id patch (s, j)).1 x err _ ht,
      (DeleteOrder_status ⟨Repo.traced odr⟩ id (s, j)).1 x err _ ht⟩

/-! ## What the handlers answer, outcome by outcome -/

theorem userHandler_CreateUser_answers {σ : Type} (u : userHandler σ) (libs : HandlerLibs)
    (ctx : Context) (s : σ) :
    (∀ x msg, libs.BindUser ctx.RequestBody = (x, some msg) →
      u.CreateUser libs ctx s = some (ctx.JSON 400 (.envelope ⟨400, msg, none⟩), s)) ∧
    (∀ x, libs.BindUser ctx.RequestBody = (x, none) →
      AnswersInEnvelope ctx Data.user (u.userService.CreateUser x s) (u.CreateUser libs ctx s)) := by
  refine ⟨?_, ?_⟩
  · intro x msg hB
    simp only [userHandler.CreateUser, hB, FailedResponse_400]
  · intro x hB
    unfold AnswersInEnvelope
    refine ⟨?_, ?_, ?_⟩
    · intro hc
      simp only [userHandler.CreateUser, hB, hc]
    · intro v status err s1 hc hfive
      simp only [userHandler.CreateUser, hB, hc, FailedResponse_five ctx status err none hfive]
    · intro v status s1 hc
      simp only [userHandler.CreateUser, hB, hc]
      rfl

theorem userHandler_GetUser_answers {σ : Type} (u : userHandler σ) (libs : HandlerLibs)
    (ctx : Context) (s : σ) :
    (∀ n msg, Atoi libs (ctx.Param "id") = (n, some msg) →
      u.GetUser libs ctx s = some (ctx.JSON 400 (.envelope ⟨400, msg, none⟩), s)) ∧
    (∀ id, Atoi libs (ctx.Param "id") = (id, none) →
      AnswersInEnvelope ctx Data.user (u.userService.GetUser id s) (u.GetUser libs ctx s)) := by
  refine ⟨?_, ?_⟩
  · intro n msg hA
    simp only [userHandler.GetUser, hA, FailedResponse_400]
  · intro id hA
    unfold AnswersInEnvelope
    refine ⟨?_, ?_, ?_⟩
    · intro hc
      simp only [userHandler.GetUser, hA, hc]
    · intro v status err s1 hc hfive
      simp only [userHandler.GetUser, hA, hc, FailedResponse_five ctx status err none hfive]
    · intro v status s1 hc
      simp only [userHandler.GetUser, hA, hc]
      rfl

theorem userHandler_GetAllUsers_answers {σ : Type} (u : userHandler σ) (libs : HandlerLibs)
    (ctx : Context) (s : σ) :
    AnswersInEnvelope ctx (fun us => Data.users (libs.MapUserDTOs us))
      (u.userService.GetAllUsers (queryPagination libs ctx) s) (u.GetAllUsers libs ctx s) := by
  unfold AnswersInEnvelope queryPagination
  rcases hA : Atoi libs (ctx.Query "page") with ⟨i, _ | e1⟩ <;>
  rcases hB : Atoi libs (ctx.Query "limit") with ⟨j, _ | e2⟩ <;>
  simp only [reduceCtorEq, if_true, if_false] <;>
  refine ⟨?_, ?_, ?_⟩
  · intro hc
    simp only [userHandler.GetAllUsers, hA, hB, hc]
  · intro v status err s1 hc hfive
    simp only [userHandler.GetAllUsers, hA, hB, hc, FailedResponse_five ctx status err none hfive]
  · intro v status s1 hc
    simp only [userHandler.GetAllUsers, hA, hB, hc]
    rfl
  · intro hc
    simp only [userHandler.GetAllUsers, hA, hB, hc]
  · intro v status err s1 hc hfive
    simp only [userHandler.GetAllUsers, hA, hB, hc, FailedResponse_five ctx status err none hfive]
  · intro v status s1 hc
    simp only [userHandler.GetAllUsers, hA, hB, hc]
    rfl
  · intro hc
    simp only [userHandler.GetAllUsers, hA, hB, hc]
  · intro v status err s1 hc hfive
    simp only [userHandler.GetAllUsers, hA, hB, hc, FailedResponse_five ctx status err none hfive]
  · intro v status s1 hc
    simp only [userHandler.GetAllUsers, hA, hB, hc]
    rfl
  · intro hc
    simp only [userHandler.GetAllUsers, hA, hB, hc]
  · intro v status err s1 hc hfive
    simp only [userHandler.GetAllUsers, hA, hB, hc, FailedResponse_five ctx status err none hfive]
  · intro v status s1 hc
    simp only [userHandler.GetAllUsers, hA, hB, hc]
    rfl

theorem userHandler_SignInUser_answers {σ : Type} (u : userHandler σ) (libs : HandlerLibs)
    (ctx : Context) (s : σ) :
    (∀ x msg, libs.BindLogin ctx.RequestBody = (x, some msg) →
      u.SignInUser libs ctx s = some (ctx.JSON 400 (.envelope ⟨400, msg, none⟩), s)) ∧
    (∀ x, libs.BindLogin ctx.RequestBody = (x, none) →
      (u.userService.SignInUser x s = none → u.SignInUser libs ctx s = none) ∧
      (∀ tok status err s1, u.userService.SignInUser x s = some ((tok, status, some err), s1) →
        (status = 400 ∨ status = 401 ∨ status = 403 ∨ status = 404 ∨ status = 500) →
        u.SignInUser libs ctx s
          = some (ctx.JSON status (.envelope ⟨status, err, none⟩), s1)) ∧
      (∀ tok status s1, u.userService.SignInUser x s = some ((tok, status, none), s1) →
        u.SignInUser libs ctx s
          = some ((ctx.Header "Authorization" tok).JSON 200
              (.envelope ⟨200, "Success", none⟩), s1))) := by
  refine ⟨?_, ?_⟩
  · intro x msg hB
    simp only [userHandler.SignInUser, hB, FailedResponse_400]
  · intro x hB
    refine ⟨?_, ?_, ?_⟩
    · intro hc
      simp only [userHandler.SignInUser, hB, hc]
    · intro tok status err s1 hc hfive
      simp only [userHandler.SignInUser, hB, hc,
        FailedResponse_five ctx status err none hfive]
    · intro tok status s1 hc
      simp only [userHandler.SignInUser, hB, hc]
      rfl

theorem userHandler_SignOutUser_answers {σ : Type} (u : userHandler σ) (libs : HandlerLibs)
    (ctx : Context) (s : σ) :
    (u.userService.SignOutUser s = none → u.SignOutUser libs ctx s = none) ∧
    (∀ tok s1, u.userService.SignOutUser s = some (tok, s1) →
      u.SignOutUser libs ctx s
        = some ((ctx.Header "Authorization" tok).JSON 200
            (.envelope ⟨200, "Success",
              some (.H [("message", "User logged out successfully")])⟩), s1)) := by
  refine ⟨?_, ?_⟩
  · intro hc
    simp only [userHandler.SignOutUser, hc]
  · intro tok s1 hc
    simp only [userHandler.SignOutUser, hc]
    rfl

theorem userHandler_UpdateUser_answers {σ : Type} (u : userHandler σ) (libs : HandlerLibs)
    (ctx : Context) (s : σ) :
    (∀ n msg, Atoi libs (ctx.Param "id") = (n, some msg) →
      u.UpdateUser libs ctx s = some (ctx.JSON 400 (.envelope ⟨400, msg, none⟩), s)) ∧
    (∀ id x msg, Atoi libs (ctx.Param "id") = (id, none) →
      libs.BindUser ctx.RequestBody = (x, some msg) →
      u.UpdateUser libs ctx s = some (ctx.JSON 400 (.envelope ⟨400, msg, none⟩), s)) ∧
    (∀ id x, Atoi libs (ctx.Param "id") = (id, none) →
      libs.BindUser ctx.RequestBody = (x, none) →
      AnswersInEnvelope ctx Data.user (u.userService.UpdateUser id x s) (u.UpdateUser libs ctx s)) := by
  refine ⟨?_, ?_, ?_⟩
  · intro n msg hA
    simp only [userHandler.UpdateUser, hA, FailedResponse_400]
  · intro id x msg hA hB
    simp only [userHandler.UpdateUser, hA, hB, FailedResponse_400]
  · intro id x hA hB
    unfold AnswersInEnvelope
    refine ⟨?_, ?_, ?_⟩
    · intro hc
      simp only [userHandler.UpdateUser, hA, hB, hc]
    · intro v status err s1 hc hfive
      simp only [userHandler.UpdateUser, hA, hB, hc, FailedResponse_five ctx status err none hfive]
    · intro v status s1 hc
      simp only [userHandler.UpdateUser, hA, hB, hc]
      rfl

theorem userHandler_DeleteUser_answers {σ : Type} (u : userHandler σ) (libs : HandlerLibs)
    (ctx : Context) (s : σ) :
    (∀ n msg, Atoi libs (ctx.Param "id") = (n, some msg) →
      u.DeleteUser libs ctx s = some (ctx.JSON 400 (.envelope ⟨400, msg, none⟩), s)) ∧
    (∀ id, Atoi libs (ctx.Param "id") = (id, none) →
      AnswersInEnvelope ctx Data.user (u.userService.DeleteUser id s) (u.DeleteUser libs ctx s)) := by
  refine ⟨?_, ?_⟩
  · intro n msg hA
    simp only [userHandler.DeleteUser, hA, FailedResponse_400]
  · intro id hA
    unfold AnswersInEnvelope
    refine ⟨?_, ?_, ?_⟩
    · intro hc
      simp only [userHandler.DeleteUser, hA, hc]
    · intro v status err s1 hc hfive
      simp only [userHandler.DeleteUser, hA, hc, FailedResponse_five ctx status err none hfive]
    · intro v status s1 hc
      simp only [userHandler.DeleteUser, hA, hc]
      rfl

theorem userHandler_CreateRole_answers {σ : Type} (u : userHandler σ) (libs : HandlerLibs)
    (ctx : Context) (s : σ) :
    (∀ x msg, libs.BindRole ctx.RequestBody = (x, some msg) →
      u.CreateRole libs ctx s = some (ctx.JSON 400 (.envelope ⟨400, msg, none⟩), s)) ∧
    (∀ x, libs.BindRole ctx.RequestBody = (x, none) →
      AnswersInEnvelope ctx Data.role (u.roleService.CreateRole x s) (u.CreateRole libs ctx s)) := by
  refine ⟨?_, ?_⟩
  · intro x msg hB
    simp only [userHandler.CreateRole, hB, FailedResponse_400]
  · intro x hB
    unfold AnswersInEnvelope
    refine ⟨?_, ?_, ?_⟩
    · intro hc
      simp only [userHandler.CreateRole, hB, hc]
    · intro v status err s1 hc hfive
      simp only [userHandler.CreateRole, hB, hc, FailedResponse_five ctx status err none hfive]
    · intro v status s1 hc
      simp only [userHandler.CreateRole, hB, hc]
      rfl

theorem userHandler_GetRole_answers {σ : Type} (u : userHandler σ) (libs : HandlerLibs)
    (ctx : Context) (s : σ) :
    (∀ n msg, Atoi libs (ctx.Param "id") = (n, some msg) →
      u.GetRole libs ctx s = some (ctx.JSON 400 (.envelope ⟨400, msg, none⟩), s)) ∧
    (∀ id, Atoi libs (ctx.Param "id") = (id, none) →
      AnswersInEnvelope ctx Data.role (u.roleService.GetRole id s) (u.GetRole libs ctx s)) := by
  refine ⟨?_, ?_⟩
  · intro n msg hA
    simp only [userHandler.GetRole, hA, FailedResponse_400]
  · intro id hA
    unfold AnswersInEnvelope
    refine ⟨?_, ?_, ?_⟩
    · intro hc
      simp only [userHandler.GetRole, hA, hc]
    · intro v status err s1 hc hfive
      simp only [userHandler.GetRole, hA, hc, FailedResponse_five ctx status err none hfive]
    · intro v status s1 hc
      simp only [userHandler.GetRole, hA, hc]
      rfl

theorem userHandler_GetAllRoles_answers {σ : Type} (u : userHandler σ) (libs : HandlerLibs)
    (ctx : Context) (s : σ) :
    AnswersInEnvelope ctx Data.roles (u.roleService.GetAllRoles s) (u.GetAllRoles libs ctx s) := by
  unfold AnswersInEnvelope
  refine ⟨?_, ?_, ?_⟩
  · intro hc
    simp only [userHandler.GetAllRoles, hc]
  · intro v status err s1 hc hfive
    simp only [userHandler.GetAllRoles, hc, FailedResponse_five ctx status err none hfive]
  · intro v status s1 hc
    simp only [userHandler.GetAllRoles, hc]
    rfl

theorem userHandler_UpdateRole_answers {σ : Type} (u : userHandler σ) (libs : HandlerLibs)
    (ctx : Context) (s : σ) :
    (∀ n msg, Atoi libs (ctx.Param "id") = (n, some msg) →
      u.UpdateRole libs ctx s = some (ctx.JSON 400 (.envelope ⟨400, msg, none⟩), s)) ∧
    (∀ id x msg, Atoi libs (ctx.Param "id") = (id, none) →
      libs.BindRole ctx.RequestBody = (x, some msg) →
      u.UpdateRole libs ctx s = some (ctx.JSON 400 (.envelope ⟨400, msg, none⟩), s)) ∧
    (∀ id x, Atoi libs (ctx.Param "id") = (id, none) →
      libs.BindRole ctx.RequestBody = (x, none) →
      AnswersInEnvelope ctx Data.role (u.roleService.UpdateRole id x s) (u.UpdateRole libs ctx s)) := by
  refine ⟨?_, ?_, ?_⟩
  · intro n msg hA
    simp only [userHandler.UpdateRole, hA, FailedResponse_400]
  · intro id x msg hA hB
    simp only [userHandler.UpdateRole, hA, hB, FailedResponse_400]
  · intro id x hA hB
    unfold AnswersInEnvelope
    refine ⟨?_, ?_, ?_⟩
    · intro hc
      simp only [userHandler.UpdateRole, hA, hB, hc]
    · intro v status err s1 hc hfive
      simp only [userHandler.UpdateRole, hA, hB, hc, FailedResponse_five ctx status err none hfive]
    · intro v status s1 hc
      simp only [userHandler.UpdateRole, hA, hB, hc]
      rfl

theorem userHandler_DeleteRole_answers {σ : Type} (u : userHandler σ) (libs : HandlerLibs)
    (ctx : Context) (s : σ) :
    (∀ n msg, Atoi libs (ctx.Param "id") = (n, some msg) →
      u.DeleteRole libs ctx s = some (ctx.JSON 400 (.envelope ⟨400, msg, none⟩), s)) ∧
    (∀ id, Atoi libs (ctx.Param "id") = (id, none) →
      AnswersInEnvelope ctx Data.role (u.roleService.DeleteRole id s) (u.DeleteRole libs ctx s)) := by
  refine ⟨?_, ?_⟩
  · intro n msg hA
    simp only [userHandler.DeleteRole, hA, FailedResponse_400]
  · intro id hA
    unfold AnswersInEnvelope
    refine ⟨?_, ?_, ?_⟩
    · intro hc
      simp only [userHandler.DeleteRole, hA, hc]
    · intro v status err s1 hc hfive
      simp only [userHandler.DeleteRole, hA, hc, FailedResponse_five ctx status err none hfive]
    · intro v status s1 hc
      simp only [userHandler.DeleteRole, hA, hc]
      rfl

theorem truckHandler_CreateTruck_answers {σ : Type} (t : truckHandler σ) (libs : HandlerLibs)
    (ctx : Context) (s : σ) :
    (∀ x msg, libs.BindTruck ctx.RequestBody = (x, some msg) →
      t.CreateTruck libs ctx s = some (ctx.JSON 400 (.envelope ⟨400, msg, none⟩), s)) ∧
    (∀ x, libs.BindTruck ctx.RequestBody = (x, none) →
      AnswersInEnvelope ctx Data.truck (t.truckService.CreateTruck x s) (t.CreateTruck libs ctx s)) := by
  refine ⟨?_, ?_⟩
  · intro x msg hB
    simp only [truckHandler.CreateTruck, hB, FailedResponse_400]
  · intro x hB
    unfold AnswersInEnvelope
    refine ⟨?_, ?_, ?_⟩
    · intro hc
      simp only [truckHandler.CreateTruck, hB, hc]
    · intro v status err s1 hc hfive
      simp only [truckHandler.CreateTruck, hB, hc, FailedResponse_five ctx status err none hfive]
    · intro v status s1 hc
      simp only [truckHandler.CreateTruck, hB, hc]
      rfl

theorem truckHandler_GetTruck_answers {σ : Type} (t : truckHandler σ) (libs : HandlerLibs)
    (ctx : Context) (s : σ) :
    (∀ n msg, Atoi libs (ctx.Param "id") = (n, some msg) →
      t.GetTruck libs ctx s = some (ctx.JSON 400 (.envelope ⟨400, msg, none⟩), s)) ∧
    (∀ id, Atoi libs (ctx.Param "id") = (id, none) →
      AnswersInEnvelope ctx Data.truck (t.truckService.GetTruck id s) (t.GetTruck libs ctx s)) := by
  refine ⟨?_, ?_⟩
  · intro n msg hA
    simp only [truckHandler.GetTruck, hA, FailedResponse_400]
  · intro id hA
    unfold AnswersInEnvelope
    refine ⟨?_, ?_, ?_⟩
    · intro hc
      simp only [truckHandler.GetTruck, hA, hc]
    · intro v status err s1 hc hfive
      simp only [truckHandler.GetTruck, hA, hc, FailedResponse_five ctx status err none hfive]
    · intro v status s1 hc
      simp only [truckHandler.GetTruck, hA, hc]
      rfl

theorem truckHandler_GetAllTrucks_answers {σ : Type} (t : truckHandler σ) (libs : HandlerLibs)
    (ctx : Context) (s : σ) :
    (∀ pg msg, ctx.ShouldBindQuery libs ⟨0, 0⟩ = (pg, some msg) →
      t.GetAllTrucks libs ctx s = some (ctx.JSON 400 (.envelope ⟨400, msg, none⟩), s)) ∧
    (∀ pg, ctx.ShouldBindQuery libs ⟨0, 0⟩ = (pg, none) →
      AnswersInEnvelope ctx Data.trucks (t.truckService.GetAllTrucks pg s) (t.GetAllTrucks libs ctx s)) := by
  refine ⟨?_, ?_⟩
  · intro pg msg hB
    simp only [truckHandler.GetAllTrucks, hB, FailedResponse_400]
  · intro pg hB
    unfold AnswersInEnvelope
    refine ⟨?_, ?_, ?_⟩
    · intro hc
      simp only [truckHandler.GetAllTrucks, hB, hc]
    · intro v status err s1 hc hfive
      simp only [truckHandler.GetAllTrucks, hB, hc, FailedResponse_five ctx status err none hfive]
    · intro v status s1 hc
      simp only [truckHandler.GetAllTrucks, hB, hc]
      rfl

theorem truckHandler_UpdateTruck_answers {σ : Type} (t : truckHandler σ) (libs : HandlerLibs)
    (ctx : Context) (s : σ) :
    (∀ n msg, Atoi libs (ctx.Param "id") = (n, some msg) →
      t.UpdateTruck libs ctx s = some (ctx.JSON 400 (.envelope ⟨400, msg, none⟩), s)) ∧
    (∀ id x msg, Atoi libs (ctx.Param "id") = (id, none) →
      libs.BindTruck ctx.RequestBody = (x, some msg) →
      t.UpdateTruck libs ctx s = some (ctx.JSON 400 (.envelope ⟨400, msg, none⟩), s)) ∧
    (∀ id x, Atoi libs (ctx.Param "id") = (id, none) →
      libs.BindTruck ctx.RequestBody = (x, none) →
      AnswersInEnvelope ctx Data.truck (t.truckService.UpdateTruck id x s) (t.UpdateTruck libs ctx s)) := by
  refine ⟨?_, ?_, ?_⟩
  · intro n msg hA
    simp only [truckHandler.UpdateTruck, hA, FailedResponse_400]
  · intro id x msg hA hB
    simp only [truckHandler.UpdateTruck, hA, hB, FailedResponse_400]
  · intro id x hA hB
    unfold AnswersInEnvelope
    refine ⟨?_, ?_, ?_⟩
    · intro hc
      simp only [truckHandler.UpdateTruck, hA, hB, hc]
    · intro v status err s1 hc hfive
      simp only [truckHandler.UpdateTruck, hA, hB, hc, FailedResponse_five ctx status err none hfive]
    · intro v status s1 hc
      simp only [truckHandler.UpdateTruck, hA, hB, hc]
      rfl

theorem truckHandler_DeleteTruck_answers {σ : Type} (t : truckHandler σ) (libs : HandlerLibs)
    (ctx : Context) (s : σ) :
    (∀ n msg, Atoi libs (ctx.Param "id") = (n, some msg) →
      t.DeleteTruck libs ctx s = some (ctx.JSON 400 (.envelope ⟨400, msg, none⟩), s)) ∧
    (∀ id, Atoi libs (ctx.Param "id") = (id, none) →
      AnswersInEnvelope ctx Data.truck (t.truckService.DeleteTruck id s) (t.DeleteTruck libs ctx s)) := by
  refine ⟨?_, ?_⟩
  · intro n msg hA
    simp only [truckHandler.DeleteTruck, hA, FailedResponse_400]
  · intro id hA
    unfold AnswersInEnvelope
    refine ⟨?_, ?_, ?_⟩
    · intro hc
      simp only [truckHandler.DeleteTruck, hA, hc]
    · intro v status err s1 hc hfive
      simp only [truckHandler.DeleteTruck, hA, hc, FailedResponse_five ctx status err none hfive]
    · intro v status s1 hc
      simp only [truckHandler.DeleteTruck, hA, hc]
      rfl

theorem itemHandler_CreateItem_answers {σ : Type} (i : itemHandler σ) (libs : HandlerLibs)
    (ctx : Context) (s : σ) :
    (∀ x msg, libs.BindItem ctx.RequestBody = (x, some msg) →
      i.CreateItem libs ctx s = some (ctx.JSON 400 (.raw (.H [("error", msg)])), s)) ∧
    (∀ x, libs.BindItem ctx.RequestBody = (x, none) →
      AnswersBare ctx Data.item (i.itemService.CreateItem x s) (i.CreateItem libs ctx s)) := by
  refine ⟨?_, ?_⟩
  · intro x msg hB
    simp only [itemHandler.CreateItem, hB, StatusBadRequest]
  · intro x hB
    unfold AnswersBare
    refine ⟨?_, ?_, ?_⟩
    · intro hc
      simp only [itemHandler.CreateItem, hB, hc]
    · intro v status err s1 hc
      simp only [itemHandler.CreateItem, hB, hc]
    · intro v status s1 hc
      simp only [itemHandler.CreateItem, hB, hc]

theorem itemHandler_GetItem_answers {σ : Type} (i : itemHandler σ) (libs : HandlerLibs)
    (ctx : Context) (s : σ) :
    (∀ n msg, Atoi libs (ctx.Param "id") = (n, some msg) →
      i.GetItem libs ctx s = some (ctx.JSON 400 (.raw (.H [("error", msg)])), s)) ∧
    (∀ id, Atoi libs (ctx.Param "id") = (id, none) →
      AnswersBare ctx Data.item (i.itemService.GetItem id s) (i.GetItem libs ctx s)) := by
  refine ⟨?_, ?_⟩
  · intro n msg hA
    simp only [itemHandler.GetItem, hA, StatusBadRequest]
  · intro id hA
    unfold AnswersBare
    refine ⟨?_, ?_, ?_⟩
    · intro hc
      simp only [itemHandler.GetItem, hA, hc]
    · intro v status err s1 hc
      simp only [itemHandler.GetItem, hA, hc]
    · intro v status s1 hc
      simp only [itemHandler.GetItem, hA, hc]

theorem itemHandler_GetAllItems_answers {σ : Type} (i : itemHandler σ) (libs : HandlerLibs)
    (ctx : Context) (s : σ) :
    AnswersBare ctx Data.items
      (i.itemService.GetAllItems (queryPagination libs ctx) s) (i.GetAllItems libs ctx s) := by
  unfold AnswersBare queryPagination
  rcases hA : Atoi libs (ctx.Query "page") with ⟨i, _ | e1⟩ <;>
  rcases hB : Atoi libs (ctx.Query "limit") with ⟨j, _ | e2⟩ <;>
  simp only [reduceCtorEq, if_true, if_false] <;>
  refine ⟨?_, ?_, ?_⟩
  · intro hc
    simp only [itemHandler.GetAllItems, hA, hB, hc]
  · intro v status err s1 hc
    simp only [itemHandler.GetAllItems, hA, hB, hc]
  · intro v status s1 hc
    simp only [itemHandler.GetAllItems, hA, hB, hc]
  · intro hc
    simp only [itemHandler.GetAllItems, hA, hB, hc]
  · intro v status err s1 hc
    simp only [itemHandler.GetAllItems, hA, hB, hc]
  · intro v status s1 hc
    simp only [itemHandler.GetAllItems, hA, hB, hc]
  · intro hc
    simp only [itemHandler.GetAllItems, hA, hB, hc]
  · intro v status err s1 hc
    simp only [itemHandler.GetAllItems, hA, hB, hc]
  · intro v status s1 hc
    simp only [itemHandler.GetAllItems, hA, hB, hc]
  · intro hc
    simp only [itemHandler.GetAllItems, hA, hB, hc]
  · intro v status err s1 hc
    simp only [itemHandler.GetAllItems, hA, hB, hc]
  · intro v status s1 hc
    simp only [itemHandler.GetAllItems, hA, hB, hc]

theorem itemHandler_UpdateItem_answers {σ : Type} (i : itemHandler σ) (libs : HandlerLibs)
    (ctx : Context) (s : σ) :
    (∀ n msg, Atoi libs (ctx.Param "id") = (n, some msg) →
      i.UpdateItem libs ctx s = some (ctx.JSON 400 (.raw (.H [("error", msg)])), s)) ∧
    (∀ id x msg, Atoi libs (ctx.Param "id") = (id, none) →
      libs.BindItem ctx.RequestBody = (x, some msg) →
      i.UpdateItem libs ctx s = some (ctx.JSON 400 (.raw (.H [("error", msg)])), s)) ∧
    (∀ id x, Atoi libs (ctx.Param "id") = (id, none) →
      libs.BindItem ctx.RequestBody = (x, none) →
      AnswersBare ctx Data.item (i.itemService.UpdateItem id x s) (i.UpdateItem libs ctx s)) := by
  refine ⟨?_, ?_, ?_⟩
  · intro n msg hA
    simp only [itemHandler.UpdateItem, hA, StatusBadRequest]
  · intro id x msg hA hB
    simp only [itemHandler.UpdateItem, hA, hB, StatusBadRequest]
  · intro id x hA hB
    unfold AnswersBare
    refine ⟨?_, ?_, ?_⟩
    · intro hc
      simp only [itemHandler.UpdateItem, hA, hB, hc]
    · intro v status err s1 hc
      simp only [itemHandler.UpdateItem, hA, hB, hc]
    · intro v status s1 hc
      simp only [itemHandler.UpdateItem, hA, hB, hc]

theorem itemHandler_DeleteItem_answers {σ : Type} (i : itemHandler σ) (libs : HandlerLibs)
    (ctx : Context) (s : σ) :
    (∀ n msg, Atoi libs (ctx.Param "id") = (n, some msg) →
      i.DeleteItem libs ctx s = some (ctx.JSON 400 (.raw (.H [("error", msg)])), s)) ∧
    (∀ id, Atoi libs (ctx.Param "id") = (id, none) →
      AnswersBare ctx Data.item (i.itemService.DeleteItem id s) (i.DeleteItem libs ctx s)) := by
  refine ⟨?_, ?_⟩
  · intro n msg hA
    simp only [itemHandler.DeleteItem, hA, StatusBadRequest]
  · intro id hA
    unfold AnswersBare
    refine ⟨?_, ?_, ?_⟩
    · intro hc
      simp only [itemHandler.DeleteItem, hA, hc]
    · intro v status err s1 hc
      simp only [itemHandler.DeleteItem, hA, hc]
    · intro v status s1 hc
      simp only [itemHandler.DeleteItem, hA, hc]

theorem orderHandler_CreateOrder_answers {σ : Type} (o : orderHandler σ) (libs : HandlerLibs)
    (ctx : Context) (s : σ) :
    (∀ x msg, libs.BindOrder ctx.RequestBody = (x, some msg) →
      o.CreateOrder libs ctx s = some (ctx.JSON 400 (.raw (.H [("error", msg)])), s)) ∧
    (∀ x, libs.BindOrder ctx.RequestBody = (x, none) →
      AnswersBare ctx Data.order (o.orderService.CreateOrder x s) (o.CreateOrder libs ctx s)) := by
  refine ⟨?_, ?_⟩
  · intro x msg hB
    simp only [orderHandler.CreateOrder, hB, StatusBadRequest]
  · intro x hB
    unfold AnswersBare
    refine ⟨?_, ?_, ?_⟩
    · intro hc
      simp only [orderHandler.CreateOrder, hB, hc]
    · intro v status err s1 hc
      simp only [orderHandler.CreateOrder, hB, hc]
    · intro v status s1 hc
      simp only [orderHandler.CreateOrder, hB, hc]

theorem orderHandler_GetOrder_answers {σ : Type} (o : orderHandler σ) (libs : HandlerLibs)
    (ctx : Context) (s : σ) :
    (∀ n msg, Atoi libs (ctx.Param "id") = (n, some msg) →
      o.GetOrder libs ctx s = some (ctx.JSON 400 (.raw (.H [("error", msg)])), s)) ∧
    (∀ id, Atoi libs (ctx.Param "id") = (id, none) →
      AnswersBare ctx Data.order (o.orderService.GetOrder id s) (o.GetOrder libs ctx s)) := by
  refine ⟨?_, ?_⟩
  · intro n msg hA
    simp only [orderHandler.GetOrder, hA, StatusBadRequest]
  · intro id hA
    unfold AnswersBare
    refine ⟨?_, ?_, ?_⟩
    · intro hc
      simp only [orderHandler.GetOrder, hA, hc]
    · intro v status err s1 hc
      simp only [orderHandler.GetOrder, hA, hc]
    · intro v status s1 hc
      simp only [orderHandler.GetOrder, hA, hc]

theorem orderHandler_GetAllOrders_answers {σ : Type} (o : orderHandler σ) (libs : HandlerLibs)
    (ctx : Context) (s : σ) :
    AnswersBare ctx Data.orders
      (o.orderService.GetAllOrders (queryPagination libs ctx) s) (o.GetAllOrders libs ctx s) := by
  unfold AnswersBare queryPagination
  rcases hA : Atoi libs (ctx.Query "page") with ⟨i, _ | e1⟩ <;>
  rcases hB : Atoi libs (ctx.Query "limit") with ⟨j, _ | e2⟩ <;>
  simp only [reduceCtorEq, if_true, if_false] <;>
  refine ⟨?_, ?_, ?_⟩
  · intro hc
    simp only [orderHandler.GetAllOrders, hA, hB, hc]
  · intro v status err s1 hc
    simp only [orderHandler.GetAllOrders, hA, hB, hc]
  · intro v status s1 hc
    simp only [orderHandler.GetAllOrders, hA, hB, hc]
  · intro hc
    simp only [orderHandler.GetAllOrders, hA, hB, hc]
  · intro v status err s1 hc
    simp only [orderHandler.GetAllOrders, hA, hB, hc]
  · intro v status s1 hc
    simp only [orderHandler.GetAllOrders, hA, hB, hc]
  · intro hc
    simp only [orderHandler.GetAllOrders, hA, hB, hc]
  · intro v status err s1 hc
    simp only [orderHandler.GetAllOrders, hA, hB, hc]
  · intro v status s1 hc
    simp only [orderHandler.GetAllOrders, hA, hB, hc]
  · intro hc
    simp only [orderHandler.GetAllOrders, hA, hB, hc]
  · intro v status err s1 hc
    simp only [orderHandler.GetAllOrders, hA, hB, hc]
  · intro v status s1 hc
    simp only [orderHandler.GetAllOrders, hA, hB, hc]

theorem orderHandler_UpdateOrder_answers {σ : Type} (o : orderHandler σ) (libs : HandlerLibs)
    (ctx : Context) (s : σ) :
    (∀ n msg, Atoi libs (ctx.Param "id") = (n, some msg) →
      o.UpdateOrder libs ctx s = some (ctx.JSON 400 (.raw (.H [("error", msg)])), s)) ∧
    (∀ id x msg, Atoi libs (ctx.Param "id") = (id, none) →
      libs.BindOrder ctx.RequestBody = (x, some msg) →
      o.UpdateOrder libs ctx s = some (ctx.JSON 400 (.raw (.H [("error", msg)])), s)) ∧
    (∀ id x, Atoi libs (ctx.Param "id") = (id, none) →
      libs.BindOrder ctx.RequestBody = (x, none) →
      AnswersBare ctx Data.order (o.orderService.UpdateOrder id x s) (o.UpdateOrder libs ctx s)) := by
  refine ⟨?_, ?_, ?_⟩
  · intro n msg hA
    simp only [orderHandler.UpdateOrder, hA, StatusBadRequest]
  · intro id x msg hA hB
    simp only [orderHandler.UpdateOrder, hA, hB, StatusBadRequest]
  · intro id x hA hB
    unfold AnswersBare
    refine ⟨?_, ?_, ?_⟩
    · intro hc
      simp only [orderHandler.UpdateOrder, hA, hB, hc]
    · intro v status err s1 hc
      simp only [orderHandler.UpdateOrder, hA, hB, hc]
    · intro v status s1 hc
      simp only [orderHandler.UpdateOrder, hA, hB, hc]

theorem orderHandler_DeleteOrder_answers {σ : Type} (o : orderHandler σ) (libs : HandlerLibs)
    (ctx : Context) (s : σ) :
    (∀ n msg, Atoi libs (ctx.Param "id") = (n, some msg) →
      o.DeleteOrder libs ctx s = some (ctx.JSON 400 (.raw (.H [("error", msg)])), s)) ∧
    (∀ id, Atoi libs (ctx.Param "id") = (id, none) →
      AnswersBare ctx Data.order (o.orderService.DeleteOrder id s) (o.DeleteOrder libs ctx s)) := by
  refine ⟨?_, ?_⟩
  · intro n msg hA
    simp only [orderHandler.DeleteOrder, hA, StatusBadRequest]
  · intro id hA
    unfold AnswersBare
    refine ⟨?_, ?_, ?_⟩
    · intro hc
      simp only [orderHandler.DeleteOrder, hA, hc]
    · intro v status err s1 hc
      simp only [orderHandler.DeleteOrder, hA, hc]
    · intro v status s1 hc
      simp only [orderHandler.DeleteOrder, hA, hc]

/-- C21, counterexample. With an item service that answers with success, `GetItem` for
the id `1` writes the bare `ItemDTO` with status 200, and for the id `invalid` it writes
the object with the one entry `error` with status 400; neither body is the envelope. -/
theorem GetItem_writes_no_envelope :
    itemHandler.GetItem ⟨stubItemService⟩ toyLibs (paramRequest "1") ()
      = some ((paramRequest "1").JSON 200 (.raw (.item ItemDTO.zero)), ()) ∧
    itemHandler.GetItem ⟨stubItemService⟩ toyLibs (paramRequest "invalid") ()
      = some ((paramRequest "invalid").JSON 400
          (.raw (.H [("error", "strconv.Atoi: parsing \"invalid\": invalid syntax")])), ()) ∧
    (∀ r : JSONResult, Body.raw (.item ItemDTO.zero) ≠ Body.envelope r) ∧
    (∀ (r : JSONResult) (msg : String), Body.raw (.H [("error", msg)]) ≠ Body.envelope r) :=
  ⟨rfl, rfl, fun _ h => Body.noConfusion h, fun _ _ h => Body.noConfusion h⟩

/-- C21, amended. Each of the 27 handlers, outcome by outcome, for every service.
The handlers of users, roles and trucks (sign-in and sign-out included) answer in the
envelope: an id, a body or, for `GetAllTrucks`, a query that does not parse is answered
with HTTP status 400 and the envelope of code 400 and the parser's text, and the service
is not called; an error of the service with one of the statuses 400, 401, 403, 404 and
500 is answered with that status and the envelope of that code and the error's text;
success is answered with status 200 and the envelope of code 200 and message `Success`
that carries the service's value (no data for sign-in, the logout message for sign-out,
which both set the `Authorization` header). The handlers of items and orders answer
without the envelope: what does not parse is answered with status 400 and the object with
the one entry `error`; an error of the service with the service's status and such an
object; success with the service's status and the bare item, order or list. A handler
panics only when its service does. -/
theorem handlers_answer_by_outcome {σ : Type} (u : userHandler σ) (t : truckHandler σ)
    (i : itemHandler σ) (o : orderHandler σ) (libs : HandlerLibs) (ctx : Context) (s : σ) :
    ((∀ x msg, libs.BindUser ctx.RequestBody = (x, some msg) →
      u.CreateUser libs ctx s = some (ctx.JSON 400 (.envelope ⟨400, msg, none⟩), s)) ∧
    (∀ x, libs.BindUser ctx.RequestBody = (x, none) →
      AnswersInEnvelope ctx Data.user (u.userService.CreateUser x s) (u.CreateUser libs ctx s))) ∧
    ((∀ n msg, Atoi libs (ctx.Param "id") = (n, some msg) →
      u.GetUser libs ctx s = some (ctx.JSON 400 (.envelope ⟨400, msg, none⟩), s)) ∧
    (∀ id, Atoi libs (ctx.Param "id") = (id, none) →
      AnswersInEnvelope ctx Data.user (u.userService.GetUser id s) (u.GetUser libs ctx s))) ∧
    (AnswersInEnvelope ctx (fun us => Data.users (libs.MapUserDTOs us))
      (u.userService.GetAllUsers (queryPagination libs ctx) s) (u.GetAllUsers libs ctx s)) ∧
    ((∀ x msg, libs.BindLogin ctx.RequestBody = (x, some msg) →
      u.SignInUser libs ctx s = some (ctx.JSON 400 (.envelope ⟨400, msg, none⟩), s)) ∧
    (∀ x, libs.BindLogin ctx.RequestBody = (x, none) →
      (u.userService.SignInUser x s = none → u.SignInUser libs ctx s = none) ∧
      (∀ tok status err s1, u.userService.SignInUser x s = some ((tok, status, some err), s1) →
        (status = 400 ∨ status = 401 ∨ status = 403 ∨ status = 404 ∨ status = 500) →
        u.SignInUser libs ctx s
          = some (ctx.JSON status (.envelope ⟨status, err, none⟩), s1)) ∧
      (∀ tok status s1, u.userService.SignInUser x s = some ((tok, status, none), s1) →
        u.SignInUser libs ctx s
          = some ((ctx.Header "Authorization" tok).JSON 200
              (.envelope ⟨200, "Success", none⟩), s1)))) ∧
    ((u.userService.SignOutUser s = none → u.SignOutUser libs ctx s = none) ∧
    (∀ tok s1, u.userService.SignOutUser s = some (tok, s1) →
      u.SignOutUser libs ctx s
        = some ((ctx.Header "Authorization" tok).JSON 200
            (.envelope ⟨200, "Success",
              some (.H [("message", "User logged out successfully")])⟩), s1))) ∧
    ((∀ n msg, Atoi libs (ctx.Param "id") = (n, some msg) →
      u.UpdateUser libs ctx s = some (ctx.JSON 400 (.envelope ⟨400, msg, none⟩), s)) ∧
    (∀ id x msg, Atoi libs (ctx.Param "id") = (id, none) →
      libs.BindUser ctx.RequestBody = (x, some msg) →
      u.UpdateUser libs ctx s = some (ctx.JSON 400 (.envelope ⟨400, msg, none⟩), s)) ∧
    (∀ id x, Atoi libs (ctx.Param "id") = (id, none) →
      libs.BindUser ctx.RequestBody = (x, none) →
      AnswersInEnvelope ctx Data.user (u.userService.UpdateUser id x s) (u.UpdateUser libs ctx s))) ∧
    ((∀ n msg, Atoi libs (ctx.Param "id") = (n, some msg) →
      u.DeleteUser libs ctx s = some (ctx.JSON 400 (.envelope ⟨400, msg, none⟩), s)) ∧
    (∀ id, Atoi libs (ctx.Param "id") = (id, none) →
      AnswersInEnvelope ctx Data.user (u.userService.DeleteUser id s) (u.DeleteUser libs ctx s))) ∧
    ((∀ x msg, libs.BindRole ctx.RequestBody = (x, some msg) →
      u.CreateRole libs ctx s = some (ctx.JSON 400 (.envelope ⟨400, msg, none⟩), s)) ∧
    (∀ x, libs.BindRole ctx.RequestBody = (x, none) →
      AnswersInEnvelope ctx Data.role (u.roleService.CreateRole x s) (u.CreateRole libs ctx s))) ∧
    ((∀ n msg, Atoi libs (ctx.Param "id") = (n, some msg) →
      u.GetRole libs ctx s = some (ctx.JSON 400 (.envelope ⟨400, msg, none⟩), s)) ∧
    (∀ id, Atoi libs (ctx.Param "id") = (id, none) →
      AnswersInEnvelope ctx Data.role (u.roleService.GetRole id s) (u.GetRole libs ctx s))) ∧
    (AnswersInEnvelope ctx Data.roles (u.roleService.GetAllRoles s) (u.GetAllRoles libs ctx s)) ∧
    ((∀ n msg, Atoi libs (ctx.Param "id") = (n, some msg) →
      u.UpdateRole libs ctx s = some (ctx.JSON 400 (.envelope ⟨400, msg, none⟩), s)) ∧
    (∀ id x msg, Atoi libs (ctx.Param "id") = (id, none) →
      libs.BindRole ctx.RequestBody = (x, some msg) →
      u.UpdateRole libs ctx s = some (ctx.JSON 400 (.envelope ⟨400, msg, none⟩), s)) ∧
    (∀ id x, Atoi libs (ctx.Param "id") = (id, none) →
      libs.BindRole ctx.RequestBody = (x, none) →
      AnswersInEnvelope ctx Data.role (u.roleService.UpdateRole id x s) (u.UpdateRole libs ctx s))) ∧
    ((∀ n msg, Atoi libs (ctx.Param "id") = (n, some msg) →
      u.DeleteRole libs ctx s = some (ctx.JSON 400 (.envelope ⟨400, msg, none⟩), s)) ∧
    (∀ id, Atoi libs (ctx.Param "id") = (id, none) →
      AnswersInEnvelope ctx Data.role (u.roleService.DeleteRole id s) (u.DeleteRole libs ctx s))) ∧
    ((∀ x msg, libs.BindTruck ctx.RequestBody = (x, some msg) →
      t.CreateTruck libs ctx s = some (ctx.JSON 400 (.envelope ⟨400, msg, none⟩), s)) ∧
    (∀ x, libs.BindTruck ctx.RequestBody = (x, none) →
      AnswersInEnvelope ctx Data.truck (t.truckService.CreateTruck x s) (t.CreateTruck libs ctx s))) ∧
    ((∀ n msg, Atoi libs (ctx.Param "id") = (n, some msg) →
      t.GetTruck libs ctx s = some (ctx.JSON 400 (.envelope ⟨400, msg, none⟩), s)) ∧
    (∀ id, Atoi libs (ctx.Param "id") = (id, none) →
      AnswersInEnvelope ctx Data.truck (t.truckService.GetTruck id s) (t.GetTruck libs ctx s))) ∧
    ((∀ pg msg, ctx.ShouldBindQuery libs ⟨0, 0⟩ = (pg, some msg) →
      t.GetAllTrucks libs ctx s = some (ctx.JSON 400 (.envelope ⟨400, msg, none⟩), s)) ∧
    (∀ pg, ctx.ShouldBindQuery libs ⟨0, 0⟩ = (pg, none) →
      AnswersInEnvelope ctx Data.trucks (t.truckService.GetAllTrucks pg s) (t.GetAllTrucks libs ctx s))) ∧
    ((∀ n msg, Atoi libs (ctx.Param "id") = (n, some msg) →
      t.UpdateTruck libs ctx s = some (ctx.JSON 400 (.envelope ⟨400, msg, none⟩), s)) ∧
    (∀ id x msg, Atoi libs (ctx.Param "id") = (id, none) →
      libs.BindTruck ctx.RequestBody = (x, some msg) →
      t.UpdateTruck libs ctx s = some (ctx.JSON 400 (.envelope ⟨400, msg, none⟩), s)) ∧
    (∀ id x, Atoi libs (ctx.Param "id") = (id, none) →
      libs.BindTruck ctx.RequestBody = (x, none) →
      AnswersInEnvelope ctx Data.truck (t.truckService.UpdateTruck id x s) (t.UpdateTruck libs ctx s))) ∧
    ((∀ n msg, Atoi libs (ctx.Param "id") = (n, some msg) →
      t.DeleteTruck libs ctx s = some (ctx.JSON 400 (.envelope ⟨400, msg, none⟩), s)) ∧
    (∀ id, Atoi libs (ctx.Param "id") = (id, none) →
      AnswersInEnvelope ctx Data.truck (t.truckService.DeleteTruck id s) (t.DeleteTruck libs ctx s))) ∧
    ((∀ x msg, libs.BindItem ctx.RequestBody = (x, some msg) →
      i.CreateItem libs ctx s = some (ctx.JSON 400 (.raw (.H [("error", msg)])), s)) ∧
    (∀ x, libs.BindItem ctx.RequestBody = (x, none) →
      AnswersBare ctx Data.item (i.itemService.CreateItem x s) (i.CreateItem libs ctx s))) ∧
    ((∀ n msg, Atoi libs (ctx.Param "id") = (n, some msg) →
      i.GetItem libs ctx s = some (ctx.JSON 400 (.raw (.H [("error", msg)])), s)) ∧
    (∀ id, Atoi libs (ctx.Param "id") = (id, none) →
      AnswersBare ctx Data.item (i.itemService.GetItem id s) (i.GetItem libs ctx s))) ∧
    (AnswersBare ctx Data.items
      (i.itemService.GetAllItems (queryPagination libs ctx) s) (i.GetAllItems libs ctx s)) ∧
    ((∀ n msg, Atoi libs (ctx.Param "id") = (n, some msg) →
      i.UpdateItem libs ctx s = some (ctx.JSON 400 (.raw (.H [("error", msg)])), s)) ∧
    (∀ id x msg, Atoi libs (ctx.Param "id") = (id, none) →
      libs.BindItem ctx.RequestBody = (x, some msg) →
      i.UpdateItem libs ctx s = some (ctx.JSON 400 (.raw (.H [("error", msg)])), s)) ∧
    (∀ id x, Atoi libs (ctx.Param "id") = (id, none) →
      libs.BindItem ctx.RequestBody = (x, none) →
      AnswersBare ctx Data.item (i.itemService.UpdateItem id x s) (i.UpdateItem libs ctx s))) ∧
    ((∀ n msg, Atoi libs (ctx.Param "id") = (n, some msg) →
      i.DeleteItem libs ctx s = some (ctx.JSON 400 (.raw (.H [("error", msg)])), s)) ∧
    (∀ id, Atoi libs (ctx.Param "id") = (id, none) →
      AnswersBare ctx Data.item (i.itemService.DeleteItem id s) (i.DeleteItem libs ctx s))) ∧
    ((∀ x msg, libs.BindOrder ctx.RequestBody = (x, some msg) →
      o.CreateOrder libs ctx s = some (ctx.JSON 400 (.raw (.H [("error", msg)])), s)) ∧
    (∀ x, libs.BindOrder ctx.RequestBody = (x, none) →
      AnswersBare ctx Data.order (o.orderService.CreateOrder x s) (o.CreateOrder libs ctx s))) ∧
    ((∀ n msg, Atoi libs (ctx.Param "id") = (n, some msg) →
      o.GetOrder libs ctx s = some (ctx.JSON 400 (.raw (.H [("error", msg)])), s)) ∧
    (∀ id, Atoi libs (ctx.Param "id") = (id, none) →
      AnswersBare ctx Data.order (o.orderService.GetOrder id s) (o.GetOrder libs ctx s))) ∧
    (AnswersBare ctx Data.orders
      (o.orderService.GetAllOrders (queryPagination libs ctx) s) (o.GetAllOrders libs ctx s)) ∧
    ((∀ n msg, Atoi libs (ctx.Param "id") = (n, some msg) →
      o.UpdateOrder libs ctx s = some (ctx.JSON 400 (.raw (.H [("error", msg)])), s)) ∧
    (∀ id x msg, Atoi libs (ctx.Param "id") = (id, none) →
      libs.BindOrder ctx.RequestBody = (x, some msg) →
      o.UpdateOrder libs ctx s = some (ctx.JSON 400 (.raw (.H [("error", msg)])), s)) ∧
    (∀ id x, Atoi libs (ctx.Param "id") = (id, none) →
      libs.BindOrder ctx.RequestBody = (x, none) →
      AnswersBare ctx Data.order (o.orderService.UpdateOrder id x s) (o.UpdateOrder libs ctx s))) ∧
    ((∀ n msg, Atoi libs (ctx.Param "id") = (n, some msg) →
      o.DeleteOrder libs ctx s = some (ctx.JSON 400 (.raw (.H [("error", msg)])), s)) ∧
    (∀ id, Atoi libs (ctx.Param "id") = (id, none) →
      AnswersBare ctx Data.order (o.orderService.DeleteOrder id s) (o.DeleteOrder libs ctx s))) :=
  ⟨userHandler_CreateUser_answers u libs ctx s,
   userHandler_GetUser_answers u libs ctx s,
   userHandler_GetAllUsers_answers u libs ctx s,
   userHandler_SignInUser_answers u libs ctx s,
   userHandler_SignOutUser_answers u libs ctx s,
   userHandler_UpdateUser_answers u libs ctx s,
   userHandler_DeleteUser_answers u libs ctx s,
   userHandler_CreateRole_answers u libs ctx s,
   userHandler_GetRole_answers u libs ctx s,
   userHandler_GetAllRoles_answers u libs ctx s,
   userHandler_UpdateRole_answers u libs ctx s,
   userHandler_DeleteRole_answers u libs ctx s,
   truckHandler_CreateTruck_answers t libs ctx s,
   truckHandler_GetTruck_answers t libs ctx s,
   truckHandler_GetAllTrucks_answers t libs ctx s,
   truckHandler_UpdateTruck_answers t libs ctx s,
   truckHandler_DeleteTruck_answers t libs ctx s,
   itemHandler_CreateItem_answers i libs ctx s,
   itemHandler_GetItem_answers i libs ctx s,
   itemHandler_GetAllItems_answers i libs ctx s,
   itemHandler_UpdateItem_answers i libs ctx s,
   itemHandler_DeleteItem_answers i libs ctx s,
   orderHandler_CreateOrder_answers o libs ctx s,
   orderHandler_GetOrder_answers o libs ctx s,
   orderHandler_GetAllOrders_answers o libs ctx s,
   orderHandler_UpdateOrder_answers o libs ctx s,
   orderHandler_DeleteOrder_answers o libs ctx s⟩

end GoWarehouse
